import Mathlib

/-!
Duration-curve control (`wxDVDCCtrl`) of wex: a shallow embedding.

The control of `src/dview/dvdcctrl.cpp` is embedded as pure functions on an explicit
state.  A `double` is an IEEE 754 binary64 value (`Double` below, with NaN, infinities,
signed zeros and rounding to nearest), C++ `int` indices are `Int`, the `int` that
`wxAtoi` returns is cut to 32 bits, container sizes are `Nat`, `wxString` is `String`,
and pointers to heap objects are the address (`Nat`) the allocation returned.

Layout, refresh, busy-cursor and repaint calls have no effect on the state that the
control keeps and are left out.
-/

namespace Wex

/-! ## Doubles -/

/-- A C++ `double`, an IEEE 754 binary64 value.  The finite value `finite neg m e` is
`m * 2^e` times `2^(-1074)`, the least positive double, negated when `neg` is set; a
double has `m < 2^53`, `e ≤ 2045`, and `2^52 ≤ m` unless `e = 0`.  The zeros keep their
sign; the sign and the payload of a NaN, which no operation of the control reads, are
left out. -/
inductive Double where
  | finite (neg : Bool) (m : Nat) (e : Nat)
  | inf (neg : Bool)
  | nan
  deriving DecidableEq, Repr

namespace Double

/-- The test `std::isnan`. -/
def isNaN : Double → Bool
  | nan => true
  | _ => false

/-- The value of a finite double in units of `2^(-1074)`, without its sign. -/
def units : Double → Nat
  | finite _ m e => m <<< e
  | _ => 0

/-- The value of a finite double in units of `2^(-1074)`. -/
def signedUnits : Double → Int
  | finite neg m e => if neg then -((m <<< e : Nat) : Int) else ((m <<< e : Nat) : Int)
  | _ => 0

/-- The value is one a binary64 can hold, written in the one way the model writes it. -/
def valid : Double → Bool
  | finite _ m e => decide (m < 2 ^ 53) && decide (e ≤ 2045) && (decide (e = 0) || decide (2 ^ 52 ≤ m))
  | _ => true

/-- The operator `<` on doubles: false when an operand is a NaN. -/
def lt : Double → Double → Bool
  | nan, _ => false
  | _, nan => false
  | inf a, inf b => a && !b
  | inf a, finite _ _ _ => a
  | finite _ _ _, inf b => !b
  | finite a m e, finite b n f =>
    decide ((finite a m e).signedUnits < (finite b n f).signedUnits)

/-- The operator `<=` on doubles: false when an operand is a NaN. -/
def le : Double → Double → Bool
  | nan, _ => false
  | _, nan => false
  | inf a, inf b => a || !b
  | inf a, finite _ _ _ => a
  | finite _ _ _, inf b => !b
  | finite a m e, finite b n f =>
    decide ((finite a m e).signedUnits ≤ (finite b n f).signedUnits)

/-- The number of binary digits of `n`, counted on at most `fuel` digits. -/
def bitLengthAux : Nat → Nat → Nat
  | 0, _ => 0
  | fuel + 1, n => if n = 0 then 0 else bitLengthAux fuel (n / 2) + 1

/-- The number of binary digits of `n`. -/
def bitLength (n : Nat) : Nat := bitLengthAux n n

/-- The integer nearest to `n / 2^sh`, the even one of two that are equally near. -/
def roundShift (n sh : Nat) : Nat :=
  let q := n / 2 ^ sh
  let r := n % 2 ^ sh
  if 2 * r > 2 ^ sh ∨ (2 * r = 2 ^ sh ∧ q % 2 = 1) then q + 1 else q

/-- Rounding to nearest, ties to even (the rounding mode C++ programs run in): the
double for the exact value `n * 2^x` units of `2^(-1074)`, negated when `neg` is set.
A result of `2^1024` or more in absolute value is an infinity. -/
def round (neg : Bool) (n : Nat) (x : Int) : Double :=
  let e : Int := max (x + bitLength n - 53) 0
  let m : Nat := if x ≤ e then roundShift n (e - x).toNat else n * 2 ^ (x - e).toNat
  if m = 0 then finite neg 0 0
  else if m = 2 ^ 53 then (if e + 1 > 2045 then inf neg else finite neg (2 ^ 52) (e + 1).toNat)
  else if e > 2045 then inf neg
  else finite neg m e.toNat

/-- The operator `*` on doubles. -/
def mul : Double → Double → Double
  | nan, _ => nan
  | _, nan => nan
  | inf a, inf b => inf (a != b)
  | inf a, finite b m _ => if m = 0 then nan else inf (a != b)
  | finite a m _, inf b => if m = 0 then nan else inf (a != b)
  | finite a m e, finite b n f => round (a != b) (m * n) ((e : Int) + (f : Int) - 1074)

/-- The conversion of an `int` to `double`. -/
def ofInt (i : Int) : Double := round (decide (i < 0)) i.natAbs 1074

/-- The double with a given bit pattern (sign, 11 bits of exponent, 52 bits of fraction). -/
def ofBits (b : Nat) : Double :=
  let neg := decide (b / 2 ^ 63 % 2 = 1)
  let ex := b / 2 ^ 52 % 2048
  let fr := b % 2 ^ 52
  if ex = 2047 then (if fr = 0 then inf neg else nan)
  else if ex = 0 then finite neg fr 0
  else finite neg (2 ^ 52 + fr) (ex - 1)

/-- The bit pattern of a double (of a NaN: the one of the default quiet NaN). -/
def toBits : Double → Nat
  | nan => 0x7FF8000000000000
  | inf neg => (if neg then 2 ^ 63 else 0) + 0x7FF0000000000000
  | finite neg m e =>
    (if neg then 2 ^ 63 else 0) + (if m < 2 ^ 52 then m else (e + 1) * 2 ^ 52 + (m - 2 ^ 52))

instance (n : Nat) : OfNat Double n := ⟨ofInt n⟩

/-- The distance of two natural numbers. -/
def gap (a b : Nat) : Nat := (a - b) + (b - a)

/-- The least magnitude, in units of 2^-1074, that rounds to an infinity: half way
between the largest finite double and 2^1024. -/
def overflowUnits : Nat := (2 ^ 54 - 1) * 2 ^ 2044

/-- Rounding to nearest, ties to even, of IEEE 754 as a relation, written without the
functions that compute it: `r` is the double for the exact number of sign `neg` and of
magnitude `N` units of 2^-1074.  It is an infinity from `overflowUnits` on; below, it is a
double in canonical form, no double in canonical form is nearer to `N`, and if another
one is as near, the significand of `r` is even. -/
def IsRounded (r : Double) (neg : Bool) (N : Nat) : Prop :=
  match r with
  | nan => False
  | inf s => s = neg ∧ overflowUnits ≤ N
  | finite s m e => s = neg ∧ (finite s m e).valid = true ∧ N < overflowUnits ∧
      ∀ (t : Bool) (m2 e2 : Nat), (finite t m2 e2).valid = true →
        gap (m * 2 ^ e) N ≤ gap (m2 * 2 ^ e2) N ∧
        (gap (m2 * 2 ^ e2) N = gap (m * 2 ^ e) N → m2 * 2 ^ e2 ≠ m * 2 ^ e → m % 2 = 0)

end Double

/-! ## Data model -/

/-- A point of a series (`wxRealPoint`). -/
structure wxRealPoint where
  x : Double
  y : Double
  deriving DecidableEq, Repr

/-- Modelled from the spec: the class `wxDVTimeSeriesDataSet`, which is not among the
sources, as the values its getters return to the control: `GetSeriesTitle`, `GetUnits`,
`GetGroupName`, `GetLabel`, `GetTitleWithUnits`, `GetTimeStep`, and the points behind
`At` and `Length`.  `addr` is the address of the object: the control holds datasets by
pointer. -/
structure wxDVTimeSeriesDataSet where
  addr : Nat
  seriesTitle : String
  units : String
  groupName : String
  label : String
  titleWithUnits : String
  timeStep : Double
  data : List wxRealPoint
  deriving DecidableEq, Repr

namespace wxDVTimeSeriesDataSet

/-- Modelled from the spec: `Length()` of the dataset, the number of points of the series
(`CalculateDCPlotData` stores it in an `int`). -/
def Length (d : wxDVTimeSeriesDataSet) : Nat := d.data.length

/-- Modelled from the spec: `At(i)` of the dataset, the point at position `i` (the control
never reads past `Length()`). -/
def At (d : wxDVTimeSeriesDataSet) (i : Nat) : wxRealPoint := d.data.getD i ⟨0, 0⟩

end wxDVTimeSeriesDataSet

/-- Modelled from the spec: the axis positions `wxPLPlotCtrl::AxisPos` of the plot surface
(the header of the surface is not among the sources). -/
inductive AxisPos where
  | X_BOTTOM
  | X_TOP
  | Y_LEFT
  | Y_RIGHT
  deriving DecidableEq, Repr

/-- Modelled from the spec: a line plot (`wxPLLinePlot`, not among the sources) as the
control builds it: the address `new` returned, the points and the label given to the
constructor, the two data labels and the colour the control sets. -/
structure wxPLLinePlot where
  addr : Nat
  data : List wxRealPoint
  label : String
  xDataLabel : String
  yDataLabel : String
  colour : Nat
  deriving DecidableEq, Repr

/-- The `PlotSet` of the control, with the three fields `dvdcctrl.cpp` uses: a dataset,
its plot (`none` is the null pointer the constructor stores) and an axis position
(`none`: the constructor leaves the field uninitialised). -/
structure PlotSet where
  dataset : wxDVTimeSeriesDataSet
  plot : Option wxPLLinePlot
  axisPosition : Option AxisPos
  deriving DecidableEq, Repr

/-- Embedding of `PlotSet::PlotSet(ds)`: `dataset = ds; plot = 0;`. -/
def PlotSet.new (ds : wxDVTimeSeriesDataSet) : PlotSet :=
  { dataset := ds, plot := none, axisPosition := none }

/-- The pointer stored in `p->plot`: `none` for the null pointer. -/
def PlotSet.plotPtr (p : PlotSet) : Option Nat := p.plot.map (fun q => q.addr)

/-! ## `CalculateDCPlotData` -/

/-- The inner loop of the insertion sort behind `std::sort` (libstdc++,
`__unguarded_linear_insert`), on the sorted part read from its end: `val` moves towards
the front past every element it is less than, and stops at the first one it is not less
than. -/
def linearInsert (val : Double) : List Double → List Double
  | [] => [val]
  | next :: rest =>
    if Double.lt val next then next :: linearInsert val rest else val :: next :: rest

/-- One round of the insertion sort behind `std::sort` (libstdc++, `__insertion_sort`): a
value less than the first element goes to the front, any other value is moved in from the
end. -/
def insertionStep (sorted : List Double) (val : Double) : List Double :=
  match sorted with
  | [] => [val]
  | first :: _ =>
    if Double.lt val first then val :: sorted
    else (linearInsert val sorted.reverse).reverse

/-- The call `std::sort(begin, end)` on doubles, comparing with `<`.  The library is not
among the sources.  For values without a NaN every implementation returns them in
ascending order, and only the order of values that compare equal (`0.0` and `-0.0`) is
left open; with a NaN the C++ standard leaves the result open.  The definition is the
insertion sort that libstdc++ runs on a range of at most 16 elements. -/
def stdSort (v : List Double) : List Double := v.foldl insertionStep []

/-- The vector `sortedData` of `CalculateDCPlotData` before sorting: `len` zeros
overwritten by `d->At(i).y` for `i < len`. -/
def copyYValues (d : wxDVTimeSeriesDataSet) : List Double :=
  (List.range d.Length).map (fun i => (d.At i).y)

/-- The vector `pd` of `CalculateDCPlotData`: for `i < len` the point
`(i * GetTimeStep(), sortedData[len - i - 1])`, the `int` `i` converted to `double` for
the product. -/
def durationPoints (d : wxDVTimeSeriesDataSet) : List wxRealPoint :=
  let sortedData := stdSort (copyYValues d)
  let len := d.Length
  (List.range len).map
    (fun (i : Nat) =>
      wxRealPoint.mk (Double.mul (Double.ofInt i) d.timeStep) (sortedData.getD (len - i - 1) 0))

/-- Embedding of `wxDVDCCtrl::CalculateDCPlotData(p)`.  `fresh` is the address the `new wxPLLinePlot`
of the body returns when it runs. -/
def CalculateDCPlotData (fresh : Nat) (p : PlotSet) : PlotSet :=
  let d := p.dataset
  if p.plot.isSome then p
  else
    let lbl := d.seriesTitle ++ " (" ++ d.units ++ ")"
    { p with plot := some (wxPLLinePlot.mk fresh (durationPoints d) lbl
        "Hours equaled or exceeded" lbl 0) }

/-! ## The selection list (`wxDVSelectionListCtrl`) -/

/-- The `row_item` of `dvselectionlist.h`, restricted to column 0 of its per-column
arrays `value` and `enable`: the control builds the list with one column and passes
column 0 everywhere.  The cached geometry and `row_index` are left out. -/
structure row_item where
  color : Nat
  label : String
  group : String
  value : Bool
  enable : Bool
  deriving DecidableEq, Repr

/-- The state of a `wxDVSelectionListCtrl`: the rows and the record of the last
checkbox event (`m_lastEventRow`, `m_lastEventCol`, `m_lastEventValue`). -/
structure wxDVSelectionListCtrl where
  m_itemList : List row_item
  m_lastEventRow : Int
  m_lastEventCol : Int
  m_lastEventValue : Bool
  deriving DecidableEq, Repr

namespace wxDVSelectionListCtrl

/-- Modelled from the spec: the constructor of the selection list, whose body is not
among the sources; a new list has no rows. -/
def new : wxDVSelectionListCtrl :=
  { m_itemList := [], m_lastEventRow := -1, m_lastEventCol := -1, m_lastEventValue := false }

/-- Modelled from the spec: `Append(name, group)`, whose body is not among the sources;
it adds a row (label, group, checked and enabled flags) after the existing ones, not
checked and enabled. -/
def Append (l : wxDVSelectionListCtrl) (name group : String) : wxDVSelectionListCtrl :=
  { l with m_itemList := l.m_itemList ++
      [row_item.mk 0 name group false true] }

/-- Modelled from the spec: `Length()`, declared as "This is number of rows". -/
def Length (l : wxDVSelectionListCtrl) : Nat := l.m_itemList.length

/-- Modelled from the spec: `IsSelected(row, 0)`, whose body is not among the sources;
the checked flag of the row, false for a row that does not exist. -/
def IsSelected (l : wxDVSelectionListCtrl) (row : Nat) : Bool :=
  match l.m_itemList[row]? with
  | some r => r.value
  | none => false

/-- Modelled from the spec: the enabled flag of column 0 of a row, false for a row that
does not exist (the header declares the flag but no getter). -/
def IsEnabled (l : wxDVSelectionListCtrl) (row : Nat) : Bool :=
  match l.m_itemList[row]? with
  | some r => r.enable
  | none => false

/-- Modelled from the spec: `SelectRowInCol(row, 0, value)`, whose body is not among the
sources; it sets the checked flag of an existing row and does nothing otherwise. -/
def SelectRowInCol (l : wxDVSelectionListCtrl) (row : Nat) (value : Bool) :
    wxDVSelectionListCtrl :=
  match l.m_itemList[row]? with
  | some r => { l with m_itemList := l.m_itemList.set row { r with value := value } }
  | none => l

/-- Modelled from the spec: `Enable(row, 0, enable)`, whose body is not among the
sources; it sets the enabled flag of an existing row and does nothing otherwise. -/
def Enable (l : wxDVSelectionListCtrl) (row : Nat) (enable : Bool) : wxDVSelectionListCtrl :=
  match l.m_itemList[row]? with
  | some r => { l with m_itemList := l.m_itemList.set row { r with enable := enable } }
  | none => l

/-- Modelled from the spec: `GetSelectionsInCol(0)`, whose body is not among the sources;
the indices of the checked rows, in row order. -/
def GetSelectionsInCol (l : wxDVSelectionListCtrl) : List Nat :=
  (List.range l.Length).filter (fun i => l.IsSelected i)

/-- Modelled from the spec: `GetSelectedNamesInCol(0)`, whose body is not among the
sources; the labels of the checked rows, each followed by `;` (the separator
`SetSelectedNames` splits at). -/
def GetSelectedNamesInCol (l : wxDVSelectionListCtrl) : String :=
  (l.m_itemList.filter (fun r => r.value)).foldl (fun acc r => acc ++ r.label ++ ";") ""

/-- The index of the first row labelled `name`, counting from `k`. -/
def findLabel (name : String) : List row_item → Nat → Option Nat
  | [], _ => none
  | r :: rs, k => if r.label = name then some k else findLabel name rs (k + 1)

/-- Modelled from the spec: `SelectRowWithNameInCol(name, 0)` ("Returns row"), whose body
is not among the sources; it checks the first row labelled `name` and returns its
index, and returns -1 and changes nothing when no row has that label. -/
def SelectRowWithNameInCol (l : wxDVSelectionListCtrl) (name : String) :
    wxDVSelectionListCtrl × Int :=
  match findLabel name l.m_itemList 0 with
  | some i => (l.SelectRowInCol i true, (i : Int))
  | none => (l, -1)

/-- Modelled from the spec: `GetColourForIndex(index)` of the colour assigner the list
inherits from, whose body is not among the sources; the colour kept for the row. -/
def GetColourForIndex (l : wxDVSelectionListCtrl) (index : Nat) : Nat :=
  match l.m_itemList[index]? with
  | some r => r.color
  | none => 0

/-- Modelled from the spec: a click on the checkbox of `row` ("checkbox toggling
shows/hides a plot"; the mouse handler is not among the sources).  The checkbox of an
existing, enabled row flips and the event record is filled in; `none` when the click
raises no event. -/
def toggle (l : wxDVSelectionListCtrl) (row : Nat) : Option wxDVSelectionListCtrl :=
  match l.m_itemList[row]? with
  | some r =>
    if r.enable then
      some { m_itemList := l.m_itemList.set row { r with value := !r.value }
             m_lastEventRow := (row : Int)
             m_lastEventCol := 0
             m_lastEventValue := !r.value }
    else none
  | none => none

/-- Modelled from the spec: `RemoveAt(row)`, whose body is not among the sources; it
removes the row at that index and keeps the others in their order, and does nothing
for an index that is not a row. -/
def RemoveAt (l : wxDVSelectionListCtrl) (row : Int) : wxDVSelectionListCtrl :=
  if row < 0 ∨ row ≥ (l.m_itemList.length : Int) then l
  else { l with m_itemList := l.m_itemList.eraseIdx row.toNat }

/-- Modelled from the spec: `RemoveAll()`, whose body is not among the sources; it
removes every row. -/
def RemoveAll (l : wxDVSelectionListCtrl) : wxDVSelectionListCtrl :=
  { l with m_itemList := [] }

/-- The name and the group each row was appended with, in row order. -/
def rowKeys (l : wxDVSelectionListCtrl) : List (String × String) :=
  l.m_itemList.map (fun r => (r.label, r.group))

/-- The checked flags of the rows, in row order. -/
def values (l : wxDVSelectionListCtrl) : List Bool := l.m_itemList.map (fun r => r.value)

/-- The labels of the rows, in row order. -/
def labels (l : wxDVSelectionListCtrl) : List String := l.m_itemList.map (fun r => r.label)

end wxDVSelectionListCtrl

/-! ## The plot surface (`wxPLPlotCtrl`) -/

/-- Modelled from the spec: the part of a `wxPLAxis` (not among the sources) the control
reads and writes, its units and its label. -/
structure wxPLAxis where
  units : String
  label : String
  deriving DecidableEq, Repr

/-- Modelled from the spec: one plot held by the surface (not among the sources), the
pointer given to `AddPlot` (`none` for a null pointer) and the two axis positions it was
added with. -/
structure plot_data where
  plot : Option Nat
  xap : AxisPos
  yap : AxisPos
  deriving DecidableEq, Repr

/-- Modelled from the spec: the state of the plot surface `wxPLPlotCtrl` (not among the
sources), the plots it holds, in the order they were added, and its four axes (`none`:
no axis at that position). -/
structure wxPLPlotCtrl where
  m_plots : List plot_data
  m_x1 : Option wxPLAxis
  m_x2 : Option wxPLAxis
  m_y1 : Option wxPLAxis
  m_y2 : Option wxPLAxis
  deriving DecidableEq, Repr

namespace wxPLPlotCtrl

/-- Modelled from the spec: the constructor of the plot surface (not among the sources);
a new surface holds no plot and has no axis. -/
def new : wxPLPlotCtrl :=
  { m_plots := [], m_x1 := none, m_x2 := none, m_y1 := none, m_y2 := none }

/-- Modelled from the spec: `GetAxis(pos)` (not among the sources). -/
def GetAxis (c : wxPLPlotCtrl) : AxisPos → Option wxPLAxis
  | .X_BOTTOM => c.m_x1
  | .X_TOP => c.m_x2
  | .Y_LEFT => c.m_y1
  | .Y_RIGHT => c.m_y2

/-- Modelled from the spec: `SetAxis(axis, pos)` (not among the sources). -/
def SetAxis (c : wxPLPlotCtrl) (a : Option wxPLAxis) : AxisPos → wxPLPlotCtrl
  | .X_BOTTOM => { c with m_x1 := a }
  | .X_TOP => { c with m_x2 := a }
  | .Y_LEFT => { c with m_y1 := a }
  | .Y_RIGHT => { c with m_y2 := a }

/-- Modelled from the spec: `GetXAxis1()`, the bottom X axis. -/
def GetXAxis1 (c : wxPLPlotCtrl) : Option wxPLAxis := c.GetAxis .X_BOTTOM

/-- Modelled from the spec: `GetYAxis1()`, the left Y axis. -/
def GetYAxis1 (c : wxPLPlotCtrl) : Option wxPLAxis := c.GetAxis .Y_LEFT

/-- Modelled from the spec: `GetYAxis2()`, the right Y axis. -/
def GetYAxis2 (c : wxPLPlotCtrl) : Option wxPLAxis := c.GetAxis .Y_RIGHT

/-- Modelled from the spec: `SetYAxis1(axis)`; a null axis removes the left Y axis. -/
def SetYAxis1 (c : wxPLPlotCtrl) (a : Option wxPLAxis) : wxPLPlotCtrl := c.SetAxis a .Y_LEFT

/-- Modelled from the spec: `SetYAxis2(axis)`; a null axis removes the right Y axis. -/
def SetYAxis2 (c : wxPLPlotCtrl) (a : Option wxPLAxis) : wxPLPlotCtrl := c.SetAxis a .Y_RIGHT

/-- Modelled from the spec: `GetAxis(pos)->SetUnits(units)` (not among the sources); the
control only calls it on an axis that exists. -/
def SetUnits (c : wxPLPlotCtrl) (pos : AxisPos) (units : String) : wxPLPlotCtrl :=
  c.SetAxis ((c.GetAxis pos).map (fun a => { a with units := units })) pos

/-- Modelled from the spec: `GetAxis(pos)->SetLabel(label)` (not among the sources). -/
def SetLabel (c : wxPLPlotCtrl) (pos : AxisPos) (label : String) : wxPLPlotCtrl :=
  c.SetAxis ((c.GetAxis pos).map (fun a => { a with label := label })) pos

/-- Modelled from the spec: the axis a plot suggests for a position that has none; the
control overwrites the units and label of a new Y axis before it reads them. -/
def suggestedAxis : wxPLAxis := { units := "", label := "" }

/-- Modelled from the spec: `AddPlot(plot, xap, yap)` (not among the sources).  The plot
is appended to the plots of the surface with its two axis positions, and an axis is
created at each of the two positions that has none: `ShowPlotAtIndex` dereferences
`GetAxis(yap)` right after the call.  A null pointer is stored like any other. -/
def AddPlot (c : wxPLPlotCtrl) (plot : Option Nat) (xap yap : AxisPos) : wxPLPlotCtrl :=
  let c1 := { c with m_plots := c.m_plots ++ [plot_data.mk plot xap yap] }
  let c2 := if (c1.GetAxis xap).isNone then c1.SetAxis (some suggestedAxis) xap else c1
  if (c2.GetAxis yap).isNone then c2.SetAxis (some suggestedAxis) yap else c2

/-- Modelled from the spec: `RemovePlot(plot)` (not among the sources).  The first entry
of the surface holding that pointer is erased and the axes stay (`HidePlotAtIndex` moves
a plot to the other axis by `RemovePlot` followed by `AddPlot`).  Nothing happens when
the surface does not hold the pointer: the destructor of the control calls it for every
plot "in case it's shown". -/
def RemovePlot (c : wxPLPlotCtrl) (plot : Option Nat) : wxPLPlotCtrl :=
  { c with m_plots := c.m_plots.eraseP (fun e => decide (e.plot = plot)) }

/-- A plot pointer is attached to the surface on Y axis position `yap`. -/
def attachedAt (c : wxPLPlotCtrl) (plot : Option Nat) (yap : AxisPos) : Prop :=
  ∃ e ∈ c.m_plots, e.plot = plot ∧ e.yap = yap

/-- A plot pointer is attached to the surface. -/
def attached (c : wxPLPlotCtrl) (plot : Option Nat) : Prop :=
  ∃ e ∈ c.m_plots, e.plot = plot

instance (c : wxPLPlotCtrl) (plot : Option Nat) (yap : AxisPos) :
    Decidable (c.attachedAt plot yap) := by
  unfold attachedAt; exact inferInstance

instance (c : wxPLPlotCtrl) (plot : Option Nat) : Decidable (c.attached plot) := by
  unfold attached; exact inferInstance

end wxPLPlotCtrl

/-! ## Strings: `wxStringTokenizer`, `wxAtoi` and decimal output -/

/-- The tokens `wxStringTokenizer` yields after a token has started: `cur` holds the
characters of the running token in reverse.  At a delimiter the token ends, and the
tokenizer has more tokens only if a character other than the delimiter is left. -/
def tokAux (delim : Char) : List Char → List Char → List (List Char)
  | cur, [] => [cur.reverse]
  | cur, c :: cs =>
    if c = delim then
      cur.reverse :: (if cs.any (fun x => decide (x ≠ delim)) then tokAux delim [] cs else [])
    else tokAux delim (c :: cur) cs

/-- The sequence of `GetNextToken()` results of a `wxStringTokenizer(s, delim)` with one
delimiter that is not white space, read while `HasMoreTokens()` holds.  In that mode
(`wxTOKEN_RET_EMPTY`) empty tokens between delimiters are returned, an empty token after
the last delimiter is not, and an empty string has no token. -/
def wxStringTokenizer (s : String) (delim : Char) : List String :=
  if s.data = [] then [] else (tokAux delim [] s.data).map String.mk

/-- The characters `isspace` accepts in the C locale. -/
def isspace (c : Char) : Bool :=
  c = ' ' || c.toNat = 9 || c.toNat = 10 || c.toNat = 11 || c.toNat = 12 || c.toNat = 13

/-- The digits read by `atoi`: the value of the longest run of decimal digits at the
front, on top of the value `acc` read so far. -/
def atoiDigits (acc : Nat) : List Char → Nat
  | [] => acc
  | c :: cs => if c.isDigit then atoiDigits (acc * 10 + (c.toNat - 48)) cs else acc

/-- The function `strtol(str, 0, 10)` of the C library, with the 64-bit `long` of Linux:
white space is skipped, a sign is read, then the longest run of digits; 0 when there is
no digit; a number outside `long` gives `LONG_MAX` or `LONG_MIN`. -/
def strtol (str : String) : Int :=
  match str.data.dropWhile isspace with
  | '-' :: cs => max (-(atoiDigits 0 cs : Int)) (-9223372036854775808)
  | '+' :: cs => min (atoiDigits 0 cs : Int) 9223372036854775807
  | cs => min (atoiDigits 0 cs : Int) 9223372036854775807

/-- The conversion of a `long` to `int`: the low 32 bits, read as a signed number. -/
def toInt32 (v : Int) : Int := (v + 2147483648) % 4294967296 - 2147483648

/-- The function `wxAtoi(str)`, which hands the characters to `atoi` of the C library; in
glibc that is `(int) strtol(str, 0, 10)`, so a number outside `int` comes back as its low
32 bits. -/
def wxAtoi (str : String) : Int := toInt32 (strtol str)

/-- Spec side: the comma-separated tokens of a string, which are the pieces between its
commas up to the last piece that is not empty. -/
def commaTokens (s : String) : List String :=
  ((s.data.splitOn ',').reverse.dropWhile (fun piece => piece.isEmpty)).reverse.map String.mk

/-- Spec side: the number that a run of decimal digits writes. -/
def decimalValue (digits : List Char) : Nat :=
  Nat.ofDigits 10 (digits.reverse.map (fun c => c.toNat - 48))

/-- Spec side: the number at the front of a token.  White space before it and one sign
are allowed, the digits end at the first other character, and a token without a digit
there counts as 0. -/
def leadingNumber (tok : String) : Int :=
  let body := tok.data.dropWhile isspace
  let unsigned := if body.head? = some '-' ∨ body.head? = some '+' then body.tail else body
  let v : Int := (decimalValue (unsigned.takeWhile Char.isDigit) : Int)
  if body.head? = some '-' then -v else v

/-- Spec side: `k` is the integer value of the token as a C `int`.  The number at the
front of the token is limited to the range of a 64-bit `long`, and `k` is the number in
the range of `int` that differs from it by a multiple of `2^32`. -/
def IsIntValue (tok : String) (k : Int) : Prop :=
  -2147483648 ≤ k ∧ k < 2147483648 ∧
  (k - max (-9223372036854775808) (min 9223372036854775807 (leadingNumber tok))) % 4294967296 = 0

instance (tok : String) (k : Int) : Decidable (IsIntValue tok k) := by
  unfold IsIntValue; exact inferInstance

/-- The decimal digits of `n`, most significant first, with `fuel` bounding their number. -/
def decimalFuel : Nat → Nat → List Char
  | 0, _ => []
  | fuel + 1, n =>
    if n < 10 then [Char.ofNat (48 + n)]
    else decimalFuel fuel (n / 10) ++ [Char.ofNat (48 + n % 10)]

/-- What `ss << selection` appends for a non-negative `int`: its decimal digits. -/
def decimal (n : Nat) : List Char := decimalFuel (n + 1) n

/-! ## The control (`wxDVDCCtrl`) -/

/-- The constant `NO_UNITS` of `dvdcctrl.cpp`. -/
def NO_UNITS : String := "ThereAreNoUnitsForThisAxis."

instance : Inhabited PlotSet := ⟨PlotSet.new ⟨0, "", "", "", "", "", 0, []⟩⟩

/-- The state of a `wxDVDCCtrl`: the plot surface, the selection list, the vector
`m_plots`, the vector `m_currentlyShownIndices`, and the next address the allocator
hands out for a plot (`m_heap`). -/
structure wxDVDCCtrl where
  m_plotSurface : wxPLPlotCtrl
  m_dataSelector : wxDVSelectionListCtrl
  m_plots : List PlotSet
  m_currentlyShownIndices : List Int
  m_heap : Nat
  deriving DecidableEq, Repr

namespace wxDVDCCtrl

/-- The constructor `wxDVDCCtrl::wxDVDCCtrl`: a new surface, a new one-column selection
list, no plot sets. -/
def new : wxDVDCCtrl :=
  { m_plotSurface := wxPLPlotCtrl.new
    m_dataSelector := wxDVSelectionListCtrl.new
    m_plots := []
    m_currentlyShownIndices := []
    m_heap := 0 }

/-- The access `m_plots[i]`.  The source reads it without a bounds check; an index past
the end (undefined behaviour in the source) reads a plot set without units here. -/
def plotAt (s : wxDVDCCtrl) (i : Nat) : PlotSet := s.m_plots.getD i default

/-- The expression `m_plots[i]->dataset->GetUnits()`. -/
def unitsAt (s : wxDVDCCtrl) (i : Nat) : String := (s.plotAt i).dataset.units

/-- Embedding of `wxDVDCCtrl::AddDataSet(d, update_ui)`. -/
def AddDataSet (s : wxDVDCCtrl) (d : wxDVTimeSeriesDataSet) : wxDVDCCtrl :=
  { s with
    m_dataSelector := s.m_dataSelector.Append d.titleWithUnits d.groupName
    m_plots := s.m_plots ++ [PlotSet.new d] }

/-- The loops `for (i < m_plots.size()) m_dataSelector->Enable(i, 0, f(i))` of
`RefreshDisabledCheckBoxes`. -/
def enableLoop (l : wxDVSelectionListCtrl) (n : Nat) (f : Nat → Bool) : wxDVSelectionListCtrl :=
  (List.range n).foldl (fun acc i => acc.Enable i (f i)) l

/-- The search for `units2` in `RefreshDisabledCheckBoxes`: the first selected row after
the first one whose units differ from `units1` (the loop stops there by `break`). -/
def findUnits2 (s : wxDVDCCtrl) (currently_shown : List Nat) (units1 : String) : Option String :=
  ((currently_shown.drop 1).find? (fun k => decide (s.unitsAt k ≠ units1))).map
    (fun k => s.unitsAt k)

/-- Embedding of `wxDVDCCtrl::RefreshDisabledCheckBoxes()`. -/
def RefreshDisabledCheckBoxes (s : wxDVDCCtrl) : wxDVDCCtrl :=
  let currently_shown := s.m_dataSelector.GetSelectionsInCol
  if currently_shown.length < 2 then
    { s with m_dataSelector := enableLoop s.m_dataSelector s.m_plots.length (fun _ => true) }
  else
    let units1 := s.unitsAt (currently_shown.getD 0 0)
    match findUnits2 s currently_shown units1 with
    | none =>
      { s with m_dataSelector := enableLoop s.m_dataSelector s.m_plots.length (fun _ => true) }
    | some units2 =>
      let ok := fun i => decide (units1 = s.unitsAt i ∨ units2 = s.unitsAt i)
      { s with m_dataSelector := enableLoop s.m_dataSelector s.m_plots.length ok }

/-- The function `RefreshDisabledCheckBoxes` hands to its enabling loop. -/
def refreshFlags (s : wxDVDCCtrl) : Nat → Bool :=
  let currently_shown := s.m_dataSelector.GetSelectionsInCol
  if currently_shown.length < 2 then fun _ => true
  else
    let units1 := s.unitsAt (currently_shown.getD 0 0)
    match findUnits2 s currently_shown units1 with
    | none => fun _ => true
    | some units2 => fun i => decide (units1 = s.unitsAt i ∨ units2 = s.unitsAt i)

/-- The local `y1Units` of `ShowPlotAtIndex` and `HidePlotAtIndex`: the units of the left
Y axis, `NO_UNITS` when there is none. -/
def y1Units (c : wxPLPlotCtrl) : String :=
  match c.GetYAxis1 with
  | some a => a.units
  | none => NO_UNITS

/-- The local `y2Units`: the units of the right Y axis, `NO_UNITS` when there is none. -/
def y2Units (c : wxPLPlotCtrl) : String :=
  match c.GetYAxis2 with
  | some a => a.units
  | none => NO_UNITS

/-- The choice of `yap` in `ShowPlotAtIndex` (the four-way `if` on the axes). -/
def chooseYap (c : wxPLPlotCtrl) (units : String) : AxisPos :=
  if c.GetYAxis1.isSome ∧ y1Units c = units then AxisPos.Y_LEFT
  else if c.GetYAxis2.isSome ∧ y2Units c = units then AxisPos.Y_RIGHT
  else if c.GetYAxis1.isNone then AxisPos.Y_LEFT
  else AxisPos.Y_RIGHT

/-- The counting loop of `ShowPlotAtIndex`: the pair
`(NumY1AxisSelections, NumY2AxisSelections)` after the loop over the rows. -/
def showCounts (l : wxDVSelectionListCtrl) (plots : List PlotSet) (units : String)
    (yap : AxisPos) : Nat × Nat :=
  (List.range l.Length).foldl
    (fun n i =>
      if l.IsSelected i = true ∧ (plots.getD i default).dataset.units = units then
        (if yap = AxisPos.Y_LEFT then (n.1 + 1, n.2) else (n.1, n.2 + 1))
      else n)
    (0, 0)

/-- The plot set `m_plots[i]` after the first two statements of `ShowPlotAtIndex`:
`CalculateDCPlotData(m_plots[i])` and `plot->SetColour(GetColourForIndex(i))`. -/
def shownPlotSet (s : wxDVDCCtrl) (i : Nat) : PlotSet :=
  let p1 := CalculateDCPlotData s.m_heap (s.plotAt i)
  let colour := s.m_dataSelector.GetColourForIndex i
  { p1 with plot := p1.plot.map (fun q => { q with colour := colour }) }

/-- The body of `ShowPlotAtIndex` for an index in range, up to the call of
`RefreshDisabledCheckBoxes`. -/
def showCore (s : wxDVDCCtrl) (i : Nat) : wxDVDCCtrl :=
  let heap := if (s.plotAt i).plot.isSome then s.m_heap else s.m_heap + 1
  let p2 := shownPlotSet s i
  let plots := s.m_plots.set i p2
  let units := p2.dataset.units
  let yap := chooseYap s.m_plotSurface units
  let surf1 := s.m_plotSurface.AddPlot p2.plotPtr AxisPos.X_BOTTOM yap
  let surf2 := surf1.SetUnits yap units
  let n := showCounts s.m_dataSelector plots units yap
  let YLabelText :=
    if (n.1 = 1 ∧ yap = AxisPos.Y_LEFT) ∨ (n.2 = 1 ∧ yap = AxisPos.Y_RIGHT) then
      p2.dataset.label
    else units
  let surf3 := surf2.SetLabel yap YLabelText
  let surf4 := surf3.SetLabel AxisPos.X_BOTTOM "Hours Equaled or Exceeded"
  { s with m_plots := plots, m_plotSurface := surf4, m_heap := heap }

/-- Embedding of `wxDVDCCtrl::ShowPlotAtIndex(index)`. -/
def ShowPlotAtIndex (s : wxDVDCCtrl) (index : Int) : wxDVDCCtrl :=
  if 0 ≤ index ∧ index < (s.m_plots.length : Int) then
    RefreshDisabledCheckBoxes (showCore s index.toNat)
  else s

/-- The four counters of `HidePlotAtIndex`. -/
structure HideCounters where
  NumY1AxisSelections : Nat
  NumY2AxisSelections : Nat
  FirstY1AxisSelectionIndex : Int
  FirstY2AxisSelectionIndex : Int
  deriving DecidableEq, Repr

/-- One round of the counting loop of `HidePlotAtIndex`, for the selected row `k`. -/
def hideCountStep (s : wxDVDCCtrl) (u1 u2 : String) (a : HideCounters) (k : Nat) :
    HideCounters :=
  let a1 :=
    if s.unitsAt k = u1 then
      { a with
        NumY1AxisSelections := a.NumY1AxisSelections + 1
        FirstY1AxisSelectionIndex :=
          if a.FirstY1AxisSelectionIndex = -1 then (k : Int) else a.FirstY1AxisSelectionIndex }
    else a
  if s.unitsAt k = u2 then
    { a1 with
      NumY2AxisSelections := a1.NumY2AxisSelections + 1
      FirstY2AxisSelectionIndex :=
        if a1.FirstY2AxisSelectionIndex = -1 then (k : Int) else a1.FirstY2AxisSelectionIndex }
  else a1

/-- The counting loop of `HidePlotAtIndex` over `currently_shown`. -/
def hideCounts (s : wxDVDCCtrl) (u1 u2 : String) (currently_shown : List Nat) : HideCounters :=
  currently_shown.foldl (hideCountStep s u1 u2) ⟨0, 0, -1, -1⟩

/-- One round of the loop of `HidePlotAtIndex` that moves the shown plots to the left
axis: `axisPosition = Y_LEFT; RemovePlot(plot); AddPlot(plot, X_BOTTOM, Y_LEFT)`. -/
def moveLeftStep (a : List PlotSet × wxPLPlotCtrl) (k : Nat) : List PlotSet × wxPLPlotCtrl :=
  let p := a.1.getD k default
  (a.1.set k { p with axisPosition := some AxisPos.Y_LEFT },
   (a.2.RemovePlot p.plotPtr).AddPlot p.plotPtr AxisPos.X_BOTTOM AxisPos.Y_LEFT)

/-- The label chosen for an axis in `HidePlotAtIndex`: the dataset's own label when one
selected row only has the units of the axis, the units otherwise. -/
def hideLabel (s : wxDVDCCtrl) (num : Nat) (first : Int) (units : String) : String :=
  if num = 1 ∧ first > -1 then (s.plotAt first.toNat).dataset.label else units

/-- The body of `HidePlotAtIndex` for an index in range, up to the call of
`RefreshDisabledCheckBoxes`. -/
def hideCore (s : wxDVDCCtrl) (i : Nat) : wxDVDCCtrl :=
  let surf0 := s.m_plotSurface.RemovePlot (s.plotAt i).plotPtr
  let u1 := y1Units surf0
  let u2 := y2Units surf0
  let currently_shown := s.m_dataSelector.GetSelectionsInCol
  let n := hideCounts s u1 u2 currently_shown
  if n.NumY1AxisSelections > 0 then
    let lbl1 := hideLabel s n.NumY1AxisSelections n.FirstY1AxisSelectionIndex u1
    let surf1 :=
      if (surf0.GetAxis AxisPos.Y_LEFT).isSome then
        (surf0.SetUnits AxisPos.Y_LEFT u1).SetLabel AxisPos.Y_LEFT lbl1
      else surf0
    if n.NumY2AxisSelections > 0 then
      let lbl2 := hideLabel s n.NumY2AxisSelections n.FirstY2AxisSelectionIndex u2
      let surf2 :=
        if (surf1.GetAxis AxisPos.Y_RIGHT).isSome then
          (surf1.SetUnits AxisPos.Y_RIGHT u2).SetLabel AxisPos.Y_RIGHT lbl2
        else surf1
      { s with m_plotSurface := surf2 }
    else
      { s with m_plotSurface := surf1.SetYAxis2 none }
  else if n.NumY2AxisSelections > 0 then
    let surf1 := (surf0.SetYAxis1 none).SetYAxis2 none
    let moved := currently_shown.foldl moveLeftStep (s.m_plots, surf1)
    let lbl := hideLabel { s with m_plots := moved.1 } n.NumY2AxisSelections
      n.FirstY2AxisSelectionIndex u2
    let surf2 :=
      if (moved.2.GetAxis AxisPos.Y_LEFT).isSome then
        (moved.2.SetUnits AxisPos.Y_LEFT u2).SetLabel AxisPos.Y_LEFT lbl
      else moved.2
    { s with m_plots := moved.1, m_plotSurface := surf2.SetYAxis2 none }
  else
    { s with m_plotSurface := (surf0.SetYAxis1 none).SetYAxis2 none }

/-- Embedding of `wxDVDCCtrl::HidePlotAtIndex(index, update)`; `update` only asks for a repaint. -/
def HidePlotAtIndex (s : wxDVDCCtrl) (index : Int) : wxDVDCCtrl :=
  if index < 0 ∨ index ≥ (s.m_plots.length : Int) then s
  else RefreshDisabledCheckBoxes (hideCore s index.toNat)

/-- Embedding of `wxDVDCCtrl::SelectDataSetAtIndex(index)`. -/
def SelectDataSetAtIndex (s : wxDVDCCtrl) (index : Int) : wxDVDCCtrl :=
  if index < 0 ∨ index ≥ (s.m_plots.length : Int) then s
  else
    ShowPlotAtIndex
      { s with m_dataSelector := s.m_dataSelector.SelectRowInCol index.toNat true } index

/-- Embedding of `wxDVDCCtrl::OnDataChannelSelection`: the handler of the checkbox event of the
selection list. -/
def OnDataChannelSelection (s : wxDVDCCtrl) : wxDVDCCtrl :=
  let row := s.m_dataSelector.m_lastEventRow
  let isChecked := s.m_dataSelector.m_lastEventValue
  if isChecked then ShowPlotAtIndex s row else HidePlotAtIndex s row

/-- A click on the checkbox of `row` of the selection list: the list flips the checkbox
and raises its event, which the event table of the control routes to
`OnDataChannelSelection`. -/
def checkBoxClick (s : wxDVDCCtrl) (row : Nat) : wxDVDCCtrl :=
  match s.m_dataSelector.toggle row with
  | some l => OnDataChannelSelection { s with m_dataSelector := l }
  | none => s

/-- One round of the loop of `SetSelectedNames` for the token `token`. -/
def setSelectedNamesStep (restrictToSmallDataSets : Bool) (s : wxDVDCCtrl) (token : String) :
    wxDVDCCtrl :=
  let r := s.m_dataSelector.SelectRowWithNameInCol token
  let s1 := { s with m_dataSelector := r.1 }
  if r.2 ≠ -1 then
    if ¬ (restrictToSmallDataSets = true ∧ (s1.plotAt r.2.toNat).dataset.Length > 8760 * 2) then
      ShowPlotAtIndex s1 r.2
    else s1
  else s1

/-- Embedding of `wxDVDCCtrl::SetSelectedNames(names, restrictToSmallDataSets)`. -/
def SetSelectedNames (s : wxDVDCCtrl) (names : String) (restrictToSmallDataSets : Bool) :
    wxDVDCCtrl :=
  (wxStringTokenizer names ';').foldl (setSelectedNamesStep restrictToSmallDataSets) s

/-- The key-value store behind `wxConfig("DView", "NREL")`. -/
abbrev wxConfig := String → Option String

/-- The key `"/AppState/" + filename + "/DurationCurve/" + "Selections"`. -/
def selectionsKey (filename : String) : String :=
  "/AppState/" ++ filename ++ "/DurationCurve/" ++ "Selections"

/-- Embedding of `wxDVDCCtrl::ReadState(filename)`.  A key that is not stored leaves the string
read empty. -/
def ReadState (s : wxDVDCCtrl) (cfg : wxConfig) (filename : String) : wxDVDCCtrl :=
  let str := (cfg (selectionsKey filename)).getD ""
  let s1 := (wxStringTokenizer str ',').foldl (fun acc tok => SelectDataSetAtIndex acc (wxAtoi tok)) s
  if s1.m_dataSelector.GetSelectedNamesInCol.length = 0 then SelectDataSetAtIndex s1 0 else s1

/-- The string `ss.str()` of `WriteState`: every selected index in decimal, each
followed by a comma. -/
def selectionsString (s : wxDVDCCtrl) : String :=
  s.m_dataSelector.GetSelectionsInCol.foldl (fun ss k => ss ++ String.mk (decimal k) ++ ",") ""

/-- Embedding of `wxDVDCCtrl::WriteState(filename)`: the store after the write (the control itself is
not changed). -/
def WriteState (s : wxDVDCCtrl) (cfg : wxConfig) (filename : String) : wxConfig :=
  fun key => if key = selectionsKey filename then some (selectionsString s) else cfg key

/-- The search loop of `RemoveDataSet`: `index` after the loop over the first `n` plot
sets, which has no `break`, so the last plot set whose dataset pointer is `d` wins.
Pointers to datasets are compared by address. -/
def findDataSetLoop (plots : List PlotSet) (d : wxDVTimeSeriesDataSet) (n : Nat) : Int :=
  (List.range n).foldl
    (fun index i => if (plots.getD i default).dataset.addr = d.addr then (i : Int) else index)
    (-1)

/-- Embedding of `wxDVDCCtrl::RemoveDataSet(d)`.  The plot set and its plot are deleted;
the allocator of the model does not hand their addresses out again. -/
def RemoveDataSet (s : wxDVDCCtrl) (d : wxDVTimeSeriesDataSet) : wxDVDCCtrl :=
  let index := findDataSetLoop s.m_plots d s.m_plots.length
  if index < 0 then s
  else
    let s1 := if index ∈ s.m_currentlyShownIndices then HidePlotAtIndex s index else s
    { s1 with
      m_dataSelector := s1.m_dataSelector.RemoveAt index
      m_plotSurface := s1.m_plotSurface.RemovePlot (s1.plotAt index.toNat).plotPtr
      m_plots := s1.m_plots.eraseIdx index.toNat }

/-- Embedding of `wxDVDCCtrl::RemoveAllDataSets()`. -/
def RemoveAllDataSets (s : wxDVDCCtrl) : wxDVDCCtrl :=
  let surf := s.m_plots.foldl (fun c p => c.RemovePlot p.plotPtr) s.m_plotSurface
  { s with
    m_dataSelector := s.m_dataSelector.RemoveAll
    m_plots := []
    m_plotSurface := (surf.SetYAxis1 none).SetYAxis2 none }

/-- The name and the group `AddDataSet` appends a row with for each plot set, in the
order of `m_plots`. -/
def plotKeys (s : wxDVDCCtrl) : List (String × String) :=
  s.m_plots.map (fun p => (p.dataset.titleWithUnits, p.dataset.groupName))

/-- The three operations that add and remove datasets. -/
inductive DataSetOp where
  | addDataSet (d : wxDVTimeSeriesDataSet)
  | removeDataSet (d : wxDVTimeSeriesDataSet)
  | removeAllDataSets
  deriving DecidableEq, Repr

/-- The state after one of the three operations that add and remove datasets. -/
def DataSetOp.apply (s : wxDVDCCtrl) : DataSetOp → wxDVDCCtrl
  | .addDataSet d => s.AddDataSet d
  | .removeDataSet d => s.RemoveDataSet d
  | .removeAllDataSets => s.RemoveAllDataSets

/-- The state after a sequence of operations that add and remove datasets. -/
def runDataSetOps (s : wxDVDCCtrl) (ops : List DataSetOp) : wxDVDCCtrl :=
  ops.foldl DataSetOp.apply s

/-- The rows follow the plot sets: row `i` of the selection list carries the name and the
group of the dataset of `m_plots[i]` (so there are as many rows as plot sets), and
`m_currentlyShownIndices`, which the source never writes, is empty. -/
structure RowsOk (s : wxDVDCCtrl) : Prop where
  keys : s.m_dataSelector.rowKeys = s.plotKeys
  shown : s.m_currentlyShownIndices = []

/-! ## Sequences of operations -/

/-- The plot of `m_plots[i]` exists and the surface holds it. -/
def plotShown (s : wxDVDCCtrl) (i : Nat) : Prop :=
  (s.plotAt i).plot.isSome = true ∧ s.m_plotSurface.attached (s.plotAt i).plotPtr

instance (s : wxDVDCCtrl) (i : Nat) : Decidable (s.plotShown i) := by
  unfold plotShown; exact inferInstance

/-- The plot of `m_plots[i]` exists and the surface holds it on the Y axis position `yap`. -/
def plotShownAt (s : wxDVDCCtrl) (i : Nat) (yap : AxisPos) : Prop :=
  (s.plotAt i).plot.isSome = true ∧ s.m_plotSurface.attachedAt (s.plotAt i).plotPtr yap

instance (s : wxDVDCCtrl) (i : Nat) (yap : AxisPos) : Decidable (s.plotShownAt i yap) := by
  unfold plotShownAt; exact inferInstance

/-- The plot pointers the surface holds, in the order they were added. -/
def surfacePtrs (c : wxPLPlotCtrl) : List (Option Nat) := c.m_plots.map (fun e => e.plot)

/-- The allocator is consistent with the plot sets: every plot lies below the next free
address, and two plot sets do not share a plot. -/
structure HeapOk (s : wxDVDCCtrl) : Prop where
  addr : ∀ i q, (s.plotAt i).plot = some q → q.addr < s.m_heap
  inj : ∀ i j q r, i < s.m_plots.length → j < s.m_plots.length →
    (s.plotAt i).plot = some q → (s.plotAt j).plot = some r → q.addr = r.addr → i = j

/-- The checkbox invariant with what its proof carries along: the list has one row per
plot set, a row is checked exactly when its plot is shown, and the surface holds every
pointer once, each of them an allocated address. -/
structure Mirror (s : wxDVDCCtrl) : Prop where
  heap : HeapOk s
  len : s.m_dataSelector.Length = s.m_plots.length
  mirror : ∀ i, i < s.m_plots.length → (s.m_dataSelector.IsSelected i = true ↔ s.plotShown i)
  nodup : (surfacePtrs s.m_plotSurface).Nodup
  bound : ∀ p ∈ surfacePtrs s.m_plotSurface, ∃ a, p = some a ∧ a < s.m_heap

/-- The axis invariant with what its proof carries along: the list has one row per plot
set, a checked row has a plot, everything the surface holds is the plot of a plot set and
sits on an existing Y axis with the units of its dataset, and the units of a checked row
are the units of an existing Y axis. -/
structure AxesOk (s : wxDVDCCtrl) : Prop where
  heap : HeapOk s
  len : s.m_dataSelector.Length = s.m_plots.length
  computed : ∀ i, s.m_dataSelector.IsSelected i = true → (s.plotAt i).plot.isSome = true
  entries : ∀ e ∈ s.m_plotSurface.m_plots, ∃ i, (s.plotAt i).plot.isSome = true ∧
    e.plot = (s.plotAt i).plotPtr ∧ (e.yap = AxisPos.Y_LEFT ∨ e.yap = AxisPos.Y_RIGHT) ∧
    ∃ a, s.m_plotSurface.GetAxis e.yap = some a ∧ a.units = s.unitsAt i
  checked : ∀ i, s.m_dataSelector.IsSelected i = true →
    ∃ yap, (yap = AxisPos.Y_LEFT ∨ yap = AxisPos.Y_RIGHT) ∧
      ∃ a, s.m_plotSurface.GetAxis yap = some a ∧ a.units = s.unitsAt i

/-- The operations on a control that the sequences below are made of. -/
inductive Op where
  | addDataSet (d : wxDVTimeSeriesDataSet)
  | selectDataSetAtIndex (index : Int)
  | setSelectedNames (names : String) (restrictToSmallDataSets : Bool)
  | checkBoxClick (row : Nat)
  | showPlotAtIndex (index : Int)
  | hidePlotAtIndex (index : Int)
  deriving DecidableEq, Repr

/-- The state after one operation. -/
def Op.apply (s : wxDVDCCtrl) : Op → wxDVDCCtrl
  | .addDataSet d => s.AddDataSet d
  | .selectDataSetAtIndex index => s.SelectDataSetAtIndex index
  | .setSelectedNames names r => s.SetSelectedNames names r
  | .checkBoxClick row => s.checkBoxClick row
  | .showPlotAtIndex index => s.ShowPlotAtIndex index
  | .hidePlotAtIndex index => s.HidePlotAtIndex index

/-- The state after a sequence of operations. -/
def run (s : wxDVDCCtrl) (ops : List Op) : wxDVDCCtrl := ops.foldl Op.apply s

/-- The state after one call from outside: one that adds or removes datasets, or one of
the selecting, showing and hiding operations. -/
def applyEither (s : wxDVDCCtrl) : DataSetOp ⊕ Op → wxDVDCCtrl
  | .inl op => DataSetOp.apply s op
  | .inr op => Op.apply s op

/-- The state after a sequence of calls of both kinds. -/
def runEither (s : wxDVDCCtrl) (ops : List (DataSetOp ⊕ Op)) : wxDVDCCtrl :=
  ops.foldl applyEither s

/-- Every operation of the sequence passes the test `ok` in the state it is applied to. -/
def admissible (ok : wxDVDCCtrl → Op → Bool) : wxDVDCCtrl → List Op → Bool
  | _, [] => true
  | s, op :: ops => ok s op && admissible ok (Op.apply s op) ops

/-- The names of a `SetSelectedNames` call, in the order they are handled: each name that
labels a row labels a row that is not checked when the name is handled, and under
`restrictToSmallDataSets` the dataset of that row has at most `8760 * 2` points. -/
def namesOk (restrictToSmallDataSets : Bool) : wxDVDCCtrl → List String → Bool
  | _, [] => true
  | s, t :: ts =>
    (match wxDVSelectionListCtrl.findLabel t s.m_dataSelector.m_itemList 0 with
      | some i =>
        !s.m_dataSelector.IsSelected i &&
          !(restrictToSmallDataSets && decide ((s.plotAt i).dataset.Length > 8760 * 2))
      | none => true) &&
    namesOk restrictToSmallDataSets (setSelectedNamesStep restrictToSmallDataSets s t) ts

/-- The operations of the checkbox invariant: `AddDataSet`, checkbox clicks, and
`SelectDataSetAtIndex` and `SetSelectedNames` for rows that are not checked (and, under
`restrictToSmallDataSets`, whose dataset is small). -/
def okMirror (s : wxDVDCCtrl) : Op → Bool
  | .addDataSet _ => true
  | .selectDataSetAtIndex index => !(decide (0 ≤ index) && s.m_dataSelector.IsSelected index.toNat)
  | .setSelectedNames names r => namesOk r s (wxStringTokenizer names ';')
  | .checkBoxClick _ => true
  | .showPlotAtIndex _ => false
  | .hidePlotAtIndex _ => false

/-- The units of the dataset of row `i` fit the Y axes of the surface: they are the units
of one of the two axes, or one of the two axes does not exist. -/
def unitsFit (s : wxDVDCCtrl) (i : Nat) : Bool :=
  decide (s.m_plotSurface.GetYAxis1.map (fun a => a.units) = some (s.unitsAt i)) ||
  decide (s.m_plotSurface.GetYAxis2.map (fun a => a.units) = some (s.unitsAt i)) ||
  s.m_plotSurface.GetYAxis1.isNone || s.m_plotSurface.GetYAxis2.isNone

/-- The plots that stay on the surface when `HidePlotAtIndex(i)` has removed the plot of
row `i` are plots of checked rows, and the surface holds each of them once. -/
def othersChecked (s : wxDVDCCtrl) (i : Nat) : Bool :=
  let surf0 := s.m_plotSurface.RemovePlot (s.plotAt i).plotPtr
  surf0.m_plots.all (fun e =>
    s.m_dataSelector.GetSelectionsInCol.any (fun k => decide (e.plot = (s.plotAt k).plotPtr))) &&
  decide (surfacePtrs surf0).Nodup

/-- The operations of the axis invariant: `AddDataSet`; `SelectDataSetAtIndex` and
`ShowPlotAtIndex` for a row whose units fit the axes; and `HidePlotAtIndex` when the
plots that stay on the surface are plots of checked rows, each held once.  A call with
an index out of range, which does nothing, is among them. -/
def okAxes (s : wxDVDCCtrl) : Op → Bool
  | .addDataSet _ => true
  | .selectDataSetAtIndex index =>
    decide (index < 0 ∨ index ≥ (s.m_plots.length : Int)) || unitsFit s index.toNat
  | .setSelectedNames _ _ => false
  | .checkBoxClick _ => false
  | .showPlotAtIndex index =>
    decide (index < 0 ∨ index ≥ (s.m_plots.length : Int)) || unitsFit s index.toNat
  | .hidePlotAtIndex index =>
    decide (index < 0 ∨ index ≥ (s.m_plots.length : Int)) || othersChecked s index.toNat

/-! ## Sample inputs -/

/-- A sample dataset in kW, without points. -/
def sampleKW : wxDVTimeSeriesDataSet := ⟨1, "Power", "kW", "", "Power", "Power (kW)", 1, []⟩

/-- A sample dataset in V, without points. -/
def sampleV : wxDVTimeSeriesDataSet := ⟨2, "Voltage", "V", "", "Voltage", "Voltage (V)", 1, []⟩

/-- A sample dataset in A, without points. -/
def sampleA : wxDVTimeSeriesDataSet := ⟨3, "Current", "A", "", "Current", "Current (A)", 1, []⟩

/-- A control holding the three sample datasets, nothing selected. -/
def sample3 : wxDVDCCtrl :=
  ((wxDVDCCtrl.new.AddDataSet sampleKW).AddDataSet sampleV).AddDataSet sampleA

/-- The control `sample3` after rows 0 and 1 were selected. -/
def sample3sel : wxDVDCCtrl := (sample3.SelectDataSetAtIndex 0).SelectDataSetAtIndex 1

/-- The control `sample3sel` after the checkbox of row 0 was cleared in the list, before
the control handles the event. -/
def sample3cleared : wxDVDCCtrl :=
  { sample3sel with m_dataSelector := sample3sel.m_dataSelector.SelectRowInCol 0 false }

/-- A store that holds the selection string `2,7,` for the file `run`. -/
def sampleConfig : wxConfig :=
  fun key => if key = selectionsKey "run" then some "2,7," else none

/-- A sample configuration store whose string under the key of the file `run` holds a
number behind a blank, a token without a number, a number that an `int` cannot hold, and
an index that is out of range. -/
def sampleConfigOdd : wxConfig :=
  fun key => if key = selectionsKey "run" then some " 2,x,4294967297,7," else none

/-- A sample configuration store whose string under the key of the file `run` is one
number, `2^32 + 1`. -/
def sampleConfigOverflow : wxConfig :=
  fun key => if key = selectionsKey "run" then some "4294967297," else none

/-- A sample dataset in kW with 17521 points, one more than `8760 * 2`. -/
def sampleBig : wxDVTimeSeriesDataSet :=
  ⟨4, "Load", "kW", "", "Load", "Load (kW)", 1, List.replicate 17521 ⟨0, 0⟩⟩

/-- A sample sequence of operations of the checkbox invariant. -/
def sampleOps : List Op :=
  [.addDataSet sampleKW, .addDataSet sampleV, .checkBoxClick 0, .selectDataSetAtIndex 1,
   .checkBoxClick 0, .setSelectedNames "Power (kW);x" false]

/-- A sample sequence of operations of the axis invariant: the plot of row 0 (kW) is shown
without its row being checked, row 1 (V) is selected, and hiding the plot of row 0 moves
the right axis to the left; then row 2 (kW) is selected and the plot of row 1 is hidden. -/
def sampleAxesOps : List Op :=
  [.addDataSet sampleKW, .addDataSet sampleV, .addDataSet sampleKW, .showPlotAtIndex 0,
   .selectDataSetAtIndex 1, .hidePlotAtIndex 0, .selectDataSetAtIndex 2, .hidePlotAtIndex 1]

/-- The plot of row 1 shown twice, then the plot of row 0 hidden. -/
def shownTwiceOps : List Op :=
  [.addDataSet sampleKW, .addDataSet sampleV, .showPlotAtIndex 0, .selectDataSetAtIndex 1,
   .showPlotAtIndex 1, .hidePlotAtIndex 0]

/-- Three datasets with three different units, selected one after the other. -/
def threeUnitsOps : List Op :=
  [.addDataSet sampleKW, .addDataSet sampleV, .addDataSet sampleA, .selectDataSetAtIndex 0,
   .selectDataSetAtIndex 1, .selectDataSetAtIndex 2]

/-- Two plots shown without their rows being checked, then the first one hidden. -/
def showHideOps : List Op :=
  [.addDataSet sampleKW, .addDataSet sampleV, .showPlotAtIndex 0, .showPlotAtIndex 1,
   .hidePlotAtIndex 0]

/-- A sample sequence of operations that add and remove datasets: the kW dataset is added
twice, and the dataset in A is removed although the control does not hold it. -/
def sampleDataSetOps : List DataSetOp :=
  [.addDataSet sampleKW, .addDataSet sampleV, .addDataSet sampleKW, .removeDataSet sampleA]

/-- A sample sequence of calls of both kinds: two datasets are added and shown, and the
first one is removed while it is shown. -/
def sampleEitherOps : List (DataSetOp ⊕ Op) :=
  [.inl (.addDataSet sampleKW), .inl (.addDataSet sampleV), .inr (.selectDataSetAtIndex 0),
   .inr (.selectDataSetAtIndex 1), .inl (.removeDataSet sampleKW)]

end wxDVDCCtrl

/-- A sample dataset of four values with the time step 0.1, the double next to 1/10. -/
def sampleCurve : wxDVTimeSeriesDataSet :=
  ⟨5, "Load", "kW", "", "Load", "Load (kW)", Double.ofBits 0x3FB999999999999A,
    [⟨0, 3⟩, ⟨0, 5⟩, ⟨0, 1⟩, ⟨0, 2⟩]⟩

/-- A sample dataset of four values, the third one a NaN. -/
def sampleNaN : wxDVTimeSeriesDataSet :=
  ⟨6, "Load", "kW", "", "Load", "Load (kW)", 1, [⟨0, 1⟩, ⟨0, 3⟩, ⟨0, Double.nan⟩, ⟨0, 2⟩]⟩

end Wex
namespace Wex

/-! ## Lemmas on lists -/

theorem range_map_getD {α : Type} (l : List α) (d : α) :
    (List.range l.length).map (fun i => l.getD i d) = l := by
  apply List.ext_getElem
  · simp
  · intro i h1 h2
    simp [List.getD_eq_getElem?_getD, List.getElem?_eq_getElem h2]

theorem range_map_getD_reverse {α : Type} (l : List α) (d : α) :
    (List.range l.length).map (fun i => l.getD (l.length - i - 1) d) = l.reverse := by
  apply List.ext_getElem
  · simp
  · intro i h1 h2
    have hi : i < l.length := by simpa using h1
    have hlt : l.length - i - 1 < l.length := by omega
    simp only [List.getElem_map, List.getElem_range, List.getElem_reverse,
      List.getD_eq_getElem?_getD, List.getElem?_eq_getElem hlt, Option.getD_some]
    congr 1
    omega

/-! ## C1 and C8: `CalculateDCPlotData` -/

theorem copyYValues_eq (d : wxDVTimeSeriesDataSet) : copyYValues d = d.data.map (fun q => q.y) := by
  unfold copyYValues wxDVTimeSeriesDataSet.Length wxDVTimeSeriesDataSet.At
  apply List.ext_getElem
  · simp
  · intro i h1 h2
    have hi : i < d.data.length := by simpa using h1
    simp [List.getD_eq_getElem?_getD, List.getElem?_eq_getElem hi]

namespace Double

theorem not_lt_imp_le {a b : Double} (ha : a.isNaN = false) (hb : b.isNaN = false)
    (h : lt a b = false) : le b a = true := by
  cases a <;> cases b <;> simp_all [lt, le, isNaN]
  rename_i x y
  cases x <;> cases y <;> simp_all

theorem lt_imp_le {a b : Double} (h : lt a b = true) : le a b = true := by
  cases a <;> cases b <;> simp_all [lt, le]
  exact Int.le_of_lt h

theorem le_chain {a b c : Double} (hab : le a b = true) (hbc : le b c = true) :
    le a c = true := by
  cases a <;> cases b <;> cases c <;> simp_all [le]
  all_goals first
    | exact Int.le_trans hab hbc
    | (rename_i x y z; cases x <;> cases y <;> cases z <;> simp_all)

theorem isNaN_of_le {a b : Double} (h : le a b = true) : a.isNaN = false ∧ b.isNaN = false := by
  cases a <;> cases b <;> simp_all [le, isNaN]

end Double

theorem linearInsert_perm (val : Double) (l : List Double) :
    (linearInsert val l).Perm (val :: l) := by
  induction l with
  | nil => exact List.Perm.refl _
  | cons next rest ih =>
    unfold linearInsert
    split
    · exact (List.Perm.cons next ih).trans (List.Perm.swap val next rest)
    · exact List.Perm.refl _

theorem insertionStep_perm (sorted : List Double) (val : Double) :
    (insertionStep sorted val).Perm (val :: sorted) := by
  unfold insertionStep
  cases sorted with
  | nil => exact List.Perm.refl _
  | cons first rest =>
    simp only
    split
    · exact List.Perm.refl _
    · exact (List.reverse_perm _).trans
        ((linearInsert_perm val _).trans (List.Perm.cons val (List.reverse_perm _)))

theorem foldl_insertionStep_perm (v acc : List Double) :
    (v.foldl insertionStep acc).Perm (acc ++ v) := by
  induction v generalizing acc with
  | nil => simp
  | cons x xs ih =>
    rw [List.foldl_cons]
    refine (ih _).trans ?_
    refine (List.Perm.append_right xs (insertionStep_perm acc x)).trans ?_
    simp only [List.cons_append]
    exact (List.perm_middle).symm

theorem stdSort_perm (v : List Double) : (stdSort v).Perm v := by
  have := foldl_insertionStep_perm v []
  simpa [stdSort] using this

theorem stdSort_length (v : List Double) : (stdSort v).length = v.length :=
  (stdSort_perm v).length_eq

/-- The inner loop keeps a descending list descending. -/
theorem linearInsert_sorted (val : Double) (hval : val.isNaN = false) (l : List Double)
    (hl : ∀ x ∈ l, x.isNaN = false)
    (hs : l.Sorted (fun a b => Double.le b a = true)) :
    (linearInsert val l).Sorted (fun a b => Double.le b a = true) := by
  induction l with
  | nil => simp [linearInsert]
  | cons next rest ih =>
    have hnext : next.isNaN = false := hl next (List.mem_cons_self _ _)
    have hrest : ∀ x ∈ rest, x.isNaN = false := fun x hx => hl x (List.mem_cons_of_mem _ hx)
    rw [List.sorted_cons] at hs
    unfold linearInsert
    split
    · rename_i hlt
      rw [List.sorted_cons]
      refine ⟨?_, ih hrest hs.2⟩
      intro b hb
      have hb2 := (List.Perm.mem_iff (linearInsert_perm val rest)).mp hb
      rw [List.mem_cons] at hb2
      rcases hb2 with hb2 | hb2
      · rw [hb2]; exact Double.lt_imp_le hlt
      · exact hs.1 b hb2
    · rename_i hlt
      have hle : Double.le next val = true :=
        Double.not_lt_imp_le hval hnext (by simpa using hlt)
      rw [List.sorted_cons]
      refine ⟨?_, List.sorted_cons.mpr hs⟩
      intro b hb
      rw [List.mem_cons] at hb
      rcases hb with hb | hb
      · rw [hb]; exact hle
      · exact Double.le_chain (hs.1 b hb) hle

theorem insertionStep_sorted (sorted : List Double) (val : Double) (hval : val.isNaN = false)
    (hl : ∀ x ∈ sorted, x.isNaN = false)
    (hs : sorted.Sorted (fun a b => Double.le a b = true)) :
    (insertionStep sorted val).Sorted (fun a b => Double.le a b = true) := by
  unfold insertionStep
  cases sorted with
  | nil => simp
  | cons first rest =>
    simp only
    split
    · rename_i hlt
      rw [List.sorted_cons]
      refine ⟨?_, hs⟩
      intro b hb
      rw [List.mem_cons] at hb
      rcases hb with hb | hb
      · rw [hb]; exact Double.lt_imp_le hlt
      · exact Double.le_chain (Double.lt_imp_le hlt) ((List.sorted_cons.mp hs).1 b hb)
    · have hrev : (first :: rest).reverse.Sorted (fun a b => Double.le b a = true) := by
        unfold List.Sorted at hs ⊢
        rw [List.pairwise_reverse]
        exact hs
      have := linearInsert_sorted val hval (first :: rest).reverse
        (fun x hx => hl x (List.mem_reverse.mp hx)) hrev
      unfold List.Sorted at this ⊢
      rw [List.pairwise_reverse]
      exact this

theorem foldl_insertionStep_sorted (v acc : List Double)
    (hv : ∀ x ∈ v, x.isNaN = false) (hacc : ∀ x ∈ acc, x.isNaN = false)
    (hs : acc.Sorted (fun a b => Double.le a b = true)) :
    (v.foldl insertionStep acc).Sorted (fun a b => Double.le a b = true) := by
  induction v generalizing acc with
  | nil => exact hs
  | cons x xs ih =>
    rw [List.foldl_cons]
    have hx : x.isNaN = false := hv x (List.mem_cons_self _ _)
    apply ih _ (fun y hy => hv y (List.mem_cons_of_mem _ hy))
    · intro y hy
      have := (List.Perm.mem_iff (insertionStep_perm acc x)).mp hy
      rw [List.mem_cons] at this
      rcases this with h | h
      · rw [h]; exact hx
      · exact hacc y h
    · exact insertionStep_sorted acc x hx hacc hs

/-- On values without a NaN `std::sort` returns the values in ascending order. -/
theorem stdSort_sorted (v : List Double) (hv : ∀ x ∈ v, x.isNaN = false) :
    (stdSort v).Sorted (fun a b => Double.le a b = true) :=
  foldl_insertionStep_sorted v [] hv (fun _ h => absurd h (List.not_mem_nil _))
    List.sorted_nil

/-! ### Rounding to the nearest double -/

namespace Double

theorem bitLengthAux_spec (fuel n : Nat) (h : n ≤ fuel) :
    n < 2 ^ bitLengthAux fuel n ∧ (n ≠ 0 → 2 ^ (bitLengthAux fuel n - 1) ≤ n) := by
  induction fuel generalizing n with
  | zero =>
    have : n = 0 := by omega
    subst this
    simp [bitLengthAux]
  | succ fuel ih =>
    unfold bitLengthAux
    by_cases hn : n = 0
    · subst hn; simp
    · simp only [hn, if_false]
      obtain ⟨h1, h2⟩ := ih (n / 2) (by omega)
      constructor
      · rw [Nat.pow_succ]
        omega
      · intro _
        simp only [Nat.add_sub_cancel]
        by_cases hn2 : n / 2 = 0
        · have : bitLengthAux fuel (n / 2) = 0 := by
            rw [hn2]
            cases fuel <;> simp [bitLengthAux]
          rw [this]
          simp
          omega
        · have h3 := h2 hn2
          have hpos : 0 < bitLengthAux fuel (n / 2) := by
            by_contra hz
            have hz : bitLengthAux fuel (n / 2) = 0 := by omega
            rw [hz] at h1
            simp at h1
            exact hn2 h1
          have : 2 ^ bitLengthAux fuel (n / 2) = 2 * 2 ^ (bitLengthAux fuel (n / 2) - 1) := by
            conv_lhs => rw [show bitLengthAux fuel (n / 2) = (bitLengthAux fuel (n / 2) - 1) + 1 by omega]
            rw [Nat.pow_succ]; ring
          rw [this]
          omega

theorem bitLength_lt (n : Nat) : n < 2 ^ bitLength n := (bitLengthAux_spec n n (Nat.le_refl n)).1

theorem bitLength_le (n : Nat) (h : n ≠ 0) : 2 ^ (bitLength n - 1) ≤ n :=
  (bitLengthAux_spec n n (Nat.le_refl n)).2 h

theorem bitLength_pos (n : Nat) (h : n ≠ 0) : 0 < bitLength n := by
  by_contra hz
  have hz : bitLength n = 0 := by omega
  have := bitLength_lt n
  rw [hz] at this
  simp at this
  exact h this

theorem bitLength_unique (n B : Nat) (hn : n ≠ 0) (h1 : n < 2 ^ B) (h2 : 2 ^ (B - 1) ≤ n) :
    bitLength n = B := by
  have h3 := bitLength_lt n
  have h4 := bitLength_le n hn
  by_contra hne
  rcases Nat.lt_or_gt_of_ne hne with h | h
  · have : 2 ^ bitLength n ≤ 2 ^ (B - 1) := Nat.pow_le_pow_right (by norm_num) (by omega)
    omega
  · have : 2 ^ B ≤ 2 ^ (bitLength n - 1) := Nat.pow_le_pow_right (by norm_num) (by omega)
    omega

theorem bitLength_mul_pow (n k : Nat) (hn : n ≠ 0) :
    bitLength (n * 2 ^ k) = bitLength n + k := by
  have h3 := bitLength_lt n
  have h4 := bitLength_le n hn
  have hpos := bitLength_pos n hn
  have hk : 0 < 2 ^ k := Nat.two_pow_pos k
  apply bitLength_unique
  · exact Nat.mul_ne_zero hn (by omega)
  · rw [Nat.pow_add]
    exact Nat.mul_lt_mul_of_pos_right h3 hk
  · rw [show bitLength n + k - 1 = (bitLength n - 1) + k by omega, Nat.pow_add]
    exact Nat.mul_le_mul_right _ h4

theorem roundShift_mul_pow (n sh k : Nat) :
    roundShift (n * 2 ^ k) (sh + k) = roundShift n sh := by
  have hk : 0 < 2 ^ k := Nat.two_pow_pos k
  unfold roundShift
  have hq : n * 2 ^ k / 2 ^ (sh + k) = n / 2 ^ sh := by
    rw [Nat.pow_add]
    exact Nat.mul_div_mul_right _ _ hk
  have hr : n * 2 ^ k % 2 ^ (sh + k) = n % 2 ^ sh * 2 ^ k := by
    rw [Nat.pow_add]
    exact Nat.mul_mod_mul_right _ _ _
  simp only [hq, hr]
  have h1 : (2 * (n % 2 ^ sh * 2 ^ k) > 2 ^ (sh + k)) ↔ (2 * (n % 2 ^ sh) > 2 ^ sh) := by
    rw [Nat.pow_add, ← Nat.mul_assoc]
    exact Nat.mul_lt_mul_right hk
  have h2 : (2 * (n % 2 ^ sh * 2 ^ k) = 2 ^ (sh + k)) ↔ (2 * (n % 2 ^ sh) = 2 ^ sh) := by
    rw [Nat.pow_add, ← Nat.mul_assoc]
    exact Nat.mul_left_inj (by omega)
  simp only [h1, h2]

theorem roundShift_zero (n : Nat) : roundShift n 0 = n := by
  unfold roundShift
  simp [Nat.mod_one]

theorem roundShift_exact (n j sh : Nat) (h : sh ≤ j) :
    roundShift (n * 2 ^ j) sh = n * 2 ^ (j - sh) := by
  have := roundShift_mul_pow (n * 2 ^ (j - sh)) 0 sh
  rw [Nat.mul_assoc, ← Nat.pow_add, Nat.zero_add, roundShift_zero,
    show j - sh + sh = j by omega] at this
  exact this

theorem round_zero (neg : Bool) (x : Int) : round neg 0 x = finite neg 0 0 := by
  have h0 : ∀ sh, roundShift 0 sh = 0 := by
    intro sh
    have := roundShift_exact 0 sh sh (Nat.le_refl _)
    simpa using this
  unfold round
  simp [h0]

/-- The significand that `round` computes before it looks at carry and overflow. -/
theorem round_eq (neg : Bool) (n : Nat) (x : Int) (e : Int) (m : Nat)
    (he : e = max (x + bitLength n - 53) 0)
    (hm : m = if x ≤ e then roundShift n (e - x).toNat else n * 2 ^ (x - e).toNat) :
    round neg n x =
      if m = 0 then finite neg 0 0
      else if m = 2 ^ 53 then (if e + 1 > 2045 then inf neg else finite neg (2 ^ 52) (e + 1).toNat)
      else if e > 2045 then inf neg
      else finite neg m e.toNat := by
  subst he hm
  rfl

theorem round_scale (neg : Bool) (n k : Nat) (x : Int) :
    round neg (n * 2 ^ k) (x - k) = round neg n x := by
  by_cases hn : n = 0
  · subst hn
    rw [Nat.zero_mul, round_zero, round_zero]
  · have hB := bitLength_mul_pow n k hn
    rw [round_eq neg n x _ _ rfl rfl]
    have he : max (x - (k : Int) + (bitLength (n * 2 ^ k) : Int) - 53) 0
        = max (x + (bitLength n : Int) - 53) 0 := by
      rw [hB]
      push_cast
      congr 1
      ring
    rw [round_eq neg (n * 2 ^ k) (x - k) (max (x + (bitLength n : Int) - 53) 0)
      (if x ≤ max (x + (bitLength n : Int) - 53) 0
        then roundShift n (max (x + (bitLength n : Int) - 53) 0 - x).toNat
        else n * 2 ^ (x - max (x + (bitLength n : Int) - 53) 0).toNat) he.symm]
    generalize max (x + (bitLength n : Int) - 53) 0 = e
    by_cases h1 : x ≤ e
    · have h2 : x - (k : Int) ≤ e := by omega
      rw [if_pos h1, if_pos h2]
      have : (e - (x - (k : Int))).toNat = (e - x).toNat + k := by omega
      rw [this, roundShift_mul_pow]
    · rw [if_neg h1]
      by_cases h2 : x - (k : Int) ≤ e
      · rw [if_pos h2]
        have hle : (e - (x - (k : Int))).toNat ≤ k := by omega
        rw [roundShift_exact n k _ hle]
        congr 2
        omega
      · rw [if_neg h2, Nat.mul_assoc, ← Nat.pow_add]
        congr 2
        omega

theorem roundShift_cases (n sh : Nat) :
    (roundShift n sh = n / 2 ^ sh ∧
      (2 * (n % 2 ^ sh) < 2 ^ sh ∨ (2 * (n % 2 ^ sh) = 2 ^ sh ∧ (n / 2 ^ sh) % 2 = 0))) ∨
    (roundShift n sh = n / 2 ^ sh + 1 ∧
      (2 * (n % 2 ^ sh) > 2 ^ sh ∨ (2 * (n % 2 ^ sh) = 2 ^ sh ∧ (n / 2 ^ sh) % 2 = 1))) := by
  unfold roundShift
  simp only []
  split
  · rename_i hc
    exact Or.inr ⟨rfl, hc⟩
  · rename_i hc
    left
    refine ⟨rfl, ?_⟩
    omega

theorem roundShift_nearest (n sh u : Nat)
    (hu : u ≤ n / 2 ^ sh * 2 ^ sh ∨ (n / 2 ^ sh + 1) * 2 ^ sh ≤ u) :
    gap (roundShift n sh * 2 ^ sh) n ≤ gap u n ∧
    (gap u n = gap (roundShift n sh * 2 ^ sh) n → u ≠ roundShift n sh * 2 ^ sh →
      roundShift n sh % 2 = 0) := by
  have hP : 0 < 2 ^ sh := Nat.two_pow_pos sh
  have hdiv := Nat.div_add_mod n (2 ^ sh)
  have hmod := Nat.mod_lt n hP
  have hc := roundShift_cases n sh
  rw [Nat.add_mul, Nat.one_mul] at hu
  rw [Nat.mul_comm] at hdiv
  unfold gap
  generalize n / 2 ^ sh = q at *
  generalize n % 2 ^ sh = r at *
  generalize 2 ^ sh = P at *
  rcases hc with ⟨h1, h2⟩ | ⟨h1, h2⟩
  · rw [h1]
    generalize q * P = A at *
    omega
  · rw [h1, Nat.add_mul, Nat.one_mul]
    generalize q * P = A at *
    omega

theorem units_outside (q E m2 e2 : Nat) (hq : 2 ^ 52 ≤ q) (hm : m2 < 2 ^ 53) :
    m2 * 2 ^ e2 ≤ q * 2 ^ E ∨ (q + 1) * 2 ^ E ≤ m2 * 2 ^ e2 := by
  by_cases h : e2 < E
  · left
    have h1 : 2 ^ e2 * 2 ≤ 2 ^ E := by
      rw [← Nat.pow_succ]
      exact Nat.pow_le_pow_right (by norm_num) h
    calc m2 * 2 ^ e2 ≤ 2 ^ 53 * 2 ^ e2 := Nat.mul_le_mul_right _ (Nat.le_of_lt hm)
      _ = 2 ^ 52 * (2 ^ e2 * 2) := by ring
      _ ≤ 2 ^ 52 * 2 ^ E := Nat.mul_le_mul_left _ h1
      _ ≤ q * 2 ^ E := Nat.mul_le_mul_right _ hq
  · have h2 : m2 * 2 ^ e2 = (m2 * 2 ^ (e2 - E)) * 2 ^ E := by
      rw [Nat.mul_assoc, ← Nat.pow_add, show e2 - E + E = e2 by omega]
    rw [h2]
    by_cases hk : m2 * 2 ^ (e2 - E) ≤ q
    · exact Or.inl (Nat.mul_le_mul_right _ hk)
    · exact Or.inr (Nat.mul_le_mul_right _ (by omega))

theorem overflowUnits_eq : overflowUnits = 18014398509481983 * 2 ^ 2044 := by
  have h : (2 : Nat) ^ 54 - 1 = 18014398509481983 := by norm_num
  unfold overflowUnits
  rw [h]

theorem isRounded_exact (neg : Bool) (N : Nat) (h : N < 2 ^ 53) :
    IsRounded (finite neg N 0) neg N := by
  have hZ : 0 < 2 ^ 2044 := Nat.two_pow_pos 2044
  refine ⟨rfl, ?_, ?_, ?_⟩
  · simp only [valid, Bool.and_eq_true, Bool.or_eq_true, decide_eq_true_eq]
    exact ⟨⟨h, by omega⟩, Or.inl trivial⟩
  · rw [overflowUnits_eq]
    generalize 2 ^ 2044 = Z at *
    norm_num at h
    omega
  · intro t m2 e2 _
    simp only [gap, Nat.pow_zero, Nat.mul_one]
    omega

theorem round_spec0 (neg : Bool) (N : Nat) : IsRounded (round neg N 0) neg N := by
  by_cases hN : N = 0
  · subst hN
    rw [round_zero]
    exact isRounded_exact neg 0 (by norm_num)
  have hlt := bitLength_lt N
  have hle := bitLength_le N hN
  by_cases hB : bitLength N ≤ 53
  · have hN53 : N < 2 ^ 53 := Nat.lt_of_lt_of_le hlt (Nat.pow_le_pow_right (by norm_num) hB)
    have : round neg N 0 = finite neg N 0 := by
      rw [round_eq neg N 0 0 N (by rw [max_eq_right]; omega) (by simp [roundShift_zero])]
      rw [if_neg hN, if_neg (Nat.ne_of_lt hN53)]
      simp
    rw [this]
    exact isRounded_exact neg N hN53
  · obtain ⟨E, hE⟩ : ∃ E, bitLength N = 53 + (E + 1) := ⟨bitLength N - 54, by omega⟩
    have hP : 0 < 2 ^ (E + 1) := Nat.two_pow_pos _
    rw [hE] at hle hlt
    rw [show 53 + (E + 1) - 1 = 52 + (E + 1) by omega] at hle
    have hq1 : 2 ^ 52 ≤ N / 2 ^ (E + 1) := by
      rw [Nat.le_div_iff_mul_le hP, ← Nat.pow_add]
      exact hle
    have hq2 : N / 2 ^ (E + 1) < 2 ^ 53 := by
      rw [Nat.div_lt_iff_lt_mul hP, ← Nat.pow_add]
      exact hlt
    have hdiv := Nat.div_add_mod N (2 ^ (E + 1))
    have hmod := Nat.mod_lt N hP
    have hc := roundShift_cases N (E + 1)
    have hnear : ∀ (t : Bool) (m2 e2 : Nat), (finite t m2 e2).valid = true →
        gap (roundShift N (E + 1) * 2 ^ (E + 1)) N ≤ gap (m2 * 2 ^ e2) N ∧
        (gap (m2 * 2 ^ e2) N = gap (roundShift N (E + 1) * 2 ^ (E + 1)) N →
          m2 * 2 ^ e2 ≠ roundShift N (E + 1) * 2 ^ (E + 1) → roundShift N (E + 1) % 2 = 0) := by
      intro t m2 e2 hv
      have hm2 : m2 < 2 ^ 53 := by
        simp only [valid, Bool.and_eq_true, decide_eq_true_eq] at hv
        exact hv.1.1
      exact roundShift_nearest N (E + 1) _ (units_outside _ (E + 1) m2 e2 hq1 hm2)
    rw [round_eq neg N 0 ((E + 1 : Nat) : Int) (roundShift N (E + 1))
      (by rw [max_eq_left] <;> omega)
      (by
        have h0 : (0 : Int) ≤ ((E + 1 : Nat) : Int) := by omega
        rw [if_pos h0, Int.sub_zero, Int.toNat_ofNat])]
    have hZ : 0 < 2 ^ 2044 := Nat.two_pow_pos 2044
    have hPZ1 : E + 1 ≤ 2044 → 2 ^ (E + 1) ≤ 2 ^ 2044 :=
      fun h => Nat.pow_le_pow_right (by norm_num) h
    have hPZ2 : E + 1 = 2045 → 2 ^ (E + 1) = 2 * 2 ^ 2044 := by
      intro h
      rw [h, show 2045 = 2044 + 1 by rfl, Nat.pow_succ, Nat.mul_comm]
    have hPZ3 : 2045 < E + 1 → 4 * 2 ^ 2044 ≤ 2 ^ (E + 1) := by
      intro h
      have : 2 ^ (2044 + 2) ≤ 2 ^ (E + 1) := Nat.pow_le_pow_right (by norm_num) (by omega)
      rw [Nat.pow_add] at this
      omega
    have hNlo : 2 ^ 52 * 2 ^ (E + 1) ≤ N := by
      rw [← Nat.pow_add]
      exact hle
    have hNhi : N < 2 ^ 53 * 2 ^ (E + 1) := by
      rw [← Nat.pow_add]
      exact hlt
    have hmne : roundShift N (E + 1) ≠ 0 := by
      rcases hc with ⟨h1, _⟩ | ⟨h1, _⟩ <;> omega
    rw [if_neg hmne]
    have hqP : N / 2 ^ (E + 1) + 1 ≤ 2 ^ 53 →
        2 ^ (E + 1) * (N / 2 ^ (E + 1) + 1) ≤ 2 ^ (E + 1) * 2 ^ 53 :=
      fun h => Nat.mul_le_mul_left _ h
    have hqP2 : N / 2 ^ (E + 1) + 2 ≤ 2 ^ 53 →
        2 ^ (E + 1) * (N / 2 ^ (E + 1) + 2) ≤ 2 ^ (E + 1) * 2 ^ 53 :=
      fun h => Nat.mul_le_mul_left _ h
    by_cases hcarry : roundShift N (E + 1) = 2 ^ 53
    · rw [if_pos hcarry]
      have hq : N / 2 ^ (E + 1) = 2 ^ 53 - 1 := by
        rcases hc with ⟨h1, _⟩ | ⟨h1, _⟩ <;> omega
      have hr : 2 ^ (E + 1) ≤ 2 * (N % 2 ^ (E + 1)) := by
        rcases hc with ⟨h1, _⟩ | ⟨h1, h2⟩ <;> omega
      by_cases hov : ((E + 1 : Nat) : Int) + 1 > 2045
      · rw [if_pos hov]
        refine ⟨rfl, ?_⟩
        rw [overflowUnits_eq]
        rw [hq] at hdiv
        by_cases h45 : E + 1 = 2045
        · have := hPZ2 h45
          generalize 2 ^ 2044 = Z at *
          generalize 2 ^ (E + 1) = P at *
          generalize N % P = r at *
          norm_num at hdiv
          omega
        · have := hPZ3 (by omega)
          generalize 2 ^ 2044 = Z at *
          generalize 2 ^ (E + 1) = P at *
          norm_num at hNlo
          omega
      · rw [if_neg hov]
        have hu : 2 ^ 52 * 2 ^ (((E + 1 : Nat) : Int) + 1).toNat
            = roundShift N (E + 1) * 2 ^ (E + 1) := by
          have hp : 2 ^ (E + 1 + 1) = 2 ^ (E + 1) * 2 := Nat.pow_succ _ _
          rw [hcarry, show (((E + 1 : Nat) : Int) + 1).toNat = (E + 1) + 1 by omega, hp]
          ring
        refine ⟨rfl, ?_, ?_, ?_⟩
        · simp only [valid, Bool.and_eq_true, Bool.or_eq_true, decide_eq_true_eq]
          refine ⟨⟨by norm_num, by omega⟩, Or.inr (Nat.le_refl _)⟩
        · rw [overflowUnits_eq]
          have := hPZ1 (by omega)
          generalize 2 ^ 2044 = Z at *
          generalize 2 ^ (E + 1) = P at *
          norm_num at hNhi
          omega
        · intro t m2 e2 hv
          rw [hu]
          obtain ⟨h1, h2⟩ := hnear t m2 e2 hv
          exact ⟨h1, fun _ _ => by norm_num⟩
    · rw [if_neg hcarry]
      by_cases hov : ((E + 1 : Nat) : Int) > 2045
      · rw [if_pos hov]
        refine ⟨rfl, ?_⟩
        rw [overflowUnits_eq]
        have := hPZ3 (by omega)
        generalize 2 ^ 2044 = Z at *
        generalize 2 ^ (E + 1) = P at *
        norm_num at hNlo
        omega
      · rw [if_neg hov, Int.toNat_ofNat]
        have hm53 : roundShift N (E + 1) < 2 ^ 53 := by
          rcases hc with ⟨h1, _⟩ | ⟨h1, _⟩ <;> omega
        have hm52 : 2 ^ 52 ≤ roundShift N (E + 1) := by
          rcases hc with ⟨h1, _⟩ | ⟨h1, _⟩ <;> omega
        refine ⟨rfl, ?_, ?_, hnear⟩
        · simp only [valid, Bool.and_eq_true, Bool.or_eq_true, decide_eq_true_eq]
          exact ⟨⟨hm53, by omega⟩, Or.inr hm52⟩
        · rw [overflowUnits_eq]
          by_cases h45 : E + 1 = 2045
          · have hPZ := hPZ2 h45
            by_cases hq : N / 2 ^ (E + 1) + 2 ≤ 2 ^ 53
            · have hA := hqP2 hq
              rw [Nat.mul_add] at hA
              generalize 2 ^ 2044 = Z at *
              generalize 2 ^ (E + 1) = P at *
              generalize N % P = r at *
              generalize P * (N / P) = A at *
              norm_num at hA
              omega
            · have hq : N / 2 ^ (E + 1) = 2 ^ 53 - 1 := by omega
              have hr : 2 * (N % 2 ^ (E + 1)) < 2 ^ (E + 1) := by
                rcases hc with ⟨h1, h2⟩ | ⟨h1, h2⟩
                · rcases h2 with h2 | h2
                  · exact h2
                  · rw [hq] at h2
                    norm_num at h2
                · omega
              rw [hq] at hdiv
              generalize 2 ^ 2044 = Z at *
              generalize 2 ^ (E + 1) = P at *
              generalize N % P = r at *
              norm_num at hdiv
              omega
          · have := hPZ1 (by omega)
            generalize 2 ^ 2044 = Z at *
            generalize 2 ^ (E + 1) = P at *
            norm_num at hNhi
            omega

theorem ofInt_natCast (k : Nat) (hk0 : k ≠ 0) (hk : k < 2 ^ 53) :
    ofInt (k : Int) = finite false (k * 2 ^ (53 - bitLength k)) (1021 + bitLength k) ∧
      bitLength k ≤ 53 := by
  have hlt := bitLength_lt k
  have hle := bitLength_le k hk0
  have hpos := bitLength_pos k hk0
  have hB : bitLength k ≤ 53 := by
    by_contra hc
    have : 2 ^ 53 ≤ 2 ^ (bitLength k - 1) := Nat.pow_le_pow_right (by norm_num) (by omega)
    omega
  refine ⟨?_, hB⟩
  have hneg : decide (((k : Nat) : Int) < 0) = false := by
    rw [decide_eq_false_iff_not]
    omega
  unfold ofInt
  rw [hneg, Int.natAbs_ofNat]
  rw [round_eq false k 1074 ((1021 + bitLength k : Nat) : Int) (k * 2 ^ (53 - bitLength k))
    (by rw [max_eq_left] <;> omega)
    (by
      by_cases h53 : bitLength k = 53
      · rw [h53, if_pos (by norm_num)]
        norm_num
        exact (roundShift_zero k).symm
      · rw [if_neg (by omega)]
        congr 2
        omega)]
  have hm0 : k * 2 ^ (53 - bitLength k) ≠ 0 :=
    Nat.mul_ne_zero hk0 (Nat.ne_of_gt (Nat.two_pow_pos _))
  have hm53 : k * 2 ^ (53 - bitLength k) < 2 ^ 53 := by
    calc k * 2 ^ (53 - bitLength k) < 2 ^ bitLength k * 2 ^ (53 - bitLength k) :=
          Nat.mul_lt_mul_of_pos_right hlt (Nat.two_pow_pos _)
      _ = 2 ^ 53 := by rw [← Nat.pow_add, show bitLength k + (53 - bitLength k) = 53 by omega]
  rw [if_neg hm0, if_neg (Nat.ne_of_lt hm53), if_neg (by omega), Int.toNat_ofNat]

theorem mul_ofInt (k : Nat) (hk : k < 2 ^ 53) (b : Bool) (m e : Nat) :
    mul (ofInt (k : Int)) (finite b m e) = round b (k * (m * 2 ^ e)) 0 := by
  by_cases hk0 : k = 0
  · subst hk0
    have h0 : ofInt ((0 : Nat) : Int) = finite false 0 0 := by
      unfold ofInt
      exact round_zero _ _
    rw [h0]
    show round (false != b) (0 * m) _ = _
    rw [Nat.zero_mul, Nat.zero_mul, round_zero, round_zero]
    simp
  · obtain ⟨h1, hB⟩ := ofInt_natCast k hk0 hk
    rw [h1]
    show round (false != b) (k * 2 ^ (53 - bitLength k) * m)
      (((1021 + bitLength k : Nat) : Int) + (e : Int) - 1074) = _
    have hb : (false != b) = b := by cases b <;> rfl
    have hx : ((1021 + bitLength k : Nat) : Int) + (e : Int) - 1074
        = (e : Int) - ((53 - bitLength k : Nat) : Int) := by omega
    have hn : k * 2 ^ (53 - bitLength k) * m = (k * m) * 2 ^ (53 - bitLength k) := by ring
    rw [hb, hx, hn, round_scale]
    have := round_scale b (k * m) e (e : Int)
    rw [Int.sub_self, Nat.mul_assoc] at this
    exact this.symm

/-- The product of an integer below 2^53 and a double is the exact product rounded to
the nearest double, ties to even. -/
theorem mul_ofInt_isRounded (k : Nat) (hk : k < 2 ^ 53) (b : Bool) (m e : Nat) :
    IsRounded (mul (ofInt (k : Int)) (finite b m e)) b (k * (m * 2 ^ e)) := by
  rw [mul_ofInt k hk]
  exact round_spec0 b _

end Double

theorem durationPoints_y (d : wxDVTimeSeriesDataSet) :
    (durationPoints d).map (fun q => q.y) = (stdSort (d.data.map (fun q => q.y))).reverse := by
  have hlen : (stdSort (copyYValues d)).length = d.Length := by
    rw [stdSort_length, copyYValues_eq]; simp [wxDVTimeSeriesDataSet.Length]
  unfold durationPoints
  simp only [List.map_map]
  rw [← copyYValues_eq, ← range_map_getD_reverse (stdSort (copyYValues d)) 0, hlen]
  rfl

theorem durationPoints_x (d : wxDVTimeSeriesDataSet) :
    (durationPoints d).map (fun q => q.x) =
      (List.range d.Length).map (fun (i : Nat) => Double.mul (Double.ofInt i) d.timeStep) := by
  unfold durationPoints
  simp only [List.map_map]
  rfl

/-- The duration curve of a plot set without plot, for a dataset without a NaN. -/
theorem durationCurve_spec (fresh : Nat) (p : PlotSet) (h : p.plot = none)
    (hnan : ∀ pt ∈ p.dataset.data, pt.y.isNaN = false) :
    ∃ q, (CalculateDCPlotData fresh p).plot = some q ∧
      q.data.length = p.dataset.Length ∧
      q.data.map (fun pt => pt.x) =
        (List.range p.dataset.Length).map
          (fun (i : Nat) => Double.mul (Double.ofInt i) p.dataset.timeStep) ∧
      List.Perm (q.data.map (fun pt => pt.y)) (p.dataset.data.map (fun pt => pt.y)) ∧
      List.Sorted (fun a b => Double.le b a = true) (q.data.map (fun pt => pt.y)) := by
  refine ⟨_, by simp [CalculateDCPlotData, h]; rfl, ?_, ?_, ?_, ?_⟩
  · simp [durationPoints]
  · exact durationPoints_x p.dataset
  · show List.Perm ((durationPoints p.dataset).map _) _
    rw [durationPoints_y]
    exact (List.reverse_perm _).trans (stdSort_perm _)
  · show List.Sorted _ ((durationPoints p.dataset).map _)
    rw [durationPoints_y]
    have hs := stdSort_sorted (p.dataset.data.map (fun q => q.y)) (by
      intro x hx
      obtain ⟨pt, hpt, rfl⟩ := List.mem_map.mp hx
      exact hnan pt hpt)
    unfold List.Sorted at hs ⊢
    rw [List.pairwise_reverse]
    exact hs

theorem durationPoints_getElem (d : wxDVTimeSeriesDataSet) (i : Nat) (hi : i < d.Length) :
    ∃ pt, (durationPoints d)[i]? = some pt ∧
      pt.x = Double.mul (Double.ofInt (i : Int)) d.timeStep := by
  unfold durationPoints
  simp only []
  rw [List.getElem?_map, List.getElem?_range hi]
  exact ⟨_, rfl, rfl⟩

/-- The duration curve of a plot set without plot, for a dataset without a NaN. -/
theorem durationCurve_rounded (fresh : Nat) (p : PlotSet) (h : p.plot = none)
    (hnan : ∀ pt ∈ p.dataset.data, pt.y.isNaN = false) :
    ∃ q, (CalculateDCPlotData fresh p).plot = some q ∧
      q.data.length = p.dataset.Length ∧
      q.data.map (fun pt => pt.x) =
        (List.range p.dataset.Length).map
          (fun (i : Nat) => Double.mul (Double.ofInt i) p.dataset.timeStep) ∧
      (∀ (i : Nat) (neg : Bool) (m e : Nat), i < p.dataset.Length → i < 2 ^ 53 →
        p.dataset.timeStep = Double.finite neg m e →
        ∃ pt, q.data[i]? = some pt ∧ Double.IsRounded pt.x neg (i * (m * 2 ^ e))) ∧
      List.Perm (q.data.map (fun pt => pt.y)) (p.dataset.data.map (fun pt => pt.y)) ∧
      List.Sorted (fun a b => Double.le b a = true) (q.data.map (fun pt => pt.y)) := by
  obtain ⟨q, hq, h1, h2, h3, h4⟩ := durationCurve_spec fresh p h hnan
  have hqd : q.data = durationPoints p.dataset := by
    have : (CalculateDCPlotData fresh p).plot = some (wxPLLinePlot.mk fresh
        (durationPoints p.dataset) (p.dataset.seriesTitle ++ " (" ++ p.dataset.units ++ ")")
        "Hours equaled or exceeded"
        (p.dataset.seriesTitle ++ " (" ++ p.dataset.units ++ ")") 0) := by
      simp [CalculateDCPlotData, h]
    rw [this] at hq
    cases hq
    rfl
  refine ⟨q, hq, h1, h2, ?_, h3, h4⟩
  intro i neg m e hi hi53 hdt
  obtain ⟨pt, hpt, hx⟩ := durationPoints_getElem p.dataset i hi
  refine ⟨pt, by rw [hqd]; exact hpt, ?_⟩
  rw [hx, hdt]
  exact Double.mul_ofInt_isRounded i hi53 neg m e

set_option maxRecDepth 8000 in
theorem sampleCurve_points :
    (CalculateDCPlotData 0 (PlotSet.new sampleCurve)).plot.map
      (fun q => q.data.map (fun pt => (pt.x.toBits, pt.y))) =
        some [(0, 5), (0x3FB999999999999A, 3), (0x3FC999999999999A, 2),
          (0x3FD3333333333334, 1)] := by
  decide

set_option maxRecDepth 8000 in
theorem sampleCurve_inexact :
    sampleCurve.timeStep = Double.finite false 0x1999999999999A 1018 ∧
    Double.ofBits 0x3FD3333333333334 = Double.finite false 0x13333333333334 1020 ∧
    0x13333333333334 * 2 ^ 2 ≠ 3 * 0x1999999999999A := by
  decide

set_option maxRecDepth 8000 in
theorem sampleNaN_points :
    (CalculateDCPlotData 0 (PlotSet.new sampleNaN)).plot.map
      (fun q => q.data.map (fun pt => pt.y)) = some [2, Double.nan, 3, 1] ∧
    ¬ List.Sorted (fun a b => Double.le b a = true) [(2 : Double), Double.nan, 3, 1] ∧
    Double.lt 2 3 = true := by
  decide

/-- C1, amended: for a plot set whose plot has not been computed yet and a dataset of `n`
values none of which is a NaN, `CalculateDCPlotData` builds a curve of exactly `n`
points.  The x-value at position `i` is the product of `i` and the time step `dt` in
double arithmetic; for a finite `dt` (and `i` below 2^53, as every `int` is) that is the
exact product rounded to the nearest double, ties to even, and an infinity when the
exact product overflows.  The y-values are a permutation of the values of the dataset in
non-increasing order, so the point at position `i` carries the `(i+1)`-th largest
value. -/
theorem calculateDCPlotData_duration_curve (fresh : Nat) (p : PlotSet) (h : p.plot = none)
    (hnan : ∀ pt ∈ p.dataset.data, pt.y.isNaN = false) :
    ∃ q, (CalculateDCPlotData fresh p).plot = some q ∧
      q.data.length = p.dataset.Length ∧
      q.data.map (fun pt => pt.x) =
        (List.range p.dataset.Length).map
          (fun (i : Nat) => Double.mul (Double.ofInt i) p.dataset.timeStep) ∧
      (∀ (i : Nat) (neg : Bool) (m e : Nat), i < p.dataset.Length → i < 2 ^ 53 →
        p.dataset.timeStep = Double.finite neg m e →
        ∃ pt, q.data[i]? = some pt ∧ Double.IsRounded pt.x neg (i * (m * 2 ^ e))) ∧
      List.Perm (q.data.map (fun pt => pt.y)) (p.dataset.data.map (fun pt => pt.y)) ∧
      List.Sorted (fun a b => Double.le b a = true) (q.data.map (fun pt => pt.y)) :=
  durationCurve_rounded fresh p h hnan

/-- C1, amended, at the sample dataset with the values 3, 5, 1, 2 and the time step 0.1:
the points are (0, 5), (0.1, 3), (0.2, 2) and (0.30000000000000004, 1), the x-values
given by their bit patterns. -/
theorem calculateDCPlotData_duration_curve_witness :
    (PlotSet.new sampleCurve).plot = none ∧
    (∀ pt ∈ (PlotSet.new sampleCurve).dataset.data, pt.y.isNaN = false) ∧
    (CalculateDCPlotData 0 (PlotSet.new sampleCurve)).plot.map
      (fun q => q.data.map (fun pt => (pt.x.toBits, pt.y))) =
        some [(0, 5), (0x3FB999999999999A, 3), (0x3FC999999999999A, 2),
          (0x3FD3333333333334, 1)] ∧
    ∃ q, (CalculateDCPlotData 0 (PlotSet.new sampleCurve)).plot = some q ∧
      q.data.length = (PlotSet.new sampleCurve).dataset.Length ∧
      q.data.map (fun pt => pt.x) =
        (List.range (PlotSet.new sampleCurve).dataset.Length).map
          (fun (i : Nat) => Double.mul (Double.ofInt i) (PlotSet.new sampleCurve).dataset.timeStep) ∧
      (∀ (i : Nat) (neg : Bool) (m e : Nat), i < (PlotSet.new sampleCurve).dataset.Length →
        i < 2 ^ 53 → (PlotSet.new sampleCurve).dataset.timeStep = Double.finite neg m e →
        ∃ pt, q.data[i]? = some pt ∧ Double.IsRounded pt.x neg (i * (m * 2 ^ e))) ∧
      List.Perm (q.data.map (fun pt => pt.y))
        ((PlotSet.new sampleCurve).dataset.data.map (fun pt => pt.y)) ∧
      List.Sorted (fun a b => Double.le b a = true) (q.data.map (fun pt => pt.y)) :=
  ⟨rfl, by decide, sampleCurve_points,
    calculateDCPlotData_duration_curve 0 (PlotSet.new sampleCurve) rfl (by decide)⟩

/-- C1 fails as stated.  For the dataset with the values 1, 3, NaN, 2 the curve has the
y-values 2, NaN, 3, 1, which are not in non-increasing order: 2 is less than 3.  And for
the dataset with the time step 0.1 the x-value at position 3 is 0.30000000000000004,
which is not three times the time step: in units of 2^-1074 the time step is
`0x1999999999999A * 2^1018` and the x-value is `0x13333333333334 * 2^1020`. -/
theorem calculateDCPlotData_duration_curve_counterexample :
    ((PlotSet.new sampleNaN).plot = none ∧
      (CalculateDCPlotData 0 (PlotSet.new sampleNaN)).plot.map
        (fun q => q.data.map (fun pt => pt.y)) = some [2, Double.nan, 3, 1] ∧
      ¬ List.Sorted (fun a b => Double.le b a = true) [(2 : Double), Double.nan, 3, 1] ∧
      Double.lt 2 3 = true) ∧
    ((PlotSet.new sampleCurve).plot = none ∧
      (CalculateDCPlotData 0 (PlotSet.new sampleCurve)).plot.map
        (fun q => q.data.map (fun pt => (pt.x.toBits, pt.y))) =
          some [(0, 5), (0x3FB999999999999A, 3), (0x3FC999999999999A, 2),
            (0x3FD3333333333334, 1)] ∧
      sampleCurve.timeStep = Double.finite false 0x1999999999999A 1018 ∧
      Double.ofBits 0x3FD3333333333334 = Double.finite false 0x13333333333334 1020 ∧
      0x13333333333334 * 2 ^ 2 ≠ 3 * 0x1999999999999A) :=
  ⟨⟨rfl, sampleNaN_points⟩, rfl, sampleCurve_points, sampleCurve_inexact⟩

/-- C8: the plot of a plot set is computed lazily and at most once.  `AddDataSet` appends
a plot set made by the constructor, which holds no plot; on a plot set whose plot is
present `CalculateDCPlotData` changes nothing; and a second call gives the plot set of
the first call, whatever address a new allocation would have returned. -/
theorem calculateDCPlotData_lazy_once (s : wxDVDCCtrl) (d : wxDVTimeSeriesDataSet)
    (p : PlotSet) (fresh1 fresh2 : Nat) :
    (s.AddDataSet d).m_plots = s.m_plots ++ [PlotSet.new d] ∧
    (PlotSet.new d).plot = none ∧
    (p.plot.isSome = true → CalculateDCPlotData fresh1 p = p) ∧
    CalculateDCPlotData fresh2 (CalculateDCPlotData fresh1 p) = CalculateDCPlotData fresh1 p := by
  refine ⟨rfl, rfl, ?_, ?_⟩
  · intro h
    simp [CalculateDCPlotData, h]
  · cases hp : p.plot <;> simp [CalculateDCPlotData, hp]

/-- C8 at a plot set that already holds a plot. -/
theorem calculateDCPlotData_lazy_once_witness :
    (CalculateDCPlotData 5 (PlotSet.new ⟨1, "t", "kW", "g", "l", "t (kW)", 1, []⟩)).plot.isSome
      = true ∧
    CalculateDCPlotData 9 (CalculateDCPlotData 5 (PlotSet.new ⟨1, "t", "kW", "g", "l", "t (kW)", 1, []⟩))
      = CalculateDCPlotData 5 (PlotSet.new ⟨1, "t", "kW", "g", "l", "t (kW)", 1, []⟩) :=
  ⟨rfl, (calculateDCPlotData_lazy_once wxDVDCCtrl.new ⟨1, "t", "kW", "g", "l", "t (kW)", 1, []⟩
    (CalculateDCPlotData 5 (PlotSet.new ⟨1, "t", "kW", "g", "l", "t (kW)", 1, []⟩)) 9 9).2.2.1 rfl⟩

/-! ## Lemmas on the selection list -/

namespace wxDVSelectionListCtrl

theorem values_length (l : wxDVSelectionListCtrl) : l.values.length = l.Length := by
  simp [values, Length]

theorem IsSelected_eq_values (l : wxDVSelectionListCtrl) (i : Nat) :
    l.IsSelected i = l.values.getD i false := by
  unfold IsSelected values
  rw [List.getD_eq_getElem?_getD, List.getElem?_map]
  cases l.m_itemList[i]? <;> rfl

theorem GetSelectionsInCol_eq_values (l : wxDVSelectionListCtrl) :
    l.GetSelectionsInCol = (List.range l.values.length).filter (fun i => l.values.getD i false) := by
  unfold GetSelectionsInCol
  rw [values_length]
  congr 1
  funext i
  exact IsSelected_eq_values l i

theorem GetSelectionsInCol_congr {l l' : wxDVSelectionListCtrl} (h : l'.values = l.values) :
    l'.GetSelectionsInCol = l.GetSelectionsInCol := by
  rw [GetSelectionsInCol_eq_values, GetSelectionsInCol_eq_values, h]

theorem IsSelected_congr {l l' : wxDVSelectionListCtrl} (h : l'.values = l.values) (i : Nat) :
    l'.IsSelected i = l.IsSelected i := by
  rw [IsSelected_eq_values, IsSelected_eq_values, h]

theorem Length_congr {l l' : wxDVSelectionListCtrl} (h : l'.values = l.values) :
    l'.Length = l.Length := by
  rw [← values_length, ← values_length, h]

theorem mem_GetSelectionsInCol {l : wxDVSelectionListCtrl} {i : Nat} :
    i ∈ l.GetSelectionsInCol ↔ l.IsSelected i = true := by
  unfold GetSelectionsInCol
  simp only [List.mem_filter, List.mem_range, and_iff_right_iff_imp]
  intro h
  unfold IsSelected at h
  unfold Length
  by_contra hlt
  rw [List.getElem?_eq_none (by omega)] at h
  simp at h

theorem IsSelected_lt_Length {l : wxDVSelectionListCtrl} {i : Nat} (h : l.IsSelected i = true) :
    i < l.Length := by
  have := mem_GetSelectionsInCol.mpr h
  unfold GetSelectionsInCol at this
  simpa using (List.mem_filter.mp this).1

theorem Enable_getElem? (l : wxDVSelectionListCtrl) (i : Nat) (b : Bool) (j : Nat) :
    (l.Enable i b).m_itemList[j]? =
      (l.m_itemList[j]?).map (fun r => if j = i then { r with enable := b } else r) := by
  unfold Enable
  cases h : l.m_itemList[i]? with
  | none =>
    simp only
    by_cases hji : j = i
    · subst hji; simp [h]
    · cases l.m_itemList[j]? <;> simp [hji]
  | some r =>
    simp only [List.getElem?_set]
    by_cases hji : i = j
    · subst hji
      have hlt : i < l.m_itemList.length := by
        by_contra hge
        rw [List.getElem?_eq_none (by omega)] at h
        exact Option.noConfusion h
      simp [hlt, h]
    · have hji2 : ¬ j = i := fun e => hji e.symm
      cases l.m_itemList[j]? <;> simp [hji, hji2]

theorem Enable_last (l : wxDVSelectionListCtrl) (i : Nat) (b : Bool) :
    (l.Enable i b).m_lastEventRow = l.m_lastEventRow ∧
    (l.Enable i b).m_lastEventCol = l.m_lastEventCol ∧
    (l.Enable i b).m_lastEventValue = l.m_lastEventValue := by
  unfold Enable
  cases l.m_itemList[i]? <;> simp

end wxDVSelectionListCtrl

namespace wxDVDCCtrl

open wxDVSelectionListCtrl

theorem enableLoop_getElem? (l : wxDVSelectionListCtrl) (n : Nat) (f : Nat → Bool) (j : Nat) :
    (enableLoop l n f).m_itemList[j]? =
      (l.m_itemList[j]?).map (fun r => if j < n then { r with enable := f j } else r) := by
  induction n with
  | zero => simp [enableLoop]
  | succ n ih =>
    have hstep : enableLoop l (n + 1) f = (enableLoop l n f).Enable n (f n) := by
      simp [enableLoop, List.range_succ, List.foldl_append]
    rw [hstep, Enable_getElem?, ih]
    cases l.m_itemList[j]? with
    | none => rfl
    | some r =>
      simp only [Option.map_some']
      by_cases h1 : j = n
      · subst h1; simp
      · by_cases h2 : j < n
        · have : j < n + 1 := by omega
          simp [h1, h2, this]
        · have : ¬ j < n + 1 := by omega
          simp [h1, h2, this]

theorem enableLoop_last (l : wxDVSelectionListCtrl) (n : Nat) (f : Nat → Bool) :
    (enableLoop l n f).m_lastEventRow = l.m_lastEventRow ∧
    (enableLoop l n f).m_lastEventCol = l.m_lastEventCol ∧
    (enableLoop l n f).m_lastEventValue = l.m_lastEventValue := by
  induction n with
  | zero => simp [enableLoop]
  | succ n ih =>
    have hstep : enableLoop l (n + 1) f = (enableLoop l n f).Enable n (f n) := by
      simp [enableLoop, List.range_succ, List.foldl_append]
    rw [hstep]
    obtain ⟨h1, h2, h3⟩ := Enable_last (enableLoop l n f) n (f n)
    exact ⟨h1.trans ih.1, h2.trans ih.2.1, h3.trans ih.2.2⟩

theorem enableLoop_values (l : wxDVSelectionListCtrl) (n : Nat) (f : Nat → Bool) :
    (enableLoop l n f).values = l.values := by
  apply List.ext_getElem?
  intro j
  simp only [values, List.getElem?_map, enableLoop_getElem?]
  cases l.m_itemList[j]? with
  | none => rfl
  | some r => by_cases h : j < n <;> simp [h]

theorem enableLoop_labels (l : wxDVSelectionListCtrl) (n : Nat) (f : Nat → Bool) :
    (enableLoop l n f).labels = l.labels := by
  apply List.ext_getElem?
  intro j
  simp only [labels, List.getElem?_map, enableLoop_getElem?]
  cases l.m_itemList[j]? with
  | none => rfl
  | some r => by_cases h : j < n <;> simp [h]

theorem enableLoop_IsEnabled (l : wxDVSelectionListCtrl) (n : Nat) (f : Nat → Bool) (j : Nat)
    (hn : j < n) (hl : j < l.Length) : (enableLoop l n f).IsEnabled j = f j := by
  unfold IsEnabled
  rw [enableLoop_getElem?, List.getElem?_eq_getElem (by simpa [Length] using hl)]
  simp [hn]

theorem RefreshDisabledCheckBoxes_eq (s : wxDVDCCtrl) :
    RefreshDisabledCheckBoxes s =
      { s with m_dataSelector := enableLoop s.m_dataSelector s.m_plots.length (refreshFlags s) } := by
  unfold RefreshDisabledCheckBoxes refreshFlags
  simp only
  split
  · rfl
  · split <;> rfl

theorem RefreshDisabledCheckBoxes_plots (s : wxDVDCCtrl) :
    (RefreshDisabledCheckBoxes s).m_plots = s.m_plots := by
  rw [RefreshDisabledCheckBoxes_eq]

theorem RefreshDisabledCheckBoxes_surface (s : wxDVDCCtrl) :
    (RefreshDisabledCheckBoxes s).m_plotSurface = s.m_plotSurface := by
  rw [RefreshDisabledCheckBoxes_eq]

theorem RefreshDisabledCheckBoxes_heap (s : wxDVDCCtrl) :
    (RefreshDisabledCheckBoxes s).m_heap = s.m_heap := by
  rw [RefreshDisabledCheckBoxes_eq]

theorem RefreshDisabledCheckBoxes_values (s : wxDVDCCtrl) :
    (RefreshDisabledCheckBoxes s).m_dataSelector.values = s.m_dataSelector.values := by
  rw [RefreshDisabledCheckBoxes_eq]
  exact enableLoop_values _ _ _

theorem RefreshDisabledCheckBoxes_labels (s : wxDVDCCtrl) :
    (RefreshDisabledCheckBoxes s).m_dataSelector.labels = s.m_dataSelector.labels := by
  rw [RefreshDisabledCheckBoxes_eq]
  exact enableLoop_labels _ _ _

end wxDVDCCtrl

namespace wxDVDCCtrl

open wxDVSelectionListCtrl

theorem RefreshDisabledCheckBoxes_IsEnabled (s : wxDVDCCtrl) (i : Nat)
    (hi : i < s.m_plots.length) (hl : i < s.m_dataSelector.Length) :
    (RefreshDisabledCheckBoxes s).m_dataSelector.IsEnabled i = refreshFlags s i := by
  rw [RefreshDisabledCheckBoxes_eq]
  exact enableLoop_IsEnabled _ _ _ _ hi hl

theorem find?_append_first {α : Type} (p : α → Bool) (pre post : List α) (k : α)
    (hpre : ∀ j ∈ pre, p j = false) (hk : p k = true) :
    (pre ++ k :: post).find? p = some k := by
  induction pre with
  | nil => simp [hk]
  | cons a pre ih =>
    have ha : p a = false := hpre a (List.mem_cons_self _ _)
    simp only [List.cons_append, List.find?_cons, ha]
    exact ih (fun j hj => hpre j (List.mem_cons_of_mem _ hj))

/-- C4: `RefreshDisabledCheckBoxes` disables exactly the rows with incompatible units.
With `S` the selected rows in row order and `u1` the units of the first of them: if `S`
has fewer than two rows, or every row of `S` has units `u1`, every row of `m_plots` is
enabled afterwards; and if `k` is the first row of `S` after the first one whose units
`u2` differ from `u1`, row `i` is enabled afterwards exactly when the units of dataset
`i` are `u1` or `u2`.  The list has one row per plot set. -/
theorem refreshDisabledCheckBoxes_enables (s : wxDVDCCtrl)
    (hwf : s.m_dataSelector.Length = s.m_plots.length) :
    ((s.m_dataSelector.GetSelectionsInCol.length < 2 ∨
        ∀ k ∈ s.m_dataSelector.GetSelectionsInCol,
          s.unitsAt k = s.unitsAt (s.m_dataSelector.GetSelectionsInCol.getD 0 0)) →
      ∀ i, i < s.m_plots.length →
        (RefreshDisabledCheckBoxes s).m_dataSelector.IsEnabled i = true) ∧
    (∀ k0 pre k post, s.m_dataSelector.GetSelectionsInCol = k0 :: (pre ++ k :: post) →
      (∀ j ∈ pre, s.unitsAt j = s.unitsAt k0) → s.unitsAt k ≠ s.unitsAt k0 →
      ∀ i, i < s.m_plots.length →
        ((RefreshDisabledCheckBoxes s).m_dataSelector.IsEnabled i = true ↔
          (s.unitsAt i = s.unitsAt k0 ∨ s.unitsAt i = s.unitsAt k))) := by
  constructor
  · intro h i hi
    rw [RefreshDisabledCheckBoxes_IsEnabled s i hi (by omega)]
    unfold refreshFlags
    simp only
    split
    · rfl
    · rename_i hlen
      rcases h with h | h
      · exact absurd h hlen
      · have hnone : findUnits2 s s.m_dataSelector.GetSelectionsInCol
            (s.unitsAt (s.m_dataSelector.GetSelectionsInCol.getD 0 0)) = none := by
          unfold findUnits2
          rw [Option.map_eq_none', List.find?_eq_none]
          intro k hk
          have := h k (List.mem_of_mem_drop hk)
          simp [this]
        rw [hnone]
  · intro k0 pre k post hS hpre hk i hi
    rw [RefreshDisabledCheckBoxes_IsEnabled s i hi (by omega)]
    unfold refreshFlags
    have hlen : ¬ s.m_dataSelector.GetSelectionsInCol.length < 2 := by
      rw [hS]; simp; omega
    have h0 : s.m_dataSelector.GetSelectionsInCol.getD 0 0 = k0 := by rw [hS]; rfl
    have hsome : findUnits2 s s.m_dataSelector.GetSelectionsInCol (s.unitsAt k0)
        = some (s.unitsAt k) := by
      unfold findUnits2
      rw [hS]
      simp only [List.drop_succ_cons, List.drop_zero]
      rw [find?_append_first _ pre post k (by simpa using hpre) (by simpa using hk)]
      rfl
    simp only [hlen, if_false, h0, hsome, decide_eq_true_eq]
    constructor
    · rintro (h | h)
      · exact Or.inl h.symm
      · exact Or.inr h.symm
    · rintro (h | h)
      · exact Or.inl h.symm
      · exact Or.inr h.symm

end wxDVDCCtrl

namespace wxDVDCCtrl

/-- C4 at the sample control with rows 0 (kW) and 1 (V) selected: row 2 (A) is enabled
only if its units are kW or V. -/
theorem refreshDisabledCheckBoxes_enables_witness :
    sample3sel.m_dataSelector.Length = sample3sel.m_plots.length ∧
    ((RefreshDisabledCheckBoxes sample3sel).m_dataSelector.IsEnabled 2 = true ↔
      (sample3sel.unitsAt 2 = sample3sel.unitsAt 0 ∨ sample3sel.unitsAt 2 = sample3sel.unitsAt 1)) :=
  ⟨by decide, (refreshDisabledCheckBoxes_enables sample3sel (by decide)).2 0 [] 1 []
    (by decide) (by simp) (by decide) 2 (by decide)⟩

end wxDVDCCtrl

/-! ## Lemmas on the plot surface -/

namespace wxPLPlotCtrl

@[simp] theorem SetAxis_plots (c : wxPLPlotCtrl) (a : Option wxPLAxis) (pos : AxisPos) :
    (c.SetAxis a pos).m_plots = c.m_plots := by
  cases pos <;> rfl

@[simp] theorem GetAxis_SetAxis (c : wxPLPlotCtrl) (a : Option wxPLAxis) (pos pos2 : AxisPos) :
    (c.SetAxis a pos).GetAxis pos2 = if pos2 = pos then a else c.GetAxis pos2 := by
  cases pos <;> cases pos2 <;> simp [SetAxis, GetAxis]

@[simp] theorem SetUnits_plots (c : wxPLPlotCtrl) (pos : AxisPos) (u : String) :
    (c.SetUnits pos u).m_plots = c.m_plots := by
  simp [SetUnits]

@[simp] theorem SetLabel_plots (c : wxPLPlotCtrl) (pos : AxisPos) (u : String) :
    (c.SetLabel pos u).m_plots = c.m_plots := by
  simp [SetLabel]

theorem GetAxis_SetUnits (c : wxPLPlotCtrl) (pos pos2 : AxisPos) (u : String) :
    (c.SetUnits pos u).GetAxis pos2 =
      if pos2 = pos then (c.GetAxis pos).map (fun a => { a with units := u })
      else c.GetAxis pos2 := by
  simp [SetUnits]

theorem GetAxis_SetLabel (c : wxPLPlotCtrl) (pos pos2 : AxisPos) (u : String) :
    (c.SetLabel pos u).GetAxis pos2 =
      if pos2 = pos then (c.GetAxis pos).map (fun a => { a with label := u })
      else c.GetAxis pos2 := by
  simp [SetLabel]

@[simp] theorem AddPlot_plots (c : wxPLPlotCtrl) (p : Option Nat) (x y : AxisPos) :
    (c.AddPlot p x y).m_plots = c.m_plots ++ [plot_data.mk p x y] := by
  unfold AddPlot
  simp only
  split <;> split <;> simp

theorem GetAxis_AddPlot (c : wxPLPlotCtrl) (p : Option Nat) (x y pos : AxisPos) :
    (c.AddPlot p x y).GetAxis pos =
      if (pos = x ∨ pos = y) ∧ c.GetAxis pos = none then some suggestedAxis
      else c.GetAxis pos := by
  unfold AddPlot
  have hg : ∀ q, GetAxis { c with m_plots := c.m_plots ++ [plot_data.mk p x y] } q
      = c.GetAxis q := by
    intro q; cases q <;> rfl
  cases hx : c.GetAxis x <;> cases hy : c.GetAxis y <;>
    by_cases h1 : pos = x <;> by_cases h2 : pos = y <;>
    by_cases h3 : y = x <;> simp_all

@[simp] theorem RemovePlot_axis (c : wxPLPlotCtrl) (p : Option Nat) (pos : AxisPos) :
    (c.RemovePlot p).GetAxis pos = c.GetAxis pos := by
  cases pos <;> rfl

end wxPLPlotCtrl

namespace wxDVDCCtrl

open wxPLPlotCtrl

theorem chooseYap_eq (c : wxPLPlotCtrl) (u : String) :
    chooseYap c u =
      if c.GetYAxis1.map (fun a => a.units) = some u then AxisPos.Y_LEFT
      else if c.GetYAxis2.map (fun a => a.units) = some u then AxisPos.Y_RIGHT
      else if c.GetYAxis1 = none then AxisPos.Y_LEFT
      else AxisPos.Y_RIGHT := by
  unfold chooseYap y1Units y2Units
  cases h1 : c.GetYAxis1 <;> cases h2 : c.GetYAxis2 <;> simp

theorem chooseYap_cases (c : wxPLPlotCtrl) (u : String) :
    chooseYap c u = AxisPos.Y_LEFT ∨ chooseYap c u = AxisPos.Y_RIGHT := by
  unfold chooseYap
  split
  · exact Or.inl rfl
  · split
    · exact Or.inr rfl
    · split
      · exact Or.inl rfl
      · exact Or.inr rfl

theorem CalculateDCPlotData_dataset (f : Nat) (p : PlotSet) :
    (CalculateDCPlotData f p).dataset = p.dataset := by
  unfold CalculateDCPlotData
  split <;> rfl

theorem CalculateDCPlotData_isSome (f : Nat) (p : PlotSet) :
    (CalculateDCPlotData f p).plot.isSome = true := by
  unfold CalculateDCPlotData
  cases h : p.plot <;> simp [h]

theorem shownPlotSet_dataset (s : wxDVDCCtrl) (i : Nat) :
    (shownPlotSet s i).dataset = (s.plotAt i).dataset := by
  unfold shownPlotSet
  exact CalculateDCPlotData_dataset _ _

theorem shownPlotSet_isSome (s : wxDVDCCtrl) (i : Nat) :
    (shownPlotSet s i).plot.isSome = true := by
  unfold shownPlotSet
  simp [CalculateDCPlotData_isSome]

theorem showCore_plots (s : wxDVDCCtrl) (i : Nat) :
    (showCore s i).m_plots = s.m_plots.set i (shownPlotSet s i) := rfl

theorem showCore_selector (s : wxDVDCCtrl) (i : Nat) :
    (showCore s i).m_dataSelector = s.m_dataSelector := rfl

theorem plotAt_set (s : wxDVDCCtrl) (i k : Nat) (p : PlotSet) :
    plotAt { s with m_plots := s.m_plots.set i p } k =
      if i = k ∧ i < s.m_plots.length then p else s.plotAt k := by
  unfold plotAt
  simp only [List.getD_eq_getElem?_getD, List.getElem?_set]
  by_cases hik : i = k
  · subst hik
    by_cases hi : i < s.m_plots.length
    · simp [hi]
    · simp [hi, List.getElem?_eq_none (Nat.le_of_not_lt hi)]
  · simp [hik]

theorem showCore_plotAt (s : wxDVDCCtrl) (i k : Nat) :
    (showCore s i).plotAt k = if i = k ∧ i < s.m_plots.length then shownPlotSet s i else s.plotAt k :=
  plotAt_set s i k (shownPlotSet s i)

theorem showCore_plotAt_self (s : wxDVDCCtrl) (i : Nat) (hi : i < s.m_plots.length) :
    (showCore s i).plotAt i = shownPlotSet s i := by
  rw [showCore_plotAt]; simp [hi]

theorem showCore_unitsAt (s : wxDVDCCtrl) (i k : Nat) :
    (showCore s i).unitsAt k = s.unitsAt k := by
  rw [unitsAt, showCore_plotAt]
  split
  · rename_i h
    rw [shownPlotSet_dataset, h.1]; rfl
  · rfl

end wxDVDCCtrl

namespace wxDVDCCtrl

open wxPLPlotCtrl wxDVSelectionListCtrl

theorem countLoop_foldl (P : Nat → Bool) (yap : AxisPos) (rows : List Nat) (n : Nat × Nat) :
    rows.foldl
        (fun n i =>
          if P i = true then (if yap = AxisPos.Y_LEFT then (n.1 + 1, n.2) else (n.1, n.2 + 1))
          else n) n =
      if yap = AxisPos.Y_LEFT then (n.1 + (rows.filter P).length, n.2)
      else (n.1, n.2 + (rows.filter P).length) := by
  induction rows generalizing n with
  | nil => by_cases h : yap = AxisPos.Y_LEFT <;> simp [h]
  | cons r rows ih =>
    rw [List.foldl_cons, ih]
    cases hc : P r
    · by_cases h : yap = AxisPos.Y_LEFT <;> simp [h, hc, List.filter_cons]
    · by_cases h : yap = AxisPos.Y_LEFT
      · simp only [h, hc, if_true, List.filter_cons, List.length_cons]
        congr 1; omega
      · simp only [h, hc, if_true, if_false, List.filter_cons, List.length_cons]
        congr 1; omega

theorem showCounts_eq (s : wxDVDCCtrl) (i : Nat) (u : String) (yap : AxisPos) :
    showCounts s.m_dataSelector (showCore s i).m_plots u yap =
      if yap = AxisPos.Y_LEFT then
        ((s.m_dataSelector.GetSelectionsInCol.filter (fun k => decide (s.unitsAt k = u))).length, 0)
      else
        (0, (s.m_dataSelector.GetSelectionsInCol.filter (fun k => decide (s.unitsAt k = u))).length) := by
  unfold showCounts
  have hfun : (fun (n : Nat × Nat) (k : Nat) =>
      if s.m_dataSelector.IsSelected k = true ∧
          ((showCore s i).m_plots.getD k default).dataset.units = u then
        (if yap = AxisPos.Y_LEFT then (n.1 + 1, n.2) else (n.1, n.2 + 1))
      else n) =
      (fun (n : Nat × Nat) (k : Nat) =>
        if (s.m_dataSelector.IsSelected k && decide (s.unitsAt k = u)) = true then
          (if yap = AxisPos.Y_LEFT then (n.1 + 1, n.2) else (n.1, n.2 + 1))
        else n) := by
    funext n k
    have hk : ((showCore s i).m_plots.getD k default).dataset.units = s.unitsAt k :=
      showCore_unitsAt s i k
    rw [hk]
    simp only [Bool.and_eq_true, decide_eq_true_eq]
  rw [hfun, countLoop_foldl]
  unfold GetSelectionsInCol
  rw [List.filter_filter]
  have hf : (fun k => s.m_dataSelector.IsSelected k && decide (s.unitsAt k = u)) =
      (fun k => decide (s.unitsAt k = u) && s.m_dataSelector.IsSelected k) := by
    funext k; exact Bool.and_comm _ _
  rw [hf]
  by_cases h : yap = AxisPos.Y_LEFT <;> simp [h]

theorem showCore_surface (s : wxDVDCCtrl) (i : Nat) :
    (showCore s i).m_plotSurface =
      ((((s.m_plotSurface.AddPlot (shownPlotSet s i).plotPtr AxisPos.X_BOTTOM
            (chooseYap s.m_plotSurface (s.unitsAt i))).SetUnits
          (chooseYap s.m_plotSurface (s.unitsAt i)) (s.unitsAt i)).SetLabel
          (chooseYap s.m_plotSurface (s.unitsAt i))
          (if (s.m_dataSelector.GetSelectionsInCol.filter
                (fun k => decide (s.unitsAt k = s.unitsAt i))).length = 1
            then (s.plotAt i).dataset.label else s.unitsAt i)).SetLabel
        AxisPos.X_BOTTOM "Hours Equaled or Exceeded") := by
  have hcount := showCounts_eq s i (s.unitsAt i) (chooseYap s.m_plotSurface (s.unitsAt i))
  rw [showCore_plots] at hcount
  have hu : (shownPlotSet s i).dataset.units = s.unitsAt i := by
    rw [shownPlotSet_dataset]; rfl
  have hl : (shownPlotSet s i).dataset.label = (s.plotAt i).dataset.label := by
    rw [shownPlotSet_dataset]
  unfold showCore
  simp only [hu, hl, hcount]
  rcases chooseYap_cases s.m_plotSurface (s.unitsAt i) with h | h <;> simp [h]

theorem ShowPlotAtIndex_inRange (s : wxDVDCCtrl) (index : Int) (h0 : 0 ≤ index)
    (h1 : index < (s.m_plots.length : Int)) :
    ShowPlotAtIndex s index = RefreshDisabledCheckBoxes (showCore s index.toNat) := by
  unfold ShowPlotAtIndex
  simp [h0, h1]

theorem RefreshDisabledCheckBoxes_plotAt (s : wxDVDCCtrl) (k : Nat) :
    (RefreshDisabledCheckBoxes s).plotAt k = s.plotAt k := by
  unfold plotAt
  rw [RefreshDisabledCheckBoxes_plots]

end wxDVDCCtrl

namespace wxDVDCCtrl

open wxPLPlotCtrl wxDVSelectionListCtrl

theorem showCore_attachedAt (s : wxDVDCCtrl) (i : Nat) :
    (showCore s i).m_plotSurface.attachedAt (shownPlotSet s i).plotPtr
      (chooseYap s.m_plotSurface (s.unitsAt i)) := by
  rw [showCore_surface]
  unfold attachedAt
  refine ⟨plot_data.mk (shownPlotSet s i).plotPtr AxisPos.X_BOTTOM
    (chooseYap s.m_plotSurface (s.unitsAt i)), ?_, rfl, rfl⟩
  simp

theorem showCore_axis (s : wxDVDCCtrl) (i : Nat) :
    ∃ a, (showCore s i).m_plotSurface.GetAxis (chooseYap s.m_plotSurface (s.unitsAt i)) = some a ∧
      a.units = s.unitsAt i ∧
      a.label = if (s.m_dataSelector.GetSelectionsInCol.filter
                (fun k => decide (s.unitsAt k = s.unitsAt i))).length = 1
            then (s.plotAt i).dataset.label else s.unitsAt i := by
  rw [showCore_surface]
  rcases chooseYap_cases s.m_plotSurface (s.unitsAt i) with h | h <;>
    rw [h] <;>
    simp only [GetAxis_SetLabel, GetAxis_SetUnits, GetAxis_AddPlot] <;>
    cases hax : s.m_plotSurface.GetAxis _ <;> simp [hax]

/-- C5: for an index in range, `ShowPlotAtIndex` picks the Y axis from the units `u` of the
dataset of that index: the left axis if there is a left axis with units `u`; otherwise
the right axis if there is a right axis with units `u`; otherwise the left axis if there
is no left axis; otherwise the right axis.  Afterwards the plot of the index exists and
is attached to the surface on that axis, and that axis exists with units `u`. -/
theorem showPlotAtIndex_target_axis (s : wxDVDCCtrl) (index : Int) (h0 : 0 ≤ index)
    (h1 : index < (s.m_plots.length : Int)) :
    ∃ yap a,
      yap = (if s.m_plotSurface.GetYAxis1.map (fun a => a.units) = some (s.unitsAt index.toNat)
              then AxisPos.Y_LEFT
            else if s.m_plotSurface.GetYAxis2.map (fun a => a.units) = some (s.unitsAt index.toNat)
              then AxisPos.Y_RIGHT
            else if s.m_plotSurface.GetYAxis1 = none then AxisPos.Y_LEFT
            else AxisPos.Y_RIGHT) ∧
      ((ShowPlotAtIndex s index).plotAt index.toNat).plot.isSome = true ∧
      (ShowPlotAtIndex s index).m_plotSurface.attachedAt
        ((ShowPlotAtIndex s index).plotAt index.toNat).plotPtr yap ∧
      (ShowPlotAtIndex s index).m_plotSurface.GetAxis yap = some a ∧
      a.units = s.unitsAt index.toNat := by
  have hi : index.toNat < s.m_plots.length := by omega
  obtain ⟨a, ha, hu, _⟩ := showCore_axis s index.toNat
  refine ⟨chooseYap s.m_plotSurface (s.unitsAt index.toNat), a, chooseYap_eq _ _, ?_, ?_, ?_, hu⟩
  · rw [ShowPlotAtIndex_inRange s index h0 h1, RefreshDisabledCheckBoxes_plotAt,
      showCore_plotAt_self s _ hi]
    exact shownPlotSet_isSome s _
  · rw [ShowPlotAtIndex_inRange s index h0 h1, RefreshDisabledCheckBoxes_plotAt,
      showCore_plotAt_self s _ hi, RefreshDisabledCheckBoxes_surface]
    exact showCore_attachedAt s _
  · rw [ShowPlotAtIndex_inRange s index h0 h1, RefreshDisabledCheckBoxes_surface]
    exact ha

/-- C5 at the sample control with rows 0 and 1 selected, index 2: a left axis in kW and a
right axis in V exist, the dataset is in A, and the plot goes to the right axis. -/
theorem showPlotAtIndex_target_axis_witness :
    (0 : Int) ≤ 2 ∧ (2 : Int) < (sample3sel.m_plots.length : Int) ∧
    ∃ yap a,
      yap = (if sample3sel.m_plotSurface.GetYAxis1.map (fun a => a.units)
                = some (sample3sel.unitsAt (2 : Int).toNat)
              then AxisPos.Y_LEFT
            else if sample3sel.m_plotSurface.GetYAxis2.map (fun a => a.units)
                = some (sample3sel.unitsAt (2 : Int).toNat)
              then AxisPos.Y_RIGHT
            else if sample3sel.m_plotSurface.GetYAxis1 = none then AxisPos.Y_LEFT
            else AxisPos.Y_RIGHT) ∧
      ((ShowPlotAtIndex sample3sel 2).plotAt (2 : Int).toNat).plot.isSome = true ∧
      (ShowPlotAtIndex sample3sel 2).m_plotSurface.attachedAt
        ((ShowPlotAtIndex sample3sel 2).plotAt (2 : Int).toNat).plotPtr yap ∧
      (ShowPlotAtIndex sample3sel 2).m_plotSurface.GetAxis yap = some a ∧
      a.units = sample3sel.unitsAt (2 : Int).toNat :=
  ⟨by decide, by decide, showPlotAtIndex_target_axis sample3sel 2 (by decide) (by decide)⟩

/-- C10: for an index in range whose dataset has units `u`, `ShowPlotAtIndex` labels the
Y axis it chose with the label of the dataset if exactly one row selected in column 0
has units `u`, and with `u` otherwise. -/
theorem showPlotAtIndex_axis_label (s : wxDVDCCtrl) (index : Int) (h0 : 0 ≤ index)
    (h1 : index < (s.m_plots.length : Int)) :
    ∃ a, (ShowPlotAtIndex s index).m_plotSurface.GetAxis
        (chooseYap s.m_plotSurface (s.unitsAt index.toNat)) = some a ∧
      a.label =
        if (s.m_dataSelector.GetSelectionsInCol.filter
            (fun k => decide (s.unitsAt k = s.unitsAt index.toNat))).length = 1
        then (s.plotAt index.toNat).dataset.label
        else s.unitsAt index.toNat := by
  obtain ⟨a, ha, _, hl⟩ := showCore_axis s index.toNat
  refine ⟨a, ?_, hl⟩
  rw [ShowPlotAtIndex_inRange s index h0 h1, RefreshDisabledCheckBoxes_surface]
  exact ha

/-- C10 at the sample control with rows 0 (kW) and 1 (V) selected, index 1. -/
theorem showPlotAtIndex_axis_label_witness :
    (0 : Int) ≤ 1 ∧ (1 : Int) < (sample3sel.m_plots.length : Int) ∧
    ∃ a, (ShowPlotAtIndex sample3sel 1).m_plotSurface.GetAxis
        (chooseYap sample3sel.m_plotSurface (sample3sel.unitsAt (1 : Int).toNat)) = some a ∧
      a.label =
        if (sample3sel.m_dataSelector.GetSelectionsInCol.filter
            (fun k => decide (sample3sel.unitsAt k = sample3sel.unitsAt (1 : Int).toNat))).length = 1
        then (sample3sel.plotAt (1 : Int).toNat).dataset.label
        else sample3sel.unitsAt (1 : Int).toNat :=
  ⟨by decide, by decide, showPlotAtIndex_axis_label sample3sel 1 (by decide) (by decide)⟩

end wxDVDCCtrl

namespace wxDVDCCtrl

open wxPLPlotCtrl wxDVSelectionListCtrl

theorem hideCountStep_num (s : wxDVDCCtrl) (u1 u2 : String) (a : HideCounters) (r : Nat) :
    (hideCountStep s u1 u2 a r).NumY1AxisSelections =
        a.NumY1AxisSelections + (if s.unitsAt r = u1 then 1 else 0) ∧
    (hideCountStep s u1 u2 a r).NumY2AxisSelections =
        a.NumY2AxisSelections + (if s.unitsAt r = u2 then 1 else 0) := by
  unfold hideCountStep
  simp only
  split_ifs <;> simp

theorem hideCounts_foldl (s : wxDVDCCtrl) (u1 u2 : String) (rows : List Nat) (a : HideCounters) :
    (rows.foldl (hideCountStep s u1 u2) a).NumY1AxisSelections =
        a.NumY1AxisSelections + (rows.filter (fun k => decide (s.unitsAt k = u1))).length ∧
    (rows.foldl (hideCountStep s u1 u2) a).NumY2AxisSelections =
        a.NumY2AxisSelections + (rows.filter (fun k => decide (s.unitsAt k = u2))).length := by
  induction rows generalizing a with
  | nil => simp
  | cons r rows ih =>
    rw [List.foldl_cons]
    obtain ⟨h1, h2⟩ := ih (hideCountStep s u1 u2 a r)
    obtain ⟨g1, g2⟩ := hideCountStep_num s u1 u2 a r
    rw [h1, h2, g1, g2]
    constructor
    · by_cases c1 : s.unitsAt r = u1 <;> (simp [c1, List.filter_cons]; try omega)
    · by_cases c2 : s.unitsAt r = u2 <;> (simp [c2, List.filter_cons]; try omega)

theorem hideCounts_num (s : wxDVDCCtrl) (u1 u2 : String) (rows : List Nat) :
    (hideCounts s u1 u2 rows).NumY1AxisSelections =
        (rows.filter (fun k => decide (s.unitsAt k = u1))).length ∧
    (hideCounts s u1 u2 rows).NumY2AxisSelections =
        (rows.filter (fun k => decide (s.unitsAt k = u2))).length := by
  have := hideCounts_foldl s u1 u2 rows ⟨0, 0, -1, -1⟩
  simpa [hideCounts] using this

theorem moveLeft_foldl_plotPtr (rows : List Nat) (a : List PlotSet × wxPLPlotCtrl) (k : Nat) :
    ((rows.foldl moveLeftStep a).1.getD k default).plotPtr = (a.1.getD k default).plotPtr ∧
    ((rows.foldl moveLeftStep a).1.getD k default).dataset = (a.1.getD k default).dataset ∧
    (rows.foldl moveLeftStep a).1.length = a.1.length := by
  induction rows generalizing a with
  | nil => simp
  | cons r rows ih =>
    rw [List.foldl_cons]
    obtain ⟨h1, h2, h3⟩ := ih (moveLeftStep a r)
    rw [h1, h2, h3]
    unfold moveLeftStep
    simp only [List.getD_eq_getElem?_getD, List.getElem?_set, List.length_set]
    by_cases hrk : r = k
    · subst hrk
      by_cases hr : r < a.1.length
      · simp [hr, PlotSet.plotPtr]
      · simp [hr, List.getElem?_eq_none (Nat.le_of_not_lt hr)]
    · simp [hrk]

theorem attachedAt_RemovePlot_AddPlot_self (c : wxPLPlotCtrl) (p : Option Nat) (x y : AxisPos) :
    ((c.RemovePlot p).AddPlot p x y).attachedAt p y := by
  unfold attachedAt
  exact ⟨plot_data.mk p x y, by simp, rfl, rfl⟩

theorem attachedAt_RemovePlot_AddPlot_other (c : wxPLPlotCtrl) (p q : Option Nat)
    (x y pos : AxisPos) (h : c.attachedAt q pos) (hne : q ≠ p) :
    ((c.RemovePlot p).AddPlot p x y).attachedAt q pos := by
  unfold attachedAt at h ⊢
  obtain ⟨e, he, hq, hpos⟩ := h
  refine ⟨e, ?_, hq, hpos⟩
  rw [AddPlot_plots]
  apply List.mem_append_left
  unfold RemovePlot
  simp only
  apply (List.mem_eraseP_of_neg _).mpr he
  simp [hq, hne]

theorem moveLeft_foldl_keeps (rows : List Nat) (a : List PlotSet × wxPLPlotCtrl)
    (q : Option Nat) (h : a.2.attachedAt q AxisPos.Y_LEFT) :
    (rows.foldl moveLeftStep a).2.attachedAt q AxisPos.Y_LEFT := by
  induction rows generalizing a with
  | nil => exact h
  | cons r rows ih =>
    rw [List.foldl_cons]
    apply ih
    unfold moveLeftStep
    simp only
    by_cases hq : q = (a.1.getD r default).plotPtr
    · rw [hq]; exact attachedAt_RemovePlot_AddPlot_self _ _ _ _
    · exact attachedAt_RemovePlot_AddPlot_other _ _ _ _ _ _ h hq

theorem moveLeft_foldl_attached (rows : List Nat) (a : List PlotSet × wxPLPlotCtrl)
    (k : Nat) (hk : k ∈ rows) :
    (rows.foldl moveLeftStep a).2.attachedAt (a.1.getD k default).plotPtr AxisPos.Y_LEFT := by
  induction rows generalizing a with
  | nil => exact absurd hk (List.not_mem_nil _)
  | cons r rows ih =>
    rw [List.foldl_cons]
    by_cases hin : k ∈ rows
    · have := ih (moveLeftStep a r) hin
      have hp := (moveLeft_foldl_plotPtr [r] a k).1
      simp only [List.foldl_cons, List.foldl_nil] at hp
      rw [hp] at this
      exact this
    · have hkr : k = r := by
        rcases List.mem_cons.mp hk with h | h
        · exact h
        · exact absurd h hin
      subst hkr
      apply moveLeft_foldl_keeps
      unfold moveLeftStep
      exact attachedAt_RemovePlot_AddPlot_self _ _ _ _

theorem moveLeft_foldl_axes (rows : List Nat) (a : List PlotSet × wxPLPlotCtrl) :
    (rows.foldl moveLeftStep a).2.GetAxis AxisPos.Y_RIGHT = a.2.GetAxis AxisPos.Y_RIGHT ∧
    (rows ≠ [] → ((rows.foldl moveLeftStep a).2.GetAxis AxisPos.Y_LEFT).isSome = true) ∧
    ((a.2.GetAxis AxisPos.Y_LEFT).isSome = true →
      ((rows.foldl moveLeftStep a).2.GetAxis AxisPos.Y_LEFT).isSome = true) := by
  induction rows generalizing a with
  | nil => simp
  | cons r rows ih =>
    rw [List.foldl_cons]
    obtain ⟨h1, _, h3⟩ := ih (moveLeftStep a r)
    have hstepR : (moveLeftStep a r).2.GetAxis AxisPos.Y_RIGHT = a.2.GetAxis AxisPos.Y_RIGHT := by
      unfold moveLeftStep
      simp [GetAxis_AddPlot]
    have hstepL : ((moveLeftStep a r).2.GetAxis AxisPos.Y_LEFT).isSome = true := by
      unfold moveLeftStep
      simp only [GetAxis_AddPlot, RemovePlot_axis]
      cases a.2.GetAxis AxisPos.Y_LEFT <;> simp
    exact ⟨h1.trans hstepR, fun _ => h3 hstepL, fun _ => h3 hstepL⟩

end wxDVDCCtrl

namespace wxDVDCCtrl

open wxPLPlotCtrl wxDVSelectionListCtrl

theorem y1Units_RemovePlot (c : wxPLPlotCtrl) (p : Option Nat) :
    y1Units (c.RemovePlot p) = y1Units c := rfl

theorem y2Units_RemovePlot (c : wxPLPlotCtrl) (p : Option Nat) :
    y2Units (c.RemovePlot p) = y2Units c := rfl

theorem HidePlotAtIndex_inRange (s : wxDVDCCtrl) (index : Int) (h0 : 0 ≤ index)
    (h1 : index < (s.m_plots.length : Int)) :
    HidePlotAtIndex s index = RefreshDisabledCheckBoxes (hideCore s index.toNat) := by
  unfold HidePlotAtIndex
  have : ¬ (index < 0 ∨ index ≥ (s.m_plots.length : Int)) := by omega
  simp only [this, if_false]

theorem filter_length_zero_of_forall {α : Type} (p : α → Bool) (l : List α)
    (h : ∀ x ∈ l, p x = false) : (l.filter p).length = 0 := by
  rw [List.length_eq_zero, List.filter_eq_nil_iff]
  intro x hx
  simp [h x hx]

theorem filter_length_pos_of_exists {α : Type} (p : α → Bool) (l : List α)
    (h : ∃ x ∈ l, p x = true) : 0 < (l.filter p).length := by
  obtain ⟨x, hx, hp⟩ := h
  exact List.length_pos_of_mem (List.mem_filter.mpr ⟨hx, hp⟩)

/-- The state `HidePlotAtIndex` builds when no selected row has the units read for the left
axis and some selected row has the units read for the right axis. -/
theorem hideCore_move (s : wxDVDCCtrl) (i : Nat)
    (hno1 : ∀ k ∈ s.m_dataSelector.GetSelectionsInCol, s.unitsAt k ≠ y1Units s.m_plotSurface)
    (hsome2 : ∃ k ∈ s.m_dataSelector.GetSelectionsInCol, s.unitsAt k = y2Units s.m_plotSurface) :
    ∃ lbl,
      (hideCore s i).m_plots =
        (s.m_dataSelector.GetSelectionsInCol.foldl moveLeftStep
          (s.m_plots, ((s.m_plotSurface.RemovePlot (s.plotAt i).plotPtr).SetYAxis1 none).SetYAxis2
            none)).1 ∧
      (hideCore s i).m_dataSelector = s.m_dataSelector ∧
      (hideCore s i).m_plotSurface =
        (((s.m_dataSelector.GetSelectionsInCol.foldl moveLeftStep
          (s.m_plots, ((s.m_plotSurface.RemovePlot (s.plotAt i).plotPtr).SetYAxis1 none).SetYAxis2
            none)).2.SetUnits AxisPos.Y_LEFT (y2Units s.m_plotSurface)).SetLabel
              AxisPos.Y_LEFT lbl).SetYAxis2 none := by
  have hn := hideCounts_num s (y1Units s.m_plotSurface) (y2Units s.m_plotSurface)
    s.m_dataSelector.GetSelectionsInCol
  have hz : (hideCounts s (y1Units s.m_plotSurface) (y2Units s.m_plotSurface)
      s.m_dataSelector.GetSelectionsInCol).NumY1AxisSelections = 0 := by
    rw [hn.1]
    apply filter_length_zero_of_forall
    intro k hk
    simpa using hno1 k hk
  have hp : 0 < (hideCounts s (y1Units s.m_plotSurface) (y2Units s.m_plotSurface)
      s.m_dataSelector.GetSelectionsInCol).NumY2AxisSelections := by
    rw [hn.2]
    apply filter_length_pos_of_exists
    obtain ⟨k, hk, hu⟩ := hsome2
    exact ⟨k, hk, by simpa using hu⟩
  have hne : s.m_dataSelector.GetSelectionsInCol ≠ [] := by
    obtain ⟨k, hk, _⟩ := hsome2
    exact List.ne_nil_of_mem hk
  have hleft := (moveLeft_foldl_axes s.m_dataSelector.GetSelectionsInCol
    (s.m_plots, ((s.m_plotSurface.RemovePlot (s.plotAt i).plotPtr).SetYAxis1 none).SetYAxis2
      none)).2.1 hne
  refine ⟨hideLabel
    { s with m_plots := (s.m_dataSelector.GetSelectionsInCol.foldl moveLeftStep
          (s.m_plots, ((s.m_plotSurface.RemovePlot (s.plotAt i).plotPtr).SetYAxis1 none).SetYAxis2
            none)).1 }
    (hideCounts s (y1Units s.m_plotSurface) (y2Units s.m_plotSurface)
      s.m_dataSelector.GetSelectionsInCol).NumY2AxisSelections
    (hideCounts s (y1Units s.m_plotSurface) (y2Units s.m_plotSurface)
      s.m_dataSelector.GetSelectionsInCol).FirstY2AxisSelectionIndex
    (y2Units s.m_plotSurface), ?_, ?_, ?_⟩
  · unfold hideCore
    simp only [y1Units_RemovePlot, y2Units_RemovePlot, hz, hp, gt_iff_lt, lt_self_iff_false,
      if_false, if_true]
  · unfold hideCore
    simp only [y1Units_RemovePlot, y2Units_RemovePlot, hz, hp, gt_iff_lt, lt_self_iff_false,
      if_false, if_true]
  · unfold hideCore
    simp only [y1Units_RemovePlot, y2Units_RemovePlot, hz, hp, gt_iff_lt, lt_self_iff_false,
      if_false, if_true, hleft]

end wxDVDCCtrl

namespace wxDVDCCtrl

open wxPLPlotCtrl wxDVSelectionListCtrl

theorem GetAxis_SetYAxis1 (c : wxPLPlotCtrl) (a : Option wxPLAxis) (pos : AxisPos) :
    (c.SetYAxis1 a).GetAxis pos = if pos = AxisPos.Y_LEFT then a else c.GetAxis pos :=
  GetAxis_SetAxis c a AxisPos.Y_LEFT pos

theorem GetAxis_SetYAxis2 (c : wxPLPlotCtrl) (a : Option wxPLAxis) (pos : AxisPos) :
    (c.SetYAxis2 a).GetAxis pos = if pos = AxisPos.Y_RIGHT then a else c.GetAxis pos :=
  GetAxis_SetAxis c a AxisPos.Y_RIGHT pos

theorem hideCore_none (s : wxDVDCCtrl) (i : Nat)
    (hno : ∀ k ∈ s.m_dataSelector.GetSelectionsInCol,
      s.unitsAt k ≠ y1Units s.m_plotSurface ∧ s.unitsAt k ≠ y2Units s.m_plotSurface) :
    (hideCore s i).m_plotSurface =
      ((s.m_plotSurface.RemovePlot (s.plotAt i).plotPtr).SetYAxis1 none).SetYAxis2 none := by
  have hn := hideCounts_num s (y1Units s.m_plotSurface) (y2Units s.m_plotSurface)
    s.m_dataSelector.GetSelectionsInCol
  have hz1 : (hideCounts s (y1Units s.m_plotSurface) (y2Units s.m_plotSurface)
      s.m_dataSelector.GetSelectionsInCol).NumY1AxisSelections = 0 := by
    rw [hn.1]
    apply filter_length_zero_of_forall
    intro k hk
    simpa using (hno k hk).1
  have hz2 : (hideCounts s (y1Units s.m_plotSurface) (y2Units s.m_plotSurface)
      s.m_dataSelector.GetSelectionsInCol).NumY2AxisSelections = 0 := by
    rw [hn.2]
    apply filter_length_zero_of_forall
    intro k hk
    simpa using (hno k hk).2
  unfold hideCore
  simp only [y1Units_RemovePlot, y2Units_RemovePlot, hz1, hz2, gt_iff_lt, lt_self_iff_false,
    if_false]

/-- C9: for an index in range, when `HidePlotAtIndex` runs in a state where no selected row
has the units read for the left axis (`NO_UNITS` when there is no left axis) and some
selected row has the units `u2` of the right axis, the right axis is moved to the left:
afterwards the plot of every selected row is attached to the surface on the left Y axis,
the left axis has units `u2`, and there is no right axis.  When no selected row has the
units read for either axis, both Y axes are removed. -/
theorem hidePlotAtIndex_moves_right_axis_left (s : wxDVDCCtrl) (index : Int) (h0 : 0 ≤ index)
    (h1 : index < (s.m_plots.length : Int)) :
    (∀ a2, s.m_plotSurface.GetYAxis2 = some a2 →
      (∀ k ∈ s.m_dataSelector.GetSelectionsInCol, s.unitsAt k ≠ y1Units s.m_plotSurface) →
      (∃ k ∈ s.m_dataSelector.GetSelectionsInCol, s.unitsAt k = a2.units) →
      (∀ k ∈ (HidePlotAtIndex s index).m_dataSelector.GetSelectionsInCol,
        (HidePlotAtIndex s index).m_plotSurface.attachedAt
          ((HidePlotAtIndex s index).plotAt k).plotPtr AxisPos.Y_LEFT) ∧
      (∃ a, (HidePlotAtIndex s index).m_plotSurface.GetYAxis1 = some a ∧ a.units = a2.units) ∧
      (HidePlotAtIndex s index).m_plotSurface.GetYAxis2 = none) ∧
    ((∀ k ∈ s.m_dataSelector.GetSelectionsInCol,
        s.unitsAt k ≠ y1Units s.m_plotSurface ∧ s.unitsAt k ≠ y2Units s.m_plotSurface) →
      (HidePlotAtIndex s index).m_plotSurface.GetYAxis1 = none ∧
      (HidePlotAtIndex s index).m_plotSurface.GetYAxis2 = none) := by
  rw [HidePlotAtIndex_inRange s index h0 h1]
  constructor
  · intro a2 ha2 hno1 hsome2
    have hy2 : y2Units s.m_plotSurface = a2.units := by
      unfold y2Units; rw [ha2]
    obtain ⟨lbl, hplots, hsel, hsurf⟩ := hideCore_move s index.toNat hno1 (by rw [hy2]; exact hsome2)
    have hne : s.m_dataSelector.GetSelectionsInCol ≠ [] := by
      obtain ⟨k, hk, _⟩ := hsome2
      exact List.ne_nil_of_mem hk
    have haxes := moveLeft_foldl_axes s.m_dataSelector.GetSelectionsInCol
      (s.m_plots, ((s.m_plotSurface.RemovePlot (s.plotAt index.toNat).plotPtr).SetYAxis1
        none).SetYAxis2 none)
    refine ⟨?_, ?_, ?_⟩
    · intro k hk
      rw [GetSelectionsInCol_congr (RefreshDisabledCheckBoxes_values _), hsel] at hk
      rw [RefreshDisabledCheckBoxes_plotAt, RefreshDisabledCheckBoxes_surface, hsurf]
      have hptr : ((hideCore s index.toNat).plotAt k).plotPtr = (s.m_plots.getD k default).plotPtr := by
        unfold plotAt
        rw [hplots]
        exact (moveLeft_foldl_plotPtr _ _ k).1
      rw [hptr]
      have hatt := moveLeft_foldl_attached s.m_dataSelector.GetSelectionsInCol
        (s.m_plots, ((s.m_plotSurface.RemovePlot (s.plotAt index.toNat).plotPtr).SetYAxis1
          none).SetYAxis2 none) k hk
      unfold attachedAt at hatt ⊢
      simpa using hatt
    · rw [RefreshDisabledCheckBoxes_surface, hsurf, hy2]
      have hl := haxes.2.1 hne
      show ∃ a, GetAxis _ AxisPos.Y_LEFT = some a ∧ a.units = a2.units
      simp only [GetAxis_SetYAxis2, GetAxis_SetLabel, GetAxis_SetUnits]
      cases hax : (s.m_dataSelector.GetSelectionsInCol.foldl moveLeftStep
        (s.m_plots, ((s.m_plotSurface.RemovePlot (s.plotAt index.toNat).plotPtr).SetYAxis1
          none).SetYAxis2 none)).2.GetAxis AxisPos.Y_LEFT with
      | none => rw [hax] at hl; simp at hl
      | some ax => simp
    · rw [RefreshDisabledCheckBoxes_surface, hsurf]
      show GetAxis _ AxisPos.Y_RIGHT = none
      simp [GetAxis_SetYAxis2]
  · intro hno
    rw [RefreshDisabledCheckBoxes_surface, hideCore_none s index.toNat hno]
    constructor
    · show GetAxis _ AxisPos.Y_LEFT = none
      simp [GetAxis_SetYAxis2, GetAxis_SetYAxis1]
    · show GetAxis _ AxisPos.Y_RIGHT = none
      simp [GetAxis_SetYAxis2]

end wxDVDCCtrl

namespace wxDVDCCtrl

open wxPLPlotCtrl wxDVSelectionListCtrl

/-- C9 at the sample control with a left axis in kW and a right axis in V, after row 0 (kW)
was cleared: hiding plot 0 moves the V axis to the left. -/
theorem hidePlotAtIndex_moves_right_axis_left_witness :
    (0 : Int) ≤ 0 ∧ (0 : Int) < (sample3cleared.m_plots.length : Int) ∧
    (∀ k ∈ (HidePlotAtIndex sample3cleared 0).m_dataSelector.GetSelectionsInCol,
        (HidePlotAtIndex sample3cleared 0).m_plotSurface.attachedAt
          ((HidePlotAtIndex sample3cleared 0).plotAt k).plotPtr AxisPos.Y_LEFT) ∧
    (∃ a, (HidePlotAtIndex sample3cleared 0).m_plotSurface.GetYAxis1 = some a ∧ a.units = "V") ∧
    (HidePlotAtIndex sample3cleared 0).m_plotSurface.GetYAxis2 = none :=
  ⟨by decide, by decide,
    (hidePlotAtIndex_moves_right_axis_left sample3cleared 0 (by decide) (by decide)).1
      ⟨"V", "Voltage"⟩ (by decide) (by decide) (by decide)⟩

end wxDVDCCtrl

/-! ## Lemmas on decimal output, `wxAtoi` and the tokenizer -/

theorem digitChar_spec : ∀ d, d < 10 →
    (Char.ofNat (48 + d)).isDigit = true ∧ (Char.ofNat (48 + d)).toNat - 48 = d ∧
    Char.ofNat (48 + d) ≠ ',' ∧ isspace (Char.ofNat (48 + d)) = false ∧
    Char.ofNat (48 + d) ≠ '-' ∧ Char.ofNat (48 + d) ≠ '+' := by
  decide

theorem decimalFuel_digits (fuel n : Nat) :
    ∀ c ∈ decimalFuel fuel n, c.isDigit = true ∧ c ≠ ',' ∧ isspace c = false ∧ c ≠ '-' ∧ c ≠ '+' := by
  induction fuel generalizing n with
  | zero => intro c hc; simp [decimalFuel] at hc
  | succ fuel ih =>
    intro c hc
    unfold decimalFuel at hc
    split at hc
    · rename_i hlt
      rw [List.mem_singleton] at hc
      subst hc
      obtain ⟨h1, _, h3, h4, h5, h6⟩ := digitChar_spec n hlt
      exact ⟨h1, h3, h4, h5, h6⟩
    · rcases List.mem_append.mp hc with h | h
      · exact ih _ c h
      · rw [List.mem_singleton] at h
        subst h
        obtain ⟨h1, _, h3, h4, h5, h6⟩ := digitChar_spec (n % 10) (Nat.mod_lt _ (by decide))
        exact ⟨h1, h3, h4, h5, h6⟩

theorem decimalFuel_ne_nil (fuel n : Nat) : decimalFuel (fuel + 1) n ≠ [] := by
  unfold decimalFuel
  split <;> simp

theorem atoiDigits_eq_foldl (cs : List Char) (acc : Nat) (h : ∀ c ∈ cs, c.isDigit = true) :
    atoiDigits acc cs = cs.foldl (fun a c => a * 10 + (c.toNat - 48)) acc := by
  induction cs generalizing acc with
  | nil => rfl
  | cons c cs ih =>
    have hc : c.isDigit = true := h c (List.mem_cons_self _ _)
    simp only [atoiDigits, hc, if_true, List.foldl_cons]
    exact ih _ (fun x hx => h x (List.mem_cons_of_mem _ hx))

theorem decimalFuel_value (fuel n : Nat) (h : n < fuel) :
    (decimalFuel fuel n).foldl (fun a c => a * 10 + (c.toNat - 48)) 0 = n := by
  induction fuel generalizing n with
  | zero => omega
  | succ fuel ih =>
    unfold decimalFuel
    split
    · rename_i hlt
      simp [(digitChar_spec n hlt).2.1]
    · rename_i hge
      rw [List.foldl_append, ih (n / 10) (by omega)]
      simp [(digitChar_spec (n % 10) (Nat.mod_lt _ (by decide))).2.1]
      omega

theorem atoiDigits_decimal (n : Nat) : atoiDigits 0 (decimal n) = n := by
  unfold decimal
  rw [atoiDigits_eq_foldl _ _ (fun c hc => (decimalFuel_digits _ _ c hc).1)]
  exact decimalFuel_value _ _ (by omega)

theorem wxAtoi_of_digit_head (c : Char) (cs : List Char) (hs : isspace c = false)
    (hm : c ≠ '-') (hp : c ≠ '+') :
    wxAtoi (String.mk (c :: cs)) =
      toInt32 (min (atoiDigits 0 (c :: cs) : Int) 9223372036854775807) := by
  unfold wxAtoi strtol
  congr 1
  simp only [List.dropWhile_cons, hs]
  split
  · rename_i heq
    simp at heq
    exact absurd heq.1 hm
  · rename_i heq
    simp at heq
    exact absurd heq.1 hp
  · rfl

theorem wxAtoi_decimal (n : Nat) (hn : n < 2147483648) :
    wxAtoi (String.mk (decimal n)) = (n : Int) := by
  have hne : decimal n ≠ [] := decimalFuel_ne_nil n n
  cases hd : decimal n with
  | nil => exact absurd hd hne
  | cons c cs =>
    have hc := decimalFuel_digits (n + 1) n c (by
      have : c ∈ decimal n := by rw [hd]; exact List.mem_cons_self _ _
      exact this)
    rw [wxAtoi_of_digit_head c cs hc.2.2.1 hc.2.2.2.1 hc.2.2.2.2, ← hd, atoiDigits_decimal]
    unfold toInt32
    omega

theorem tokAux_run (delim : Char) (ds rest cur : List Char) (h : ∀ c ∈ ds, c ≠ delim) :
    tokAux delim cur (ds ++ delim :: rest) =
      (cur.reverse ++ ds) ::
        (if rest.any (fun x => decide (x ≠ delim)) then tokAux delim [] rest else []) := by
  induction ds generalizing cur with
  | nil => simp [tokAux]
  | cons d ds ih =>
    have hd : d ≠ delim := h d (List.mem_cons_self _ _)
    rw [List.cons_append, tokAux]
    simp only [hd, if_false]
    rw [ih _ (fun c hc => h c (List.mem_cons_of_mem _ hc))]
    simp

/-- The characters `WriteState` writes for a list of selected indices. -/
theorem tokAux_encoded (ks : List Nat) (hne : ks ≠ []) :
    tokAux ',' [] (ks.flatMap (fun k => decimal k ++ [','])) = ks.map decimal := by
  induction ks with
  | nil => exact absurd rfl hne
  | cons k ks ih =>
    rw [List.flatMap_cons, List.append_assoc, List.singleton_append,
      tokAux_run ',' (decimal k) _ [] (fun c hc => (decimalFuel_digits _ _ c hc).2.1)]
    simp only [List.reverse_nil, List.nil_append, List.map_cons]
    congr 1
    cases ks with
    | nil => simp
    | cons k2 ks2 =>
      have hany : ((k2 :: ks2).flatMap (fun k => decimal k ++ [','])).any
          (fun x => decide (x ≠ ',')) = true := by
        rw [List.any_eq_true]
        have hne2 : decimal k2 ≠ [] := decimalFuel_ne_nil k2 k2
        cases hd : decimal k2 with
        | nil => exact absurd hd hne2
        | cons c cs =>
          have hc : c ∈ decimal k2 := by rw [hd]; exact List.mem_cons_self _ _
          refine ⟨c, ?_, by simpa using (decimalFuel_digits _ _ c hc).2.1⟩
          rw [List.flatMap_cons, hd]
          simp
      rw [hany]
      simp only [if_true]
      exact ih (List.cons_ne_nil _ _)

theorem foldl_append_data (ks : List Nat) (acc : String) :
    (ks.foldl (fun ss k => ss ++ String.mk (decimal k) ++ ",") acc).data =
      acc.data ++ ks.flatMap (fun k => decimal k ++ [',']) := by
  induction ks generalizing acc with
  | nil => simp
  | cons k ks ih =>
    rw [List.foldl_cons, ih]
    simp [String.data_append, List.flatMap_cons]

/-! ## C7: the stored string as a comma-separated list of indices -/

theorem atoiDigits_takeWhile (cs : List Char) (acc : Nat) :
    atoiDigits acc cs =
      acc * 10 ^ (cs.takeWhile Char.isDigit).length + decimalValue (cs.takeWhile Char.isDigit) := by
  induction cs generalizing acc with
  | nil => simp [atoiDigits, decimalValue]
  | cons c cs ih =>
    unfold atoiDigits
    by_cases hc : c.isDigit = true
    · simp only [hc, if_true, List.takeWhile_cons, List.length_cons]
      rw [ih]
      unfold decimalValue
      simp only [List.reverse_cons, List.map_append, List.map_cons, List.map_nil,
        Nat.ofDigits_append, List.length_map, List.length_reverse, Nat.ofDigits_singleton]
      ring
    · simp [hc, decimalValue]

theorem strtol_eq (tok : String) :
    strtol tok = max (-9223372036854775808) (min 9223372036854775807 (leadingNumber tok)) := by
  unfold strtol leadingNumber
  cases h : tok.data.dropWhile isspace with
  | nil => simp [atoiDigits, decimalValue]
  | cons c cs =>
    by_cases hm : c = '-'
    · subst hm
      simp only [List.head?_cons, true_or, if_true, List.tail_cons]
      rw [atoiDigits_takeWhile]
      simp only [Nat.zero_mul, Nat.zero_add]
      omega
    · by_cases hp : c = '+'
      · subst hp
        have : ¬ (some '+' = some '-') := by decide
        simp only [List.head?_cons, this, or_true, if_true, List.tail_cons, if_false]
        rw [atoiDigits_takeWhile]
        simp only [Nat.zero_mul, Nat.zero_add]
        omega
      · have h1 : ¬ (some c = some '-') := by simpa using hm
        have h2 : ¬ (some c = some '+') := by simpa using hp
        simp only [List.head?_cons, h1, h2, or_self, if_false]
        have : (match (c :: cs : List Char) with
            | '-' :: cs => max (-(atoiDigits 0 cs : Int)) (-9223372036854775808)
            | '+' :: cs => min (atoiDigits 0 cs : Int) 9223372036854775807
            | cs => min (atoiDigits 0 cs : Int) 9223372036854775807) =
            min (atoiDigits 0 (c :: cs) : Int) 9223372036854775807 := by
          split
          · rename_i heq
            simp at heq
            exact absurd heq.1 hm
          · rename_i heq
            simp at heq
            exact absurd heq.1 hp
          · rfl
        rw [this, atoiDigits_takeWhile]
        simp only [Nat.zero_mul, Nat.zero_add]
        omega

theorem toInt32_eq_iff (v k : Int) :
    toInt32 v = k ↔ (-2147483648 ≤ k ∧ k < 2147483648 ∧ (k - v) % 4294967296 = 0) := by
  unfold toInt32
  omega

/-- The model of `wxAtoi` returns the integer value the specification side describes. -/
theorem wxAtoi_eq_iff (tok : String) (k : Int) : wxAtoi tok = k ↔ IsIntValue tok k := by
  unfold wxAtoi IsIntValue
  rw [toInt32_eq_iff, strtol_eq]

/-- The pieces of a list of pieces up to the last one that is not empty. -/
theorem dropTrailing_cons (x : List Char) (l : List (List Char)) :
    ((x :: l).reverse.dropWhile (fun piece => piece.isEmpty)).reverse =
      if (l.reverse.dropWhile (fun piece => piece.isEmpty)).reverse = [] then
        (if x.isEmpty then [] else [x])
      else x :: (l.reverse.dropWhile (fun piece => piece.isEmpty)).reverse := by
  rw [List.reverse_cons, List.dropWhile_append]
  by_cases h : l.reverse.dropWhile (fun piece => piece.isEmpty) = []
  · simp only [h, List.isEmpty_nil, if_true, List.reverse_nil]
    by_cases hx : x.isEmpty = true
    · simp [hx]
    · simp [hx]
  · have h2 : (l.reverse.dropWhile (fun piece => piece.isEmpty)).isEmpty = false := by
      cases hl : l.reverse.dropWhile (fun piece => piece.isEmpty) with
      | nil => exact absurd hl h
      | cons _ _ => rfl
    have h3 : (l.reverse.dropWhile (fun piece => piece.isEmpty)).reverse ≠ [] := by
      simpa using h
    simp [h2, h3]

theorem splitOn_comma_cons (c : Char) (cs : List Char) :
    (c :: cs).splitOn ',' =
      if c = ',' then [] :: cs.splitOn ',' else (cs.splitOn ',').modifyHead (List.cons c) := by
  unfold List.splitOn
  rw [List.splitOnP_cons]
  by_cases h : c = ','
  · simp [h]
  · simp [h]

theorem dropTrailing_splitOn_eq_nil (cs : List Char) :
    ((cs.splitOn ',').reverse.dropWhile (fun piece => piece.isEmpty)).reverse = [] ↔
      cs.any (fun x => decide (x ≠ ',')) = false := by
  induction cs with
  | nil => decide
  | cons c cs ih =>
    rw [splitOn_comma_cons]
    by_cases h : c = ','
    · simp only [h, if_true, dropTrailing_cons]
      rw [List.any_cons]
      simp only [ne_eq, not_true_eq_false, decide_False, Bool.false_or]
      rw [← ih]
      constructor
      · intro hh
        by_contra hne
        rw [if_neg hne] at hh
        exact List.cons_ne_nil _ _ hh
      · intro hh
        rw [if_pos hh]
        rfl
    · simp only [h, if_false]
      rw [List.any_cons]
      have hd : decide (c ≠ ',') = true := by simpa using h
      simp only [hd, Bool.true_or]
      constructor
      · intro hh
        exfalso
        cases hs : cs.splitOn ',' with
        | nil => exact List.splitOnP_ne_nil _ _ hs
        | cons p ps =>
          rw [hs] at hh
          simp only [List.modifyHead_cons, dropTrailing_cons] at hh
          split at hh
          · simp at hh
          · exact List.cons_ne_nil _ _ hh
      · intro hh
        exact Bool.noConfusion hh

theorem tokAux_eq_split (cs cur : List Char) (hcur : ∀ c ∈ cur, c ≠ ',')
    (h : cur ≠ [] ∨ cs.any (fun x => decide (x ≠ ',')) = true) :
    tokAux ',' cur cs =
      ((((cs.splitOn ',').modifyHead (fun piece => cur.reverse ++ piece)).reverse.dropWhile
        (fun piece => piece.isEmpty)).reverse) := by
  induction cs generalizing cur with
  | nil =>
    have hne : cur ≠ [] := by
      rcases h with h | h
      · exact h
      · exact Bool.noConfusion h
    have : cur.reverse.isEmpty = false := by
      cases hr : cur.reverse with
      | nil => exact absurd (List.reverse_eq_nil_iff.mp hr) hne
      | cons _ _ => rfl
    simp [tokAux, List.splitOn, this]
  | cons c cs ih =>
    rw [splitOn_comma_cons]
    unfold tokAux
    by_cases hc : c = ','
    · simp only [hc, if_true, List.modifyHead_cons, List.append_nil, dropTrailing_cons]
      by_cases hany : cs.any (fun x => decide (x ≠ ',')) = true
      · have hnn : ¬ ((cs.splitOn ',').reverse.dropWhile (fun piece => piece.isEmpty)).reverse = [] := by
          rw [dropTrailing_splitOn_eq_nil, hany]
          exact Bool.noConfusion
        rw [if_pos hany, if_neg hnn, ih [] (fun c hc => absurd hc (List.not_mem_nil _)) (Or.inr hany)]
        congr 1
        cases hs : cs.splitOn ',' with
        | nil => rfl
        | cons p ps => simp
      · have hany2 : cs.any (fun x => decide (x ≠ ',')) = false := by
          simpa using hany
        have hnil := (dropTrailing_splitOn_eq_nil cs).mpr hany2
        rw [if_neg hany, if_pos hnil]
        have hne : cur ≠ [] := by
          rcases h with h | h
          · exact h
          · rw [hc, List.any_cons, hany2] at h
            simp at h
        have : cur.reverse.isEmpty = false := by
          cases hr : cur.reverse with
          | nil => exact absurd (List.reverse_eq_nil_iff.mp hr) hne
          | cons _ _ => rfl
        simp [this]
    · simp only [hc, if_false]
      rw [ih (c :: cur) (by
        intro x hx
        rcases List.mem_cons.mp hx with hx | hx
        · rw [hx]; exact hc
        · exact hcur x hx) (Or.inl (List.cons_ne_nil _ _))]
      congr 3
      cases hs : cs.splitOn ',' with
      | nil => rfl
      | cons p ps => simp

/-- The tokens the model of `wxStringTokenizer` yields are the comma-separated tokens of
the specification side, but for a string of commas only, where it yields one empty
token. -/
theorem wxStringTokenizer_eq (s : String) :
    wxStringTokenizer s ',' =
      if s.data ≠ [] ∧ s.data.any (fun x => decide (x ≠ ',')) = false then [""]
      else commaTokens s := by
  unfold wxStringTokenizer commaTokens
  cases hd : s.data with
  | nil => decide
  | cons c cs =>
    simp only [List.cons_ne_nil, if_false, ne_eq, not_false_eq_true, true_and]
    by_cases hany : (c :: cs).any (fun x => decide (x ≠ ',')) = true
    · have hf : ¬ ((c :: cs).any (fun x => decide (x ≠ ',')) = false) := by
        rw [hany]; exact Bool.noConfusion
      rw [if_neg hf, tokAux_eq_split (c :: cs) [] (fun c hc => absurd hc (List.not_mem_nil _))
        (Or.inr hany)]
      congr 3
      cases hs : (c :: cs).splitOn ',' with
      | nil => rfl
      | cons p ps => simp
    · have hf : (c :: cs).any (fun x => decide (x ≠ ',')) = false := by simpa using hany
      rw [if_pos hf]
      rw [List.any_cons] at hf
      have hc : c = ',' := by
        by_contra hne
        have : decide (c ≠ ',') = true := by simpa using hne
        rw [this] at hf
        simp at hf
      have hcs : cs.any (fun x => decide (x ≠ ',')) = false := by
        rw [hc] at hf
        simpa using hf
      unfold tokAux
      simp only [hc, if_true, hcs, Bool.false_eq_true, if_false]
      rfl

namespace wxDVDCCtrl

theorem selectionsString_data (s : wxDVDCCtrl) :
    (selectionsString s).data =
      s.m_dataSelector.GetSelectionsInCol.flatMap (fun k => decimal k ++ [',']) := by
  unfold selectionsString
  rw [foldl_append_data]
  rfl

theorem tokens_selectionsString (s : wxDVDCCtrl) :
    wxStringTokenizer (selectionsString s) ',' =
      s.m_dataSelector.GetSelectionsInCol.map (fun k => String.mk (decimal k)) := by
  unfold wxStringTokenizer
  rw [selectionsString_data]
  cases h : s.m_dataSelector.GetSelectionsInCol with
  | nil => simp
  | cons k ks =>
    have hne : (k :: ks).flatMap (fun k => decimal k ++ [',']) ≠ [] := by
      rw [List.flatMap_cons]
      simp
    simp only [hne, if_false]
    rw [tokAux_encoded (k :: ks) (List.cons_ne_nil _ _)]
    simp

end wxDVDCCtrl

namespace wxDVSelectionListCtrl

theorem SelectRowInCol_values (l : wxDVSelectionListCtrl) (i : Nat) (b : Bool) :
    (l.SelectRowInCol i b).values = l.values.set i b := by
  unfold SelectRowInCol values
  cases h : l.m_itemList[i]? with
  | none =>
    have hge : l.m_itemList.length ≤ i := by
      by_contra hlt
      rw [List.getElem?_eq_getElem (by omega)] at h
      exact Option.noConfusion h
    simp only
    rw [List.set_eq_of_length_le (by simpa using hge)]
  | some r =>
    simp only [List.map_set]

theorem SelectRowInCol_labels (l : wxDVSelectionListCtrl) (i : Nat) (b : Bool) :
    (l.SelectRowInCol i b).labels = l.labels := by
  unfold SelectRowInCol labels
  cases h : l.m_itemList[i]? with
  | none => rfl
  | some r =>
    simp only [List.map_set]
    apply List.ext_getElem?
    intro j
    rw [List.getElem?_set]
    by_cases hij : i = j
    · subst hij
      simp only [if_true, List.length_map, List.getElem?_map, h]
      have hlt : i < l.m_itemList.length := by
        by_contra hge
        rw [List.getElem?_eq_none (by omega)] at h
        exact Option.noConfusion h
      simp [hlt]
    · simp [hij]

theorem IsSelected_SelectRowInCol (l : wxDVSelectionListCtrl) (i k : Nat) (b : Bool) :
    (l.SelectRowInCol i b).IsSelected k =
      if k = i ∧ i < l.Length then b else l.IsSelected k := by
  rw [IsSelected_eq_values, IsSelected_eq_values, SelectRowInCol_values,
    List.getD_eq_getElem?_getD, List.getElem?_set, values_length]
  by_cases hik : i = k
  · subst hik
    by_cases hi : i < l.Length
    · simp [hi]
    · have hnone : l.values[i]? = none :=
        List.getElem?_eq_none (by rw [values_length]; omega)
      simp [hi, List.getD_eq_getElem?_getD, hnone]
  · have : ¬ k = i := fun e => hik e.symm
    simp [hik, this, List.getD_eq_getElem?_getD]

theorem names_foldl_length (rows : List row_item) (acc : String) :
    (rows.foldl (fun acc r => acc ++ r.label ++ ";") acc).length ≥ acc.length + rows.length := by
  induction rows generalizing acc with
  | nil => simp
  | cons r rows ih =>
    rw [List.foldl_cons]
    have := ih (acc ++ r.label ++ ";")
    have hlen : (acc ++ r.label ++ ";").length = acc.length + r.label.length + 1 := by
      simp [String.length_append]
      rfl
    simp only [List.length_cons]
    omega

theorem GetSelectedNamesInCol_length_eq_zero (l : wxDVSelectionListCtrl) :
    l.GetSelectedNamesInCol.length = 0 ↔ ∀ k, l.IsSelected k = false := by
  unfold GetSelectedNamesInCol
  constructor
  · intro h k
    have hge := names_foldl_length (l.m_itemList.filter (fun r => r.value)) ""
    have hnil : l.m_itemList.filter (fun r => r.value) = [] := by
      apply List.eq_nil_of_length_eq_zero
      omega
    rw [List.filter_eq_nil_iff] at hnil
    unfold IsSelected
    cases hk : l.m_itemList[k]? with
    | none => rfl
    | some r =>
      have hmem : r ∈ l.m_itemList := List.getElem?_mem hk
      simpa using hnil r hmem
  · intro h
    have hnil : l.m_itemList.filter (fun r => r.value) = [] := by
      rw [List.filter_eq_nil_iff]
      intro r hr
      obtain ⟨k, hk, hget⟩ := List.getElem_of_mem hr
      have := h k
      unfold IsSelected at this
      rw [List.getElem?_eq_getElem hk, hget] at this
      simpa using this
    rw [hnil]
    rfl

end wxDVSelectionListCtrl

namespace wxDVDCCtrl

open wxPLPlotCtrl wxDVSelectionListCtrl

theorem showCore_length (s : wxDVDCCtrl) (i : Nat) :
    (showCore s i).m_plots.length = s.m_plots.length := by
  rw [showCore_plots, List.length_set]

theorem ShowPlotAtIndex_values (s : wxDVDCCtrl) (index : Int) :
    (ShowPlotAtIndex s index).m_dataSelector.values = s.m_dataSelector.values := by
  unfold ShowPlotAtIndex
  split
  · rw [RefreshDisabledCheckBoxes_values, showCore_selector]
  · rfl

theorem ShowPlotAtIndex_length (s : wxDVDCCtrl) (index : Int) :
    (ShowPlotAtIndex s index).m_plots.length = s.m_plots.length := by
  unfold ShowPlotAtIndex
  split
  · rw [RefreshDisabledCheckBoxes_plots, showCore_length]
  · rfl

theorem SelectDataSetAtIndex_length (s : wxDVDCCtrl) (index : Int) :
    (SelectDataSetAtIndex s index).m_plots.length = s.m_plots.length := by
  unfold SelectDataSetAtIndex
  split
  · rfl
  · rw [ShowPlotAtIndex_length]

theorem SelectDataSetAtIndex_values (s : wxDVDCCtrl) (index : Int) :
    (SelectDataSetAtIndex s index).m_dataSelector.values =
      if 0 ≤ index ∧ index < (s.m_plots.length : Int) then
        s.m_dataSelector.values.set index.toNat true
      else s.m_dataSelector.values := by
  unfold SelectDataSetAtIndex
  by_cases h : index < 0 ∨ index ≥ (s.m_plots.length : Int)
  · have h2 : ¬ (0 ≤ index ∧ index < (s.m_plots.length : Int)) := by omega
    simp [h, h2]
  · have h2 : 0 ≤ index ∧ index < (s.m_plots.length : Int) := by omega
    simp only [h, h2, if_false, and_self, if_true]
    rw [ShowPlotAtIndex_values, SelectRowInCol_values]

theorem SelectDataSetAtIndex_Length (s : wxDVDCCtrl) (index : Int) :
    (SelectDataSetAtIndex s index).m_dataSelector.Length = s.m_dataSelector.Length := by
  rw [← values_length, ← values_length, SelectDataSetAtIndex_values]
  split <;> simp

theorem IsSelected_SelectDataSetAtIndex (s : wxDVDCCtrl) (index : Int) (k : Nat) :
    (SelectDataSetAtIndex s index).m_dataSelector.IsSelected k = true ↔
      s.m_dataSelector.IsSelected k = true ∨
        ((k : Int) = index ∧ k < s.m_plots.length ∧ k < s.m_dataSelector.Length) := by
  rw [IsSelected_eq_values, IsSelected_eq_values, SelectDataSetAtIndex_values]
  by_cases h : 0 ≤ index ∧ index < (s.m_plots.length : Int)
  · simp only [h, and_self, if_true, List.getD_eq_getElem?_getD, List.getElem?_set,
      values_length]
    by_cases hk : index.toNat = k
    · subst hk
      by_cases hl : index.toNat < s.m_dataSelector.Length
      · simp [hl]; omega
      · have hnone : s.m_dataSelector.values[index.toNat]? = none :=
          List.getElem?_eq_none (by rw [values_length]; omega)
        simp [hl, hnone]
    · have : ¬ (k : Int) = index := by omega
      simp [hk, this]
  · simp only [h, if_false]
    constructor
    · exact Or.inl
    · rintro (h1 | ⟨h1, h2, _⟩)
      · exact h1
      · exfalso; apply h; omega

end wxDVDCCtrl

namespace wxDVDCCtrl

open wxPLPlotCtrl wxDVSelectionListCtrl

theorem selectFold_spec (toks : List String) (s : wxDVDCCtrl) :
    (toks.foldl (fun acc tok => SelectDataSetAtIndex acc (wxAtoi tok)) s).m_plots.length
        = s.m_plots.length ∧
    (toks.foldl (fun acc tok => SelectDataSetAtIndex acc (wxAtoi tok)) s).m_dataSelector.Length
        = s.m_dataSelector.Length ∧
    ∀ k, (toks.foldl (fun acc tok => SelectDataSetAtIndex acc (wxAtoi tok)) s).m_dataSelector.IsSelected k
        = true ↔
      (s.m_dataSelector.IsSelected k = true ∨
        (k < s.m_plots.length ∧ k < s.m_dataSelector.Length ∧
          ∃ t ∈ toks, wxAtoi t = (k : Int))) := by
  induction toks generalizing s with
  | nil => simp
  | cons t toks ih =>
    rw [List.foldl_cons]
    obtain ⟨h1, h2, h3⟩ := ih (SelectDataSetAtIndex s (wxAtoi t))
    refine ⟨h1.trans (SelectDataSetAtIndex_length _ _), h2.trans (SelectDataSetAtIndex_Length _ _), ?_⟩
    intro k
    rw [h3, IsSelected_SelectDataSetAtIndex, SelectDataSetAtIndex_length,
      SelectDataSetAtIndex_Length]
    constructor
    · rintro ((h | ⟨ha, hb, hc⟩) | ⟨hb, hc, t2, ht2, hv⟩)
      · exact Or.inl h
      · exact Or.inr ⟨hb, hc, t, List.mem_cons_self _ _, ha.symm⟩
      · exact Or.inr ⟨hb, hc, t2, List.mem_cons_of_mem _ ht2, hv⟩
    · rintro (h | ⟨hb, hc, t2, ht2, hv⟩)
      · exact Or.inl (Or.inl h)
      · rcases List.mem_cons.mp ht2 with heq | hmem
        · subst heq
          exact Or.inl (Or.inr ⟨hv.symm, hb, hc⟩)
        · exact Or.inr ⟨hb, hc, t2, hmem, hv⟩

/-- The rows `ReadState` selects on a control without selected row. -/
theorem readState_spec (s : wxDVDCCtrl) (cfg : wxConfig) (filename str : String)
    (hcfg : cfg (selectionsKey filename) = some str)
    (hwf : s.m_dataSelector.Length = s.m_plots.length)
    (hnone : ∀ k, s.m_dataSelector.IsSelected k = false) (k : Nat) :
    (ReadState s cfg filename).m_dataSelector.IsSelected k = true ↔
      ((k < s.m_plots.length ∧ ∃ t ∈ wxStringTokenizer str ',', wxAtoi t = (k : Int)) ∨
        (k = 0 ∧ 0 < s.m_plots.length ∧
          ¬ ∃ j, j < s.m_plots.length ∧ ∃ t ∈ wxStringTokenizer str ',', wxAtoi t = (j : Int))) := by
  unfold ReadState
  simp only [hcfg, Option.getD_some]
  obtain ⟨h1, h2, h3⟩ := selectFold_spec (wxStringTokenizer str ',') s
  have h3' : ∀ j, ((wxStringTokenizer str ',').foldl
      (fun acc tok => SelectDataSetAtIndex acc (wxAtoi tok)) s).m_dataSelector.IsSelected j = true ↔
      (j < s.m_plots.length ∧ ∃ t ∈ wxStringTokenizer str ',', wxAtoi t = (j : Int)) := by
    intro j
    rw [h3 j, hnone j]
    constructor
    · rintro (h | ⟨ha, _, hc⟩)
      · exact absurd h (by simp)
      · exact ⟨ha, hc⟩
    · rintro ⟨ha, hc⟩
      exact Or.inr ⟨ha, by omega, hc⟩
  split
  · rename_i hempty
    rw [GetSelectedNamesInCol_length_eq_zero] at hempty
    have hno : ¬ ∃ j, j < s.m_plots.length ∧
        ∃ t ∈ wxStringTokenizer str ',', wxAtoi t = (j : Int) := by
      rintro ⟨j, hj⟩
      have := (h3' j).mpr hj
      rw [hempty j] at this
      exact Bool.noConfusion this
    rw [IsSelected_SelectDataSetAtIndex, hempty k, h1, h2]
    constructor
    · rintro (h | ⟨ha, hb, _⟩)
      · exact absurd h (by simp)
      · have hk : k = 0 := by omega
        exact Or.inr ⟨hk, by omega, hno⟩
    · rintro (⟨ha, hb⟩ | ⟨hk, hn, _⟩)
      · exact absurd ⟨k, ha, hb⟩ hno
      · subst hk
        exact Or.inr ⟨rfl, hn, by omega⟩
  · rename_i hnonempty
    rw [GetSelectedNamesInCol_length_eq_zero] at hnonempty
    rw [h3' k]
    constructor
    · exact Or.inl
    · rintro (h | ⟨_, _, hno⟩)
      · exact h
      · exfalso
        apply hnonempty
        intro j
        cases hj : ((wxStringTokenizer str ',').foldl
          (fun acc tok => SelectDataSetAtIndex acc (wxAtoi tok)) s).m_dataSelector.IsSelected j with
        | false => rfl
        | true => exact absurd ⟨j, (h3' j).mp hj⟩ hno

/-- The rows `ReadState` selects on a control without selected row, in the terms of the
specification side: the tokens are the pieces between the commas and their values the
`int` their leading number gives. -/
theorem readState_tokens_spec (s : wxDVDCCtrl) (cfg : wxConfig) (filename str : String)
    (hcfg : cfg (selectionsKey filename) = some str)
    (hwf : s.m_dataSelector.Length = s.m_plots.length)
    (hnone : ∀ k, s.m_dataSelector.IsSelected k = false) (k : Nat) :
    (ReadState s cfg filename).m_dataSelector.IsSelected k = true ↔
      ((k < s.m_plots.length ∧ ∃ t ∈ commaTokens str, IsIntValue t (k : Int)) ∨
        (k = 0 ∧ 0 < s.m_plots.length ∧
          ¬ ∃ j, j < s.m_plots.length ∧ ∃ t ∈ commaTokens str, IsIntValue t (j : Int))) := by
  rw [readState_spec s cfg filename str hcfg hwf hnone k]
  simp only [wxAtoi_eq_iff]
  rw [wxStringTokenizer_eq]
  by_cases hc : str.data ≠ [] ∧ str.data.any (fun x => decide (x ≠ ',')) = false
  · rw [if_pos hc]
    have hnil : commaTokens str = [] := by
      unfold commaTokens
      rw [(dropTrailing_splitOn_eq_nil str.data).mpr hc.2]
      rfl
    have hval : ∀ j : Nat, IsIntValue "" (j : Int) ↔ j = 0 := by
      intro j
      rw [← wxAtoi_eq_iff]
      have : wxAtoi "" = 0 := by decide
      rw [this]
      omega
    simp only [hnil, List.mem_singleton, exists_eq_left, hval, List.not_mem_nil, false_and,
      exists_false, and_false, not_false_eq_true, and_true, false_or]
    constructor
    · rintro (⟨h1, h2⟩ | ⟨h1, h2, _⟩)
      · exact ⟨h2, by omega⟩
      · exact ⟨h1, h2⟩
    · rintro ⟨h1, h2⟩
      exact Or.inl ⟨by omega, h1⟩
  · rw [if_neg hc]

/-- C7, amended: `ReadState` reads the stored value as a comma-separated list of indices.
On a control with `n` datasets (one row each) and no row selected, the rows selected after
`ReadState` are exactly the `k < n` that are the integer value of some comma-separated
token of the stored string, where the tokens are the pieces between the commas up to the
last piece that is not empty, and the integer value of a token is the C `int` of the
number at its front (0 for a token that does not start with a number; a number that an
`int` cannot hold counts as its low 32 bits, after being limited to the range of a 64-bit
`long`); and if there is no such `k` and `n > 0`, row 0 alone is selected. -/
theorem readState_selects_tokens (s : wxDVDCCtrl) (cfg : wxConfig) (filename str : String)
    (hcfg : cfg (selectionsKey filename) = some str)
    (hwf : s.m_dataSelector.Length = s.m_plots.length)
    (hnone : ∀ k, s.m_dataSelector.IsSelected k = false) (k : Nat) :
    (ReadState s cfg filename).m_dataSelector.IsSelected k = true ↔
      ((k < s.m_plots.length ∧ ∃ t ∈ commaTokens str, IsIntValue t (k : Int)) ∨
        (k = 0 ∧ 0 < s.m_plots.length ∧
          ¬ ∃ j, j < s.m_plots.length ∧ ∃ t ∈ commaTokens str, IsIntValue t (j : Int))) :=
  readState_tokens_spec s cfg filename str hcfg hwf hnone k

end wxDVDCCtrl

namespace wxDVDCCtrl

open wxPLPlotCtrl wxDVSelectionListCtrl

theorem IsSelected_false_of_selections_nil (l : wxDVSelectionListCtrl)
    (h : l.GetSelectionsInCol = []) (k : Nat) : l.IsSelected k = false := by
  cases hk : l.IsSelected k with
  | false => rfl
  | true =>
    have := mem_GetSelectionsInCol.mpr hk
    rw [h] at this
    exact absurd this (List.not_mem_nil _)

/-- C7 at the sample control of three datasets and the stored string ` 2,x,4294967297,7,`:
row 1 is selected because `1` is the `int` that `4294967297` gives, and the rows selected
are 0 (from the token `x`), 1 and 2; the token `7` is out of range. -/
theorem readState_selects_tokens_witness :
    sampleConfigOdd (selectionsKey "run") = some " 2,x,4294967297,7," ∧
    sample3.m_dataSelector.Length = sample3.m_plots.length ∧
    (∀ k, sample3.m_dataSelector.IsSelected k = false) ∧
    ((ReadState sample3 sampleConfigOdd "run").m_dataSelector.IsSelected 1 = true ↔
      ((1 < sample3.m_plots.length ∧
          ∃ t ∈ commaTokens " 2,x,4294967297,7,", IsIntValue t ((1 : Nat) : Int)) ∨
        (1 = 0 ∧ 0 < sample3.m_plots.length ∧
          ¬ ∃ j, j < sample3.m_plots.length ∧
            ∃ t ∈ commaTokens " 2,x,4294967297,7,", IsIntValue t (j : Int)))) ∧
    commaTokens " 2,x,4294967297,7," = [" 2", "x", "4294967297", "7"] ∧
    IsIntValue " 2" 2 ∧ IsIntValue "x" 0 ∧ IsIntValue "4294967297" 1 ∧ IsIntValue "7" 7 ∧
    (ReadState sample3 sampleConfigOdd "run").m_dataSelector.GetSelectionsInCol = [0, 1, 2] :=
  ⟨by decide, by decide, IsSelected_false_of_selections_nil _ (by decide),
    readState_selects_tokens sample3 sampleConfigOdd "run" " 2,x,4294967297,7," (by decide)
      (by decide) (IsSelected_false_of_selections_nil _ (by decide)) 1,
    by decide, by decide, by decide, by decide, by decide, by decide⟩

/-- C7 as stated fails for a number that an `int` cannot hold.  The stored string
`4294967297,` has the one token `4294967297`, whose number is not below the three
datasets of the sample control, so no token has an integer value in range and row 0 alone
should be selected; `wxAtoi` returns 1 for it, and `ReadState` selects row 1. -/
theorem readState_int_overflow_counterexample :
    sampleConfigOverflow (selectionsKey "run") = some "4294967297," ∧
    sample3.m_dataSelector.Length = sample3.m_plots.length ∧
    sample3.m_dataSelector.GetSelectionsInCol = [] ∧
    commaTokens "4294967297," = ["4294967297"] ∧
    leadingNumber "4294967297" = 4294967297 ∧
    ¬ ((4294967297 : Int) < (sample3.m_plots.length : Int)) ∧
    (ReadState sample3 sampleConfigOverflow "run").m_dataSelector.GetSelectionsInCol = [1] := by
  decide

/-- A token that does not start with a number selects row 0: the stored string `x,2`
selects the rows 0 and 2 of the sample control. -/
theorem readState_token_without_number :
    commaTokens "x,2" = ["x", "2"] ∧ leadingNumber "x" = 0 ∧
    (ReadState sample3 (fun _ => some "x,2") "run").m_dataSelector.GetSelectionsInCol
      = [0, 2] := by
  decide

end wxDVDCCtrl

namespace wxDVDCCtrl

open wxPLPlotCtrl wxDVSelectionListCtrl

theorem eq_of_sorted_of_mem_iff {l1 l2 : List Nat} (h1 : l1.Sorted (fun a b => a < b))
    (h2 : l2.Sorted (fun a b => a < b)) (h : ∀ k, k ∈ l1 ↔ k ∈ l2) : l1 = l2 :=
  List.eq_of_perm_of_sorted ((List.perm_ext_iff_of_nodup h1.nodup h2.nodup).mpr h) h1 h2

theorem GetSelectionsInCol_sorted (l : wxDVSelectionListCtrl) :
    l.GetSelectionsInCol.Sorted (fun a b => a < b) := by
  unfold GetSelectionsInCol
  exact List.Sorted.filter _ (List.sorted_lt_range _)

theorem ReadState_Length (s : wxDVDCCtrl) (cfg : wxConfig) (filename : String) :
    (ReadState s cfg filename).m_dataSelector.Length = s.m_dataSelector.Length := by
  unfold ReadState
  simp only
  split
  · rw [SelectDataSetAtIndex_Length]
    exact (selectFold_spec _ s).2.1
  · exact (selectFold_spec _ s).2.1

theorem WriteState_read (s : wxDVDCCtrl) (cfg : wxConfig) (filename : String) :
    WriteState s cfg filename (selectionsKey filename) = some (selectionsString s) := by
  simp [WriteState]

theorem token_value_iff (s : wxDVDCCtrl)
    (hint : ∀ j ∈ s.m_dataSelector.GetSelectionsInCol, j < 2147483648) (k : Nat) :
    (∃ t ∈ wxStringTokenizer (selectionsString s) ',', wxAtoi t = (k : Int)) ↔
      k ∈ s.m_dataSelector.GetSelectionsInCol := by
  rw [tokens_selectionsString]
  constructor
  · rintro ⟨t, ht, hv⟩
    obtain ⟨j, hj, rfl⟩ := List.mem_map.mp ht
    rw [wxAtoi_decimal j (hint j hj)] at hv
    have : j = k := by exact_mod_cast hv
    rw [← this]; exact hj
  · intro hk
    exact ⟨String.mk (decimal k), List.mem_map.mpr ⟨k, hk, rfl⟩, wxAtoi_decimal k (hint k hk)⟩

/-- C6, amended: the selected rows survive `WriteState` followed by `ReadState` when at
least one row is selected.  For a control with one row per plot set and selected rows
`S`, each of them an index that a C `int` holds (the list hands them out in a
`std::vector<int>`), reading the string `WriteState` stored into a control with the same
number of datasets, one row each and no row selected, leaves exactly the rows of `S`
selected if `S` is not empty; if `S` is empty, row 0 is selected when the control holds a
dataset, and no row otherwise. -/
theorem writeState_readState_roundtrip (s s0 : wxDVDCCtrl) (cfg : wxConfig) (filename : String)
    (hwf : s.m_dataSelector.Length = s.m_plots.length)
    (hint : ∀ k ∈ s.m_dataSelector.GetSelectionsInCol, k < 2147483648)
    (hsame : s0.m_plots.length = s.m_plots.length)
    (hwf0 : s0.m_dataSelector.Length = s0.m_plots.length)
    (hnone : ∀ k, s0.m_dataSelector.IsSelected k = false) :
    (ReadState s0 (WriteState s cfg filename) filename).m_dataSelector.GetSelectionsInCol =
      if s.m_dataSelector.GetSelectionsInCol = [] then
        (if 0 < s.m_plots.length then [0] else [])
      else s.m_dataSelector.GetSelectionsInCol := by
  have hread := readState_spec s0 (WriteState s cfg filename) filename
    (selectionsString s) (WriteState_read s cfg filename) hwf0 hnone
  have hlt : ∀ k, k ∈ s.m_dataSelector.GetSelectionsInCol → k < s.m_plots.length := by
    intro k hk
    rw [← hwf]
    exact IsSelected_lt_Length (mem_GetSelectionsInCol.mp hk)
  have hsorted : (if s.m_dataSelector.GetSelectionsInCol = [] then
        (if 0 < s.m_plots.length then [0] else [])
      else s.m_dataSelector.GetSelectionsInCol).Sorted (fun a b => a < b) := by
    split
    · split <;> simp
    · exact GetSelectionsInCol_sorted _
  apply eq_of_sorted_of_mem_iff (GetSelectionsInCol_sorted _) hsorted
  intro k
  rw [mem_GetSelectionsInCol, hread k, hsame]
  simp only [token_value_iff s hint]
  by_cases hS : s.m_dataSelector.GetSelectionsInCol = []
  · simp only [hS, if_true, List.not_mem_nil, and_false, exists_false, not_false_eq_true,
      and_true, false_or]
    by_cases hn : 0 < s.m_plots.length
    · simp [hn]
    · simp [hn]
  · simp only [hS, if_false]
    constructor
    · rintro (⟨_, hk⟩ | ⟨_, _, hno⟩)
      · exact hk
      · exfalso
        obtain ⟨j, hj⟩ := List.exists_mem_of_ne_nil _ hS
        exact hno ⟨j, hlt j hj, hj⟩
    · intro hk
      exact Or.inl ⟨hlt k hk, hk⟩

/-- C6 at the sample control with rows 0 and 1 selected, read back into the sample control
with no row selected. -/
theorem writeState_readState_roundtrip_witness :
    sample3sel.m_dataSelector.Length = sample3sel.m_plots.length ∧
    (∀ k ∈ sample3sel.m_dataSelector.GetSelectionsInCol, k < 2147483648) ∧
    sample3.m_plots.length = sample3sel.m_plots.length ∧
    sample3.m_dataSelector.Length = sample3.m_plots.length ∧
    (∀ k, sample3.m_dataSelector.IsSelected k = false) ∧
    (ReadState sample3 (WriteState sample3sel sampleConfig "run") "run").m_dataSelector.GetSelectionsInCol
      = if sample3sel.m_dataSelector.GetSelectionsInCol = [] then
          (if 0 < sample3sel.m_plots.length then [0] else [])
        else sample3sel.m_dataSelector.GetSelectionsInCol :=
  ⟨by decide, by decide, by decide, by decide, IsSelected_false_of_selections_nil _ (by decide),
    writeState_readState_roundtrip sample3sel sample3 sampleConfig "run" (by decide) (by decide)
      (by decide) (by decide) (IsSelected_false_of_selections_nil _ (by decide))⟩

/-- C6 fails when no row is selected: the sample control has no selected row, `WriteState`
stores the empty string, and `ReadState` of that string into the same control selects
row 0, so the selected rows read back are not the selected rows written. -/
theorem writeState_readState_empty_counterexample :
    sample3.m_dataSelector.GetSelectionsInCol = [] ∧
    selectionsString sample3 = "" ∧
    (ReadState sample3 (WriteState sample3 sampleConfig "run") "run").m_dataSelector.GetSelectionsInCol
      = [0] ∧
    (ReadState sample3 (WriteState sample3 sampleConfig "run") "run").m_dataSelector.GetSelectionsInCol
      ≠ sample3.m_dataSelector.GetSelectionsInCol := by
  decide

/-- The bound on the indices in C6 is needed over lists of the model, which may have more
rows than an `int` counts: the string written for the selected row 2147483648 is read
as the `int` -2147483648, and the row is not selected. -/
theorem readState_row_beyond_int (s : wxDVDCCtrl) (cfg : wxConfig) (filename : String)
    (hcfg : cfg (selectionsKey filename) = some (String.mk (decimal 2147483648) ++ ","))
    (hwf : s.m_dataSelector.Length = s.m_plots.length)
    (hnone : ∀ k, s.m_dataSelector.IsSelected k = false) :
    (ReadState s cfg filename).m_dataSelector.IsSelected 2147483648 = false := by
  have htok : wxStringTokenizer (String.mk (decimal 2147483648) ++ ",") ',' = ["2147483648"] := by
    decide
  have hval : wxAtoi "2147483648" = -2147483648 := by decide
  rw [Bool.eq_false_iff]
  intro h
  rw [readState_spec s cfg filename _ hcfg hwf hnone, htok] at h
  simp only [List.mem_singleton, exists_eq_left, hval] at h
  rcases h with ⟨_, h⟩ | ⟨h, _⟩
  · omega
  · omega

end wxDVDCCtrl

namespace wxDVDCCtrl

open wxPLPlotCtrl wxDVSelectionListCtrl

theorem sampleBig_Length : sampleBig.Length = 17521 := by
  show (List.replicate 17521 (wxRealPoint.mk 0 0)).length = 17521
  exact List.length_replicate _ _

theorem run_big_restricted :
    run wxDVDCCtrl.new [.addDataSet sampleBig, .setSelectedNames "Load (kW)" true] =
      { wxDVDCCtrl.new.AddDataSet sampleBig with
        m_dataSelector :=
          (wxDVDCCtrl.new.AddDataSet sampleBig).m_dataSelector.SelectRowInCol 0 true } := by
  have htok : wxStringTokenizer "Load (kW)" ';' = ["Load (kW)"] := by decide
  have hsel : (wxDVDCCtrl.new.AddDataSet sampleBig).m_dataSelector.SelectRowWithNameInCol "Load (kW)"
      = ((wxDVDCCtrl.new.AddDataSet sampleBig).m_dataSelector.SelectRowInCol 0 true, 0) := by
    decide
  have hds : ∀ l, (plotAt { wxDVDCCtrl.new.AddDataSet sampleBig with m_dataSelector := l }
      0).dataset.Length = 17521 := by
    intro l
    exact sampleBig_Length
  simp only [run, List.foldl_cons, List.foldl_nil, Op.apply, SetSelectedNames, htok,
    setSelectedNamesStep, hsel]
  have h0 : ((0 : Int)).toNat = 0 := rfl
  simp [h0, hds]

end wxDVDCCtrl

/-! ## The effect of the operations on plot sets, allocator and surface -/

namespace wxDVDCCtrl

open wxPLPlotCtrl wxDVSelectionListCtrl

theorem attached_iff_mem_ptrs (c : wxPLPlotCtrl) (p : Option Nat) :
    c.attached p ↔ p ∈ surfacePtrs c := by
  unfold attached surfacePtrs
  simp only [List.mem_map]

theorem plotAt_of_ge (s : wxDVDCCtrl) (k : Nat) (h : s.m_plots.length ≤ k) :
    s.plotAt k = default := by
  unfold plotAt
  rw [List.getD_eq_getElem?_getD, List.getElem?_eq_none h]
  rfl

theorem plotAt_AddDataSet (s : wxDVDCCtrl) (d : wxDVTimeSeriesDataSet) (k : Nat) :
    (s.AddDataSet d).plotAt k = if k = s.m_plots.length then PlotSet.new d else s.plotAt k := by
  unfold plotAt AddDataSet
  simp only [List.getD_eq_getElem?_getD]
  by_cases hk : k < s.m_plots.length
  · have hne : k ≠ s.m_plots.length := by omega
    rw [List.getElem?_append_left hk]
    simp [hne]
  · by_cases hk2 : k = s.m_plots.length
    · subst hk2
      simp
    · rw [List.getElem?_eq_none (by simp; omega), List.getElem?_eq_none (by omega)]
      rw [if_neg hk2]

theorem shownPlotSet_plot (s : wxDVDCCtrl) (i : Nat) :
    ∃ q, (shownPlotSet s i).plot = some q ∧
      q.addr = (match (s.plotAt i).plot with
        | some r => r.addr
        | none => s.m_heap) := by
  unfold shownPlotSet CalculateDCPlotData
  cases h : (s.plotAt i).plot with
  | none => simp [h]
  | some r => simp [h]

theorem showCore_heap (s : wxDVDCCtrl) (i : Nat) :
    (showCore s i).m_heap = if (s.plotAt i).plot.isSome then s.m_heap else s.m_heap + 1 := rfl

theorem showCore_ptrs (s : wxDVDCCtrl) (i : Nat) :
    surfacePtrs (showCore s i).m_plotSurface =
      surfacePtrs s.m_plotSurface ++ [(shownPlotSet s i).plotPtr] := by
  rw [showCore_surface]
  simp [surfacePtrs]

theorem showCore_plotAt_lt (s : wxDVDCCtrl) (i k : Nat) (hk : k < s.m_plots.length) :
    (showCore s i).plotAt k = if i = k then shownPlotSet s i else s.plotAt k := by
  rw [showCore_plotAt]
  by_cases hik : i = k
  · subst hik; simp [hk]
  · simp [hik]

theorem shownPlotSet_addr_cases (s : wxDVDCCtrl) (i : Nat) (q0 : wxPLLinePlot)
    (hq0 : (shownPlotSet s i).plot = some q0) :
    (∃ r, (s.plotAt i).plot = some r ∧ r.addr = q0.addr) ∨
      ((s.plotAt i).plot = none ∧ q0.addr = s.m_heap) := by
  obtain ⟨q, hq, ha⟩ := shownPlotSet_plot s i
  rw [hq0] at hq
  cases hq
  cases hp : (s.plotAt i).plot with
  | none => rw [hp] at ha; exact Or.inr ⟨rfl, ha⟩
  | some r => rw [hp] at ha; exact Or.inl ⟨r, rfl, ha.symm⟩

theorem heapOk_showCore {s : wxDVDCCtrl} (h : HeapOk s) (i : Nat) : HeapOk (showCore s i) := by
  have hheap : s.m_heap ≤ (s.showCore i).m_heap := by
    rw [showCore_heap]; split <;> omega
  have hself : ∀ q0, (shownPlotSet s i).plot = some q0 → q0.addr < (s.showCore i).m_heap := by
    intro q0 hq0
    rw [showCore_heap]
    rcases shownPlotSet_addr_cases s i q0 hq0 with ⟨r, hr, hra⟩ | ⟨hn, hra⟩
    · rw [hr, ← hra]
      simpa using h.addr i r hr
    · rw [hn, hra]
      simp
  have hcross : ∀ b q0 r, b < s.m_plots.length → i < s.m_plots.length →
      (shownPlotSet s i).plot = some q0 → (s.plotAt b).plot = some r → q0.addr = r.addr →
      i = b := by
    intro b q0 r hb hi hq0 hr hqr
    rcases shownPlotSet_addr_cases s i q0 hq0 with ⟨r0, hr0, hra⟩ | ⟨_, hra⟩
    · exact h.inj i b r0 r hi hb hr0 hr (hra.trans hqr)
    · have := h.addr b r hr
      omega
  constructor
  · intro k q hk
    rw [showCore_plotAt] at hk
    split at hk
    · exact hself q hk
    · exact lt_of_lt_of_le (h.addr k q hk) hheap
  · intro a b q r ha hb hqa hrb hqr
    rw [showCore_length] at ha hb
    rw [showCore_plotAt_lt s i a ha] at hqa
    rw [showCore_plotAt_lt s i b hb] at hrb
    by_cases hia : i = a <;> by_cases hib : i = b
    · exact hia.symm.trans hib
    · rw [if_pos hia] at hqa
      rw [if_neg hib] at hrb
      exact absurd (hcross b q r hb (hia ▸ ha) hqa hrb hqr) hib
    · rw [if_neg hia] at hqa
      rw [if_pos hib] at hrb
      exact absurd (hcross a r q ha (hib ▸ hb) hrb hqa hqr.symm) hia
    · rw [if_neg hia] at hqa
      rw [if_neg hib] at hrb
      exact h.inj a b q r ha hb hqa hrb hqr

theorem heapOk_of_eq {s t : wxDVDCCtrl} (h : HeapOk s) (hp : t.m_plots = s.m_plots)
    (hh : t.m_heap = s.m_heap) : HeapOk t := by
  have hat : ∀ k, t.plotAt k = s.plotAt k := by
    intro k; unfold plotAt; rw [hp]
  constructor
  · intro i q hq
    rw [hat] at hq
    rw [hh]
    exact h.addr i q hq
  · intro i j q r hi hj hq hr
    rw [hat] at hq hr
    rw [hp] at hi hj
    exact h.inj i j q r hi hj hq hr

theorem heapOk_addDataSet {s : wxDVDCCtrl} (h : HeapOk s) (d : wxDVTimeSeriesDataSet) :
    HeapOk (s.AddDataSet d) := by
  have hlen : (s.AddDataSet d).m_plots.length = s.m_plots.length + 1 := by
    show (s.m_plots ++ [PlotSet.new d]).length = _
    simp
  constructor
  · intro i q hq
    rw [plotAt_AddDataSet] at hq
    split at hq
    · exact Option.noConfusion hq
    · exact h.addr i q hq
  · intro i j q r hi hj hq hr
    rw [plotAt_AddDataSet] at hq hr
    split at hq
    · exact Option.noConfusion hq
    · split at hr
      · exact Option.noConfusion hr
      · rw [hlen] at hi hj
        exact h.inj i j q r (by omega) (by omega) hq hr

theorem heapOk_new : HeapOk wxDVDCCtrl.new := by
  constructor
  · intro i q hq
    rw [plotAt_of_ge _ _ (by simp [wxDVDCCtrl.new])] at hq
    exact Option.noConfusion hq
  · intro i j q r hi
    exact absurd hi (Nat.not_lt_zero _)

end wxDVDCCtrl

namespace wxDVDCCtrl

open wxPLPlotCtrl wxDVSelectionListCtrl

theorem hideCore_selector (s : wxDVDCCtrl) (i : Nat) :
    (hideCore s i).m_dataSelector = s.m_dataSelector := by
  unfold hideCore
  simp only
  split_ifs <;> rfl

theorem hideCore_heap (s : wxDVDCCtrl) (i : Nat) : (hideCore s i).m_heap = s.m_heap := by
  unfold hideCore
  simp only
  split_ifs <;> rfl

theorem hideCore_plots (s : wxDVDCCtrl) (i : Nat) :
    (hideCore s i).m_plots = s.m_plots ∨
    (hideCore s i).m_plots = (s.m_dataSelector.GetSelectionsInCol.foldl moveLeftStep
      (s.m_plots, ((s.m_plotSurface.RemovePlot (s.plotAt i).plotPtr).SetYAxis1 none).SetYAxis2
        none)).1 := by
  unfold hideCore
  simp only
  split_ifs <;> first | exact Or.inl rfl | exact Or.inr rfl

theorem hideCore_length (s : wxDVDCCtrl) (i : Nat) :
    (hideCore s i).m_plots.length = s.m_plots.length := by
  rcases hideCore_plots s i with h | h
  · rw [h]
  · rw [h]; exact (moveLeft_foldl_plotPtr _ _ 0).2.2

theorem moveLeft_foldl_plot (rows : List Nat) (a : List PlotSet × wxPLPlotCtrl) (k : Nat) :
    ((rows.foldl moveLeftStep a).1.getD k default).plot = (a.1.getD k default).plot := by
  induction rows generalizing a with
  | nil => rfl
  | cons r rows ih =>
    rw [List.foldl_cons, ih]
    unfold moveLeftStep
    simp only [List.getD_eq_getElem?_getD, List.getElem?_set]
    by_cases hrk : r = k
    · subst hrk
      by_cases hr : r < a.1.length
      · simp [hr]
      · simp [hr, List.getElem?_eq_none (Nat.le_of_not_lt hr)]
    · simp [hrk]

theorem hideCore_plotAt (s : wxDVDCCtrl) (i k : Nat) :
    ((hideCore s i).plotAt k).plot = (s.plotAt k).plot ∧
    ((hideCore s i).plotAt k).dataset = (s.plotAt k).dataset := by
  unfold plotAt
  rcases hideCore_plots s i with h | h
  · rw [h]; exact ⟨rfl, rfl⟩
  · rw [h]
    exact ⟨moveLeft_foldl_plot _ _ k, (moveLeft_foldl_plotPtr _ _ k).2.1⟩

theorem hideCore_unitsAt (s : wxDVDCCtrl) (i k : Nat) :
    (hideCore s i).unitsAt k = s.unitsAt k := by
  unfold unitsAt
  rw [(hideCore_plotAt s i k).2]

theorem surfacePtrs_congr {c c2 : wxPLPlotCtrl} (h : c2.m_plots = c.m_plots) :
    surfacePtrs c2 = surfacePtrs c := by
  unfold surfacePtrs; rw [h]

theorem hideCore_ptrs (s : wxDVDCCtrl) (i : Nat) :
    surfacePtrs (hideCore s i).m_plotSurface =
        surfacePtrs (s.m_plotSurface.RemovePlot (s.plotAt i).plotPtr) ∨
    surfacePtrs (hideCore s i).m_plotSurface =
      surfacePtrs (s.m_dataSelector.GetSelectionsInCol.foldl moveLeftStep
        (s.m_plots, ((s.m_plotSurface.RemovePlot (s.plotAt i).plotPtr).SetYAxis1 none).SetYAxis2
          none)).2 := by
  unfold hideCore
  simp only
  split_ifs <;>
    first
    | (left; apply surfacePtrs_congr; simp [SetYAxis1, SetYAxis2]; done)
    | (right; apply surfacePtrs_congr; simp [SetYAxis1, SetYAxis2])

theorem heapOk_hideCore {s : wxDVDCCtrl} (h : HeapOk s) (i : Nat) : HeapOk (hideCore s i) := by
  constructor
  · intro k q hq
    rw [(hideCore_plotAt s i k).1] at hq
    rw [hideCore_heap]
    exact h.addr k q hq
  · intro a b q r ha hb hq hr
    rw [(hideCore_plotAt s i a).1] at hq
    rw [(hideCore_plotAt s i b).1] at hr
    rw [hideCore_length] at ha hb
    exact h.inj a b q r ha hb hq hr

theorem heapOk_refresh {s : wxDVDCCtrl} (h : HeapOk s) : HeapOk (RefreshDisabledCheckBoxes s) :=
  heapOk_of_eq h (RefreshDisabledCheckBoxes_plots s) (RefreshDisabledCheckBoxes_heap s)

end wxDVDCCtrl

namespace wxDVDCCtrl

open wxPLPlotCtrl wxDVSelectionListCtrl

theorem surfacePtrs_RemovePlot (c : wxPLPlotCtrl) (p : Option Nat) :
    surfacePtrs (c.RemovePlot p) = @List.erase (Option Nat) instBEqOfDecidableEq (surfacePtrs c) p := by
  unfold surfacePtrs RemovePlot
  simp only
  induction c.m_plots with
  | nil => rfl
  | cons e es ih =>
    by_cases he : e.plot = p
    · simp [List.eraseP_cons, he]
    · simp [List.eraseP_cons, he, List.erase_cons, ih]

theorem surfacePtrs_AddPlot (c : wxPLPlotCtrl) (p : Option Nat) (x y : AxisPos) :
    surfacePtrs (c.AddPlot p x y) = surfacePtrs c ++ [p] := by
  simp [surfacePtrs]

theorem surfacePtrs_SetYAxis1 (c : wxPLPlotCtrl) (a : Option wxPLAxis) :
    surfacePtrs (c.SetYAxis1 a) = surfacePtrs c := rfl

theorem surfacePtrs_SetYAxis2 (c : wxPLPlotCtrl) (a : Option wxPLAxis) :
    surfacePtrs (c.SetYAxis2 a) = surfacePtrs c := rfl

theorem moveLeftStep_ptrs (a : List PlotSet × wxPLPlotCtrl) (r : Nat) :
    surfacePtrs (moveLeftStep a r).2 =
      @List.erase (Option Nat) instBEqOfDecidableEq (surfacePtrs a.2) (a.1.getD r default).plotPtr
        ++ [(a.1.getD r default).plotPtr] := by
  unfold moveLeftStep
  simp only [surfacePtrs_AddPlot, surfacePtrs_RemovePlot]

theorem moveLeft_foldl_perm (rows : List Nat) (a : List PlotSet × wxPLPlotCtrl)
    (h : ∀ k ∈ rows, (a.1.getD k default).plotPtr ∈ surfacePtrs a.2) :
    (surfacePtrs (rows.foldl moveLeftStep a).2).Perm (surfacePtrs a.2) := by
  induction rows generalizing a with
  | nil => exact List.Perm.refl _
  | cons r rows ih =>
    rw [List.foldl_cons]
    have hr := h r (List.mem_cons_self _ _)
    have hstep : (surfacePtrs (moveLeftStep a r).2).Perm (surfacePtrs a.2) := by
      rw [moveLeftStep_ptrs]
      exact List.perm_append_comm.trans (List.perm_cons_erase hr).symm
    refine (ih (moveLeftStep a r) ?_).trans hstep
    intro k hk
    have hp := (moveLeft_foldl_plotPtr [r] a k).1
    simp only [List.foldl_cons, List.foldl_nil] at hp
    rw [hp]
    exact hstep.symm.subset (h k (List.mem_cons_of_mem _ hk))

theorem IsSelected_Append (l : wxDVSelectionListCtrl) (name group : String) (k : Nat) :
    (l.Append name group).IsSelected k = l.IsSelected k := by
  unfold IsSelected wxDVSelectionListCtrl.Append
  simp only
  by_cases hk : k < l.m_itemList.length
  · rw [List.getElem?_append_left hk]
  · by_cases hk2 : k = l.m_itemList.length
    · subst hk2
      simp
    · rw [List.getElem?_eq_none (by simp; omega), List.getElem?_eq_none (by omega)]

theorem Length_Append (l : wxDVSelectionListCtrl) (name group : String) :
    (l.Append name group).Length = l.Length + 1 := by
  simp [Length, wxDVSelectionListCtrl.Append]

theorem findLabel_lt (name : String) (rows : List row_item) (k0 i : Nat)
    (h : findLabel name rows k0 = some i) : k0 ≤ i ∧ i < k0 + rows.length := by
  induction rows generalizing k0 with
  | nil => exact Option.noConfusion h
  | cons r rows ih =>
    unfold findLabel at h
    split at h
    · cases h
      simp
    · have := ih (k0 + 1) h
      simp only [List.length_cons]
      omega

theorem mirror_new : Mirror wxDVDCCtrl.new := by
  refine ⟨heapOk_new, rfl, ?_, ?_, ?_⟩
  · intro i hi
    exact absurd hi (Nat.not_lt_zero _)
  · exact List.nodup_nil
  · intro p hp
    exact absurd hp (List.not_mem_nil _)

theorem mirror_addDataSet {s : wxDVDCCtrl} (h : Mirror s) (d : wxDVTimeSeriesDataSet) :
    Mirror (s.AddDataSet d) := by
  have hlen : (s.AddDataSet d).m_plots.length = s.m_plots.length + 1 := by
    show (s.m_plots ++ [PlotSet.new d]).length = _
    simp
  refine ⟨heapOk_addDataSet h.heap d, ?_, ?_, h.nodup, h.bound⟩
  · show (s.m_dataSelector.Append _ _).Length = _
    rw [Length_Append, hlen, h.len]
  · intro i hi
    show (s.m_dataSelector.Append _ _).IsSelected i = true ↔ _
    rw [IsSelected_Append]
    unfold plotShown
    rw [plotAt_AddDataSet]
    by_cases hin : i = s.m_plots.length
    · subst hin
      rw [if_pos rfl]
      have hns : s.m_dataSelector.IsSelected s.m_plots.length = false := by
        cases hc : s.m_dataSelector.IsSelected s.m_plots.length with
        | false => rfl
        | true =>
          have := IsSelected_lt_Length hc
          rw [h.len] at this
          exact absurd this (Nat.lt_irrefl _)
      rw [hns]
      simp [PlotSet.new]
    · rw [if_neg hin]
      exact h.mirror i (by omega)

end wxDVDCCtrl

namespace wxDVDCCtrl

open wxPLPlotCtrl wxDVSelectionListCtrl

theorem IsSelected_of_values_set (l l2 : wxDVSelectionListCtrl) (i : Nat) (b : Bool)
    (hv : l2.values = l.values.set i b) (k : Nat) :
    l2.IsSelected k = if k = i ∧ i < l.Length then b else l.IsSelected k := by
  rw [← IsSelected_SelectRowInCol]
  exact IsSelected_congr (hv.trans (SelectRowInCol_values l i b).symm) k

theorem Length_of_values_set (l l2 : wxDVSelectionListCtrl) (i : Nat) (b : Bool)
    (hv : l2.values = l.values.set i b) : l2.Length = l.Length := by
  rw [← values_length, ← values_length, hv, List.length_set]

theorem plotShown_iff (s : wxDVDCCtrl) (k : Nat) :
    s.plotShown k ↔ (s.plotAt k).plot.isSome = true ∧
      (s.plotAt k).plotPtr ∈ surfacePtrs s.m_plotSurface := by
  unfold plotShown
  rw [attached_iff_mem_ptrs]

theorem plotPtr_eq_some (p : PlotSet) (q : wxPLLinePlot) (h : p.plot = some q) :
    p.plotPtr = some q.addr := by
  unfold PlotSet.plotPtr; rw [h]; rfl

theorem shown_ptr_ne {s : wxDVDCCtrl} (h : HeapOk s) (i k : Nat) (hi : i < s.m_plots.length)
    (hk : k < s.m_plots.length) (hik : i ≠ k) (hsome : (s.plotAt k).plot.isSome = true) :
    (s.plotAt k).plotPtr ≠ (shownPlotSet s i).plotPtr := by
  obtain ⟨r, hr⟩ := Option.isSome_iff_exists.mp hsome
  obtain ⟨q0, hq0, _⟩ := shownPlotSet_plot s i
  rw [plotPtr_eq_some _ r hr, plotPtr_eq_some _ q0 hq0]
  intro heq
  have hra : r.addr = q0.addr := Option.some.inj heq
  rcases shownPlotSet_addr_cases s i q0 hq0 with ⟨r0, hr0, hr0a⟩ | ⟨_, hq0a⟩
  · exact hik (h.inj i k r0 r hi hk hr0 hr (hr0a.trans hra.symm))
  · have := h.addr k r hr
    omega

theorem shown_ptr_fresh {s : wxDVDCCtrl} (h : Mirror s) (i : Nat) (hi : i < s.m_plots.length)
    (hun : s.m_dataSelector.IsSelected i = false) :
    (shownPlotSet s i).plotPtr ∉ surfacePtrs s.m_plotSurface := by
  obtain ⟨q0, hq0, _⟩ := shownPlotSet_plot s i
  rw [plotPtr_eq_some _ q0 hq0]
  intro hmem
  rcases shownPlotSet_addr_cases s i q0 hq0 with ⟨r0, hr0, hr0a⟩ | ⟨_, hq0a⟩
  · have hshown : s.plotShown i := by
      rw [plotShown_iff, plotPtr_eq_some _ r0 hr0, hr0a]
      exact ⟨by rw [hr0]; rfl, hmem⟩
    have := (h.mirror i hi).mpr hshown
    rw [hun] at this
    exact Bool.noConfusion this
  · obtain ⟨a, ha, hlt⟩ := h.bound _ hmem
    have : q0.addr = a := Option.some.inj ha
    omega

/-- Checking a row that is not checked and showing its plot keeps the checkbox invariant. -/
theorem mirror_show {s : wxDVDCCtrl} (h : Mirror s) (i : Nat) (hi : i < s.m_plots.length)
    (hun : s.m_dataSelector.IsSelected i = false) (l2 : wxDVSelectionListCtrl)
    (hv : l2.values = s.m_dataSelector.values.set i true) :
    Mirror (RefreshDisabledCheckBoxes (showCore { s with m_dataSelector := l2 } i)) := by
  have hheap1 : HeapOk { s with m_dataSelector := l2 } := heapOk_of_eq h.heap rfl rfl
  have hfresh : (shownPlotSet { s with m_dataSelector := l2 } i).plotPtr ∉
      surfacePtrs s.m_plotSurface := by
    have hp : (shownPlotSet { s with m_dataSelector := l2 } i).plotPtr
        = (shownPlotSet s i).plotPtr := by
      obtain ⟨q1, hq1, ha1⟩ := shownPlotSet_plot { s with m_dataSelector := l2 } i
      obtain ⟨q0, hq0, ha0⟩ := shownPlotSet_plot s i
      rw [plotPtr_eq_some _ q1 hq1, plotPtr_eq_some _ q0 hq0, ha1, ha0]
      rfl
    rw [hp]
    exact shown_ptr_fresh h i hi hun
  refine ⟨heapOk_refresh (heapOk_showCore hheap1 i), ?_, ?_, ?_, ?_⟩
  · rw [Length_congr (RefreshDisabledCheckBoxes_values _), showCore_selector,
      RefreshDisabledCheckBoxes_plots, showCore_length]
    exact (Length_of_values_set _ _ i true hv).trans h.len
  · intro k hk
    rw [RefreshDisabledCheckBoxes_plots, showCore_length] at hk
    rw [IsSelected_congr (RefreshDisabledCheckBoxes_values _), showCore_selector,
      IsSelected_of_values_set _ _ i true hv, plotShown_iff, RefreshDisabledCheckBoxes_plotAt,
      RefreshDisabledCheckBoxes_surface, showCore_ptrs, showCore_plotAt_lt _ i k hk]
    by_cases hik : i = k
    · subst hik
      have hlen : i < s.m_dataSelector.Length := by rw [h.len]; exact hi
      simp [hlen, shownPlotSet_isSome]
    · have hki : ¬ k = i := fun e => hik e.symm
      simp only [hki, false_and, if_false, hik, List.mem_append, List.mem_singleton]
      rw [h.mirror k hk, plotShown_iff]
      constructor
      · rintro ⟨h1, h2⟩
        exact ⟨h1, Or.inl h2⟩
      · rintro ⟨h1, h2 | h2⟩
        · exact ⟨h1, h2⟩
        · exact absurd h2 (shown_ptr_ne hheap1 i k hi hk hik h1)
  · rw [RefreshDisabledCheckBoxes_surface, showCore_ptrs]
    apply List.Nodup.append h.nodup (List.nodup_singleton _)
    intro p hp hp2
    rw [List.mem_singleton] at hp2
    subst hp2
    exact hfresh hp
  · intro p hp
    rw [RefreshDisabledCheckBoxes_surface, showCore_ptrs] at hp
    rw [RefreshDisabledCheckBoxes_heap]
    rcases List.mem_append.mp hp with hp | hp
    · obtain ⟨a, ha, hlt⟩ := h.bound p hp
      refine ⟨a, ha, lt_of_lt_of_le hlt ?_⟩
      rw [showCore_heap]
      split
      · exact Nat.le_refl _
      · exact Nat.le_succ _
    · rw [List.mem_singleton] at hp
      obtain ⟨q0, hq0, _⟩ := shownPlotSet_plot { s with m_dataSelector := l2 } i
      refine ⟨q0.addr, by rw [hp, plotPtr_eq_some _ q0 hq0], ?_⟩
      apply (heapOk_showCore hheap1 i).addr i q0
      rw [showCore_plotAt_self { s with m_dataSelector := l2 } i hi]
      exact hq0

end wxDVDCCtrl

namespace wxDVDCCtrl

open wxPLPlotCtrl wxDVSelectionListCtrl

theorem plotPtr_congr {p q : PlotSet} (h : p.plot = q.plot) : p.plotPtr = q.plotPtr := by
  unfold PlotSet.plotPtr; rw [h]

theorem ptr_ne_of_ne {s : wxDVDCCtrl} (h : HeapOk s) (i k : Nat) (hi : i < s.m_plots.length)
    (hk : k < s.m_plots.length) (hik : k ≠ i) (hsi : (s.plotAt i).plot.isSome = true)
    (hsk : (s.plotAt k).plot.isSome = true) :
    (s.plotAt k).plotPtr ≠ (s.plotAt i).plotPtr := by
  obtain ⟨r, hr⟩ := Option.isSome_iff_exists.mp hsk
  obtain ⟨q, hq⟩ := Option.isSome_iff_exists.mp hsi
  rw [plotPtr_eq_some _ r hr, plotPtr_eq_some _ q hq]
  intro heq
  exact hik (h.inj k i r q hk hi hr hq (Option.some.inj heq))

theorem mem_eraseD_of_ne {l : List (Option Nat)} {a b : Option Nat} (h : a ≠ b) :
    a ∈ @List.erase (Option Nat) instBEqOfDecidableEq l b ↔ a ∈ l :=
  @List.mem_erase_of_ne (Option Nat) instBEqOfDecidableEq inferInstance a b l h

theorem nodup_mem_eraseD_iff {l : List (Option Nat)} {a b : Option Nat} (h : l.Nodup) :
    a ∈ @List.erase (Option Nat) instBEqOfDecidableEq l b ↔ a ≠ b ∧ a ∈ l :=
  @List.Nodup.mem_erase_iff (Option Nat) instBEqOfDecidableEq l b inferInstance a h

theorem nodup_eraseD {l : List (Option Nat)} (b : Option Nat) (h : l.Nodup) :
    (@List.erase (Option Nat) instBEqOfDecidableEq l b).Nodup :=
  @List.Nodup.erase (Option Nat) instBEqOfDecidableEq l inferInstance b h

theorem mem_of_mem_eraseD {l : List (Option Nat)} {a b : Option Nat}
    (h : a ∈ @List.erase (Option Nat) instBEqOfDecidableEq l b) : a ∈ l :=
  @List.mem_of_mem_erase (Option Nat) instBEqOfDecidableEq a b l h

/-- Clearing a checked row and hiding its plot keeps the checkbox invariant. -/
theorem mirror_hide {s : wxDVDCCtrl} (h : Mirror s) (i : Nat) (hi : i < s.m_plots.length)
    (hsel : s.m_dataSelector.IsSelected i = true) (l2 : wxDVSelectionListCtrl)
    (hv : l2.values = s.m_dataSelector.values.set i false) :
    Mirror (RefreshDisabledCheckBoxes (hideCore { s with m_dataSelector := l2 } i)) := by
  have hheap1 : HeapOk { s with m_dataSelector := l2 } := heapOk_of_eq h.heap rfl rfl
  have hshown_i : s.plotShown i := (h.mirror i hi).mp hsel
  rw [plotShown_iff] at hshown_i
  have hlenS : i < s.m_dataSelector.Length := by rw [h.len]; exact hi
  have hsel2 : ∀ k, l2.IsSelected k = true ↔ (k ≠ i ∧ s.m_dataSelector.IsSelected k = true) := by
    intro k
    rw [IsSelected_of_values_set _ _ i false hv]
    by_cases hki : k = i
    · subst hki; simp [hlenS]
    · simp [hki]
  have hperm : (surfacePtrs (hideCore { s with m_dataSelector := l2 } i).m_plotSurface).Perm
      (@List.erase (Option Nat) instBEqOfDecidableEq (surfacePtrs s.m_plotSurface)
        (s.plotAt i).plotPtr) := by
    rcases hideCore_ptrs { s with m_dataSelector := l2 } i with hp | hp
    · rw [hp, surfacePtrs_RemovePlot]
      exact List.Perm.refl _
    · rw [hp]
      have := moveLeft_foldl_perm l2.GetSelectionsInCol
        (s.m_plots, ((s.m_plotSurface.RemovePlot (s.plotAt i).plotPtr).SetYAxis1 none).SetYAxis2
          none) (by
          intro k hk
          have hk2 := (hsel2 k).mp (mem_GetSelectionsInCol.mp hk)
          have hkn : k < s.m_plots.length := by
            rw [← h.len]; exact IsSelected_lt_Length hk2.2
          have hshown_k := (h.mirror k hkn).mp hk2.2
          rw [plotShown_iff] at hshown_k
          show (s.plotAt k).plotPtr ∈ surfacePtrs (s.m_plotSurface.RemovePlot (s.plotAt i).plotPtr)
          rw [surfacePtrs_RemovePlot]
          exact (mem_eraseD_of_ne
            (ptr_ne_of_ne h.heap i k hi hkn hk2.1 hshown_i.1 hshown_k.1)).mpr hshown_k.2)
      refine this.trans ?_
      show (surfacePtrs (s.m_plotSurface.RemovePlot (s.plotAt i).plotPtr)).Perm _
      rw [surfacePtrs_RemovePlot]
  refine ⟨heapOk_refresh (heapOk_hideCore hheap1 i), ?_, ?_, ?_, ?_⟩
  · rw [Length_congr (RefreshDisabledCheckBoxes_values _), hideCore_selector,
      RefreshDisabledCheckBoxes_plots, hideCore_length]
    exact (Length_of_values_set _ _ i false hv).trans h.len
  · intro k hk
    rw [RefreshDisabledCheckBoxes_plots, hideCore_length] at hk
    have hk : k < s.m_plots.length := hk
    rw [IsSelected_congr (RefreshDisabledCheckBoxes_values _), hideCore_selector, hsel2,
      plotShown_iff, RefreshDisabledCheckBoxes_plotAt, RefreshDisabledCheckBoxes_surface,
      hperm.mem_iff, nodup_mem_eraseD_iff h.nodup,
      plotPtr_congr (hideCore_plotAt { s with m_dataSelector := l2 } i k).1,
      (hideCore_plotAt { s with m_dataSelector := l2 } i k).1]
    show _ ↔ (s.plotAt k).plot.isSome = true ∧
      ((s.plotAt k).plotPtr ≠ (s.plotAt i).plotPtr ∧
        (s.plotAt k).plotPtr ∈ surfacePtrs s.m_plotSurface)
    rw [h.mirror k hk, plotShown_iff]
    constructor
    · rintro ⟨hki, h1, h2⟩
      exact ⟨h1, ptr_ne_of_ne h.heap i k hi hk hki hshown_i.1 h1, h2⟩
    · rintro ⟨h1, hne, h2⟩
      refine ⟨?_, h1, h2⟩
      intro hki
      subst hki
      exact hne rfl
  · rw [RefreshDisabledCheckBoxes_surface]
    exact hperm.nodup_iff.mpr (nodup_eraseD _ h.nodup)
  · intro p hp
    rw [RefreshDisabledCheckBoxes_surface] at hp
    rw [RefreshDisabledCheckBoxes_heap, hideCore_heap]
    exact h.bound p (mem_of_mem_eraseD (hperm.mem_iff.mp hp))

end wxDVDCCtrl

namespace wxDVDCCtrl

open wxPLPlotCtrl wxDVSelectionListCtrl

theorem toggle_some (l l2 : wxDVSelectionListCtrl) (row : Nat) (h : l.toggle row = some l2) :
    row < l.Length ∧ l.IsEnabled row = true ∧
      l2.values = l.values.set row (!l.IsSelected row) ∧
      l2.m_lastEventRow = (row : Int) ∧ l2.m_lastEventValue = !l.IsSelected row := by
  unfold toggle at h
  cases hr : l.m_itemList[row]? with
  | none => rw [hr] at h; exact Option.noConfusion h
  | some r =>
    rw [hr] at h
    simp only at h
    have hlt : row < l.m_itemList.length := by
      by_contra hge
      rw [List.getElem?_eq_none (by omega)] at hr
      exact Option.noConfusion hr
    split at h
    · rename_i hen
      cases h
      refine ⟨hlt, ?_, ?_, rfl, ?_⟩
      · unfold IsEnabled; rw [hr]; exact hen
      · unfold values IsSelected
        rw [hr]
        simp only [List.map_set]
      · unfold IsSelected; rw [hr]
    · exact Option.noConfusion h

theorem mirror_select {s : wxDVDCCtrl} (h : Mirror s) (index : Int)
    (hok : okMirror s (.selectDataSetAtIndex index) = true) :
    Mirror (SelectDataSetAtIndex s index) := by
  unfold SelectDataSetAtIndex
  split
  · exact h
  · rename_i hin
    have h0 : 0 ≤ index := by omega
    have h1 : index < (s.m_plots.length : Int) := by omega
    rw [ShowPlotAtIndex_inRange
      { s with m_dataSelector := s.m_dataSelector.SelectRowInCol index.toNat true } index h0 h1]
    apply mirror_show h index.toNat (by omega) _ _ (SelectRowInCol_values _ _ _)
    simp only [okMirror, Bool.not_eq_true', Bool.and_eq_false_iff, decide_eq_false_iff_not] at hok
    rcases hok with hok | hok
    · exact absurd h0 hok
    · exact hok

theorem mirror_namesStep {s : wxDVDCCtrl} (h : Mirror s) (r : Bool) (t : String)
    (hok : (match findLabel t s.m_dataSelector.m_itemList 0 with
      | some i =>
        !s.m_dataSelector.IsSelected i &&
          !(r && decide ((s.plotAt i).dataset.Length > 8760 * 2))
      | none => true) = true) :
    Mirror (setSelectedNamesStep r s t) := by
  unfold setSelectedNamesStep SelectRowWithNameInCol
  cases hf : findLabel t s.m_dataSelector.m_itemList 0 with
  | none => simpa using h
  | some i =>
    rw [hf] at hok
    simp only [Bool.and_eq_true, Bool.not_eq_true', Bool.and_eq_false_iff,
      decide_eq_false_iff_not] at hok
    have hi : i < s.m_plots.length := by
      have := (findLabel_lt _ _ _ _ hf).2
      rw [← h.len]
      simpa [Length] using this
    have hnat : ((i : Int)).toNat = i := Int.toNat_ofNat i
    have hsmall : ¬ (r = true ∧ (s.plotAt i).dataset.Length > 8760 * 2) := by
      rintro ⟨h1, h2⟩
      rcases hok.2 with h3 | h3
      · rw [h1] at h3; exact Bool.noConfusion h3
      · exact h3 h2
    have hne : ((i : Int)) ≠ -1 := by omega
    simp only [hne, ne_eq, not_false_eq_true, if_true, hnat]
    have hsmall2 : ¬ (r = true ∧
        (plotAt { s with m_dataSelector := s.m_dataSelector.SelectRowInCol i true } i).dataset.Length
          > 8760 * 2) := hsmall
    rw [if_pos hsmall2]
    rw [ShowPlotAtIndex_inRange
      { s with m_dataSelector := s.m_dataSelector.SelectRowInCol i true } (i : Int) (by omega) (by
      show (i : Int) < (s.m_plots.length : Int)
      omega), hnat]
    exact mirror_show h i hi hok.1 _ (SelectRowInCol_values _ _ _)

theorem mirror_names (r : Bool) (toks : List String) {s : wxDVDCCtrl} (h : Mirror s)
    (hok : namesOk r s toks = true) :
    Mirror (toks.foldl (setSelectedNamesStep r) s) := by
  induction toks generalizing s with
  | nil => exact h
  | cons t ts ih =>
    rw [List.foldl_cons]
    unfold namesOk at hok
    rw [Bool.and_eq_true] at hok
    exact ih (mirror_namesStep h r t hok.1) hok.2

theorem mirror_click {s : wxDVDCCtrl} (h : Mirror s) (row : Nat) :
    Mirror (checkBoxClick s row) := by
  unfold checkBoxClick
  cases ht : s.m_dataSelector.toggle row with
  | none => exact h
  | some l2 =>
    obtain ⟨hlt, _, hv, hrow, hval⟩ := toggle_some _ _ _ ht
    have hi : row < s.m_plots.length := by rw [← h.len]; exact hlt
    have hnat : ((row : Int)).toNat = row := Int.toNat_ofNat row
    simp only
    unfold OnDataChannelSelection
    simp only [hrow, hval]
    cases hs : s.m_dataSelector.IsSelected row with
    | false =>
      rw [hs] at hv
      simp only [Bool.not_false, if_true]
      rw [ShowPlotAtIndex_inRange { s with m_dataSelector := l2 } (row : Int) (by omega) (by
        show (row : Int) < (s.m_plots.length : Int)
        omega), hnat]
      exact mirror_show h row hi hs l2 hv
    | true =>
      rw [hs] at hv
      simp only [Bool.not_true, Bool.false_eq_true, if_false]
      rw [HidePlotAtIndex_inRange { s with m_dataSelector := l2 } (row : Int) (by omega) (by
        show (row : Int) < (s.m_plots.length : Int)
        omega), hnat]
      exact mirror_hide h row hi hs l2 hv

theorem mirror_apply {s : wxDVDCCtrl} (h : Mirror s) (op : Op) (hok : okMirror s op = true) :
    Mirror (Op.apply s op) := by
  cases op with
  | addDataSet d => exact mirror_addDataSet h d
  | selectDataSetAtIndex index => exact mirror_select h index hok
  | setSelectedNames names r => exact mirror_names r _ h hok
  | checkBoxClick row => exact mirror_click h row
  | showPlotAtIndex index => exact absurd hok (by simp [okMirror])
  | hidePlotAtIndex index => exact absurd hok (by simp [okMirror])

theorem mirror_run (ops : List Op) {s : wxDVDCCtrl} (h : Mirror s)
    (hok : admissible okMirror s ops = true) : Mirror (run s ops) := by
  induction ops generalizing s with
  | nil => exact h
  | cons op ops ih =>
    unfold admissible at hok
    rw [Bool.and_eq_true] at hok
    exact ih (mirror_apply h op hok.1) hok.2

end wxDVDCCtrl

namespace wxDVDCCtrl

open wxPLPlotCtrl wxDVSelectionListCtrl

/-! ## C2: the checkboxes mirror the shown plots -/

/-- C2, amended: in every state reached from a new control by `AddDataSet`, checkbox
clicks, and `SelectDataSetAtIndex` and `SetSelectedNames` applied to rows that are not
checked when they are named (with `restrictToSmallDataSets` only naming datasets of at
most `8760 * 2` points), row `i` is checked in column 0 exactly when the plot of
`m_plots[i]` exists and is attached to the plot surface. -/
theorem checkbox_mirrors_shown_plots (ops : List Op)
    (hok : admissible okMirror wxDVDCCtrl.new ops = true) (i : Nat) :
    (run wxDVDCCtrl.new ops).m_dataSelector.IsSelected i = true ↔
      (run wxDVDCCtrl.new ops).plotShown i := by
  have h := mirror_run ops mirror_new hok
  by_cases hi : i < (run wxDVDCCtrl.new ops).m_plots.length
  · exact h.mirror i hi
  · constructor
    · intro hsel
      have := IsSelected_lt_Length hsel
      rw [h.len] at this
      exact absurd this hi
    · intro hshown
      unfold plotShown at hshown
      rw [plotAt_of_ge _ _ (Nat.le_of_not_lt hi)] at hshown
      exact absurd hshown.1 (by decide)

/-- C2, amended, at a sample sequence of operations, for row 1. -/
theorem checkbox_mirrors_shown_plots_witness :
    admissible okMirror wxDVDCCtrl.new sampleOps = true ∧
    ((run wxDVDCCtrl.new sampleOps).m_dataSelector.IsSelected 1 = true ↔
      (run wxDVDCCtrl.new sampleOps).plotShown 1) :=
  ⟨by decide, checkbox_mirrors_shown_plots sampleOps (by decide) 1⟩

/-- C2 fails as stated.  After `AddDataSet` of a dataset of 17521 points and
`SetSelectedNames` of its name with `restrictToSmallDataSets`, row 0 is checked, the plot
set of row 0 has no plot, and no plot of row 0 is shown. -/
theorem checkbox_mirror_counterexample :
    (run wxDVDCCtrl.new
        [.addDataSet sampleBig, .setSelectedNames "Load (kW)" true]).m_dataSelector.IsSelected 0
        = true ∧
    ((run wxDVDCCtrl.new
        [.addDataSet sampleBig, .setSelectedNames "Load (kW)" true]).plotAt 0).plot.isSome
        = false ∧
    ¬ (run wxDVDCCtrl.new
        [.addDataSet sampleBig, .setSelectedNames "Load (kW)" true]).plotShown 0 := by
  rw [run_big_restricted]
  decide

/-- A row shown twice stays shown after its checkbox is cleared: after
`SelectDataSetAtIndex(0)` twice the surface holds the plot of row 0 twice, and the click
that clears row 0 removes it once. -/
theorem shown_twice_stays_attached :
    (run wxDVDCCtrl.new
        [.addDataSet sampleKW, .selectDataSetAtIndex 0, .selectDataSetAtIndex 0,
          .checkBoxClick 0]).m_dataSelector.IsSelected 0 = false ∧
    (run wxDVDCCtrl.new
        [.addDataSet sampleKW, .selectDataSetAtIndex 0, .selectDataSetAtIndex 0,
          .checkBoxClick 0]).plotShown 0 := by
  decide

end wxDVDCCtrl

namespace wxDVDCCtrl

open wxPLPlotCtrl wxDVSelectionListCtrl

/-! ## C3: the Y axes and the units of the shown plots -/

theorem y1Units_of_some (c : wxPLPlotCtrl) (a : wxPLAxis) (h : c.GetAxis AxisPos.Y_LEFT = some a) :
    y1Units c = a.units := by
  unfold y1Units GetYAxis1; rw [h]

theorem y2Units_of_some (c : wxPLPlotCtrl) (a : wxPLAxis) (h : c.GetAxis AxisPos.Y_RIGHT = some a) :
    y2Units c = a.units := by
  unfold y2Units GetYAxis2; rw [h]

theorem y1Units_of_none (c : wxPLPlotCtrl) (h : c.GetAxis AxisPos.Y_LEFT = none) :
    y1Units c = NO_UNITS := by
  unfold y1Units GetYAxis1; rw [h]

theorem y2Units_of_none (c : wxPLPlotCtrl) (h : c.GetAxis AxisPos.Y_RIGHT = none) :
    y2Units c = NO_UNITS := by
  unfold y2Units GetYAxis2; rw [h]

/-- The surface `HidePlotAtIndex` builds when it does not move the right axis to the left:
the plot of the index is removed, the Y axes keep their units, the left axis is dropped
when no selected row has its units and the right axis unless both have a selected row. -/
theorem hideCore_keep (s : wxDVDCCtrl) (i : Nat)
    (hnot : ¬ ((hideCounts s (y1Units s.m_plotSurface) (y2Units s.m_plotSurface)
        s.m_dataSelector.GetSelectionsInCol).NumY1AxisSelections = 0 ∧
      0 < (hideCounts s (y1Units s.m_plotSurface) (y2Units s.m_plotSurface)
        s.m_dataSelector.GetSelectionsInCol).NumY2AxisSelections)) :
    (hideCore s i).m_plots = s.m_plots ∧
    (hideCore s i).m_plotSurface.m_plots =
      (s.m_plotSurface.RemovePlot (s.plotAt i).plotPtr).m_plots ∧
    ((hideCore s i).m_plotSurface.GetAxis AxisPos.Y_LEFT).map (fun a => a.units) =
      (if 0 < (hideCounts s (y1Units s.m_plotSurface) (y2Units s.m_plotSurface)
          s.m_dataSelector.GetSelectionsInCol).NumY1AxisSelections
        then (s.m_plotSurface.GetAxis AxisPos.Y_LEFT).map (fun a => a.units) else none) ∧
    ((hideCore s i).m_plotSurface.GetAxis AxisPos.Y_RIGHT).map (fun a => a.units) =
      (if 0 < (hideCounts s (y1Units s.m_plotSurface) (y2Units s.m_plotSurface)
            s.m_dataSelector.GetSelectionsInCol).NumY1AxisSelections ∧
          0 < (hideCounts s (y1Units s.m_plotSurface) (y2Units s.m_plotSurface)
            s.m_dataSelector.GetSelectionsInCol).NumY2AxisSelections
        then (s.m_plotSurface.GetAxis AxisPos.Y_RIGHT).map (fun a => a.units) else none) := by
  generalize hn : hideCounts s (y1Units s.m_plotSurface) (y2Units s.m_plotSurface)
        s.m_dataSelector.GetSelectionsInCol = n at hnot
  unfold hideCore
  simp only [y1Units_RemovePlot, y2Units_RemovePlot, hn, gt_iff_lt]
  by_cases h1 : 0 < n.NumY1AxisSelections
  · simp only [h1, if_true, true_and]
    by_cases h2 : 0 < n.NumY2AxisSelections
    · simp only [h2, if_true]
      cases hl : s.m_plotSurface.GetAxis AxisPos.Y_LEFT <;>
        cases hr : s.m_plotSurface.GetAxis AxisPos.Y_RIGHT <;>
        simp [hl, hr, GetAxis_SetLabel, GetAxis_SetUnits, y1Units_of_some, y2Units_of_some]
    · simp only [h2, if_false]
      cases hl : s.m_plotSurface.GetAxis AxisPos.Y_LEFT <;>
        simp [hl, GetAxis_SetLabel, GetAxis_SetUnits, GetAxis_SetYAxis2, SetYAxis2,
          y1Units_of_some]
  · have h2 : ¬ 0 < n.NumY2AxisSelections := by
      intro h2
      exact hnot ⟨by omega, h2⟩
    simp [h1, h2, GetAxis_SetYAxis1, GetAxis_SetYAxis2, SetYAxis1, SetYAxis2]

end wxDVDCCtrl

namespace wxDVDCCtrl

open wxPLPlotCtrl wxDVSelectionListCtrl

theorem hideCounts_pos_iff (s : wxDVDCCtrl) (u1 u2 : String) (rows : List Nat) :
    (0 < (hideCounts s u1 u2 rows).NumY1AxisSelections ↔ ∃ k ∈ rows, s.unitsAt k = u1) ∧
    (0 < (hideCounts s u1 u2 rows).NumY2AxisSelections ↔ ∃ k ∈ rows, s.unitsAt k = u2) := by
  obtain ⟨h1, h2⟩ := hideCounts_num s u1 u2 rows
  rw [h1, h2]
  constructor
  · rw [List.length_pos, ne_eq, List.filter_eq_nil_iff]
    simp
  · rw [List.length_pos, ne_eq, List.filter_eq_nil_iff]
    simp

theorem isSome_plot_lt (s : wxDVDCCtrl) (i : Nat) (h : (s.plotAt i).plot.isSome = true) :
    i < s.m_plots.length := by
  by_contra hge
  rw [plotAt_of_ge _ _ (Nat.le_of_not_lt hge)] at h
  exact absurd h (by decide)

theorem moveLeftStep_entries (a : List PlotSet × wxPLPlotCtrl) (r : Nat) :
    (moveLeftStep a r).2.m_plots =
      (a.2.RemovePlot (a.1.getD r default).plotPtr).m_plots ++
        [plot_data.mk (a.1.getD r default).plotPtr AxisPos.X_BOTTOM AxisPos.Y_LEFT] := by
  unfold moveLeftStep
  simp

theorem plot_ne_of_mem_RemovePlot (c : wxPLPlotCtrl) (p : Option Nat)
    (hnd : (surfacePtrs c).Nodup) (e : plot_data) (he : e ∈ (c.RemovePlot p).m_plots) :
    e.plot ≠ p := by
  have hmem : e.plot ∈ surfacePtrs (c.RemovePlot p) := List.mem_map_of_mem _ he
  rw [surfacePtrs_RemovePlot] at hmem
  exact ((nodup_mem_eraseD_iff hnd).mp hmem).1

theorem mem_of_mem_RemovePlot (c : wxPLPlotCtrl) (p : Option Nat) (e : plot_data)
    (he : e ∈ (c.RemovePlot p).m_plots) : e ∈ c.m_plots :=
  List.mem_of_mem_eraseP he

theorem moveLeftStep_nodup (a : List PlotSet × wxPLPlotCtrl) (r : Nat)
    (hnd : (surfacePtrs a.2).Nodup) : (surfacePtrs (moveLeftStep a r).2).Nodup := by
  rw [moveLeftStep_ptrs]
  apply List.Nodup.append (nodup_eraseD _ hnd) (List.nodup_singleton _)
  intro p hp1 hp2
  rw [List.mem_singleton] at hp2
  exact ((nodup_mem_eraseD_iff hnd).mp hp1).1 hp2

/-- The loop that moves the shown plots to the left axis leaves every plot on the left
axis, when the surface holds each plot once and holds plots of the rows of the loop only. -/
theorem moveLeft_foldl_left (rows : List Nat) (a : List PlotSet × wxPLPlotCtrl)
    (hnd : (surfacePtrs a.2).Nodup)
    (h : ∀ e ∈ a.2.m_plots, e.yap = AxisPos.Y_LEFT ∨
      ∃ k ∈ rows, e.plot = (a.1.getD k default).plotPtr) :
    ∀ e ∈ (rows.foldl moveLeftStep a).2.m_plots, e.yap = AxisPos.Y_LEFT := by
  induction rows generalizing a with
  | nil =>
    intro e he
    rcases h e he with h1 | ⟨k, hk, _⟩
    · exact h1
    · exact absurd hk (List.not_mem_nil _)
  | cons r rows ih =>
    rw [List.foldl_cons]
    apply ih (moveLeftStep a r) (moveLeftStep_nodup a r hnd)
    intro e he
    rw [moveLeftStep_entries] at he
    rcases List.mem_append.mp he with he | he
    · rcases h e (mem_of_mem_RemovePlot _ _ e he) with h1 | ⟨k, hk, hp⟩
      · exact Or.inl h1
      · rcases List.mem_cons.mp hk with hkr | hkr
        · rw [hkr] at hp
          exact absurd hp (plot_ne_of_mem_RemovePlot _ _ hnd e he)
        · refine Or.inr ⟨k, hkr, ?_⟩
          have := (moveLeft_foldl_plotPtr [r] a k).1
          simp only [List.foldl_cons, List.foldl_nil] at this
          rw [this]
          exact hp
    · rw [List.mem_singleton] at he
      rw [he]
      exact Or.inl rfl

/-- What the surface holds after the loop that moves the shown plots to the left axis:
what it held before and the plots of the rows of the loop. -/
theorem moveLeft_foldl_from (rows : List Nat) (a : List PlotSet × wxPLPlotCtrl) :
    ∀ e ∈ (rows.foldl moveLeftStep a).2.m_plots,
      (∃ e0 ∈ a.2.m_plots, e0.plot = e.plot) ∨
        ∃ k ∈ rows, e.plot = (a.1.getD k default).plotPtr := by
  induction rows generalizing a with
  | nil =>
    intro e he
    exact Or.inl ⟨e, he, rfl⟩
  | cons r rows ih =>
    rw [List.foldl_cons]
    intro e he
    rcases ih (moveLeftStep a r) e he with ⟨e0, he0, hp⟩ | ⟨k, hk, hp⟩
    · rw [moveLeftStep_entries] at he0
      rcases List.mem_append.mp he0 with he0 | he0
      · exact Or.inl ⟨e0, mem_of_mem_RemovePlot _ _ e0 he0, hp⟩
      · rw [List.mem_singleton] at he0
        refine Or.inr ⟨r, List.mem_cons_self _ _, ?_⟩
        rw [← hp, he0]
    · refine Or.inr ⟨k, List.mem_cons_of_mem _ hk, ?_⟩
      have := (moveLeft_foldl_plotPtr [r] a k).1
      simp only [List.foldl_cons, List.foldl_nil] at this
      rw [← this]
      exact hp

theorem othersChecked_spec (s : wxDVDCCtrl) (i : Nat) (hok : othersChecked s i = true) :
    (∀ e ∈ (s.m_plotSurface.RemovePlot (s.plotAt i).plotPtr).m_plots,
      ∃ k, s.m_dataSelector.IsSelected k = true ∧ e.plot = (s.plotAt k).plotPtr) ∧
    (surfacePtrs (s.m_plotSurface.RemovePlot (s.plotAt i).plotPtr)).Nodup := by
  unfold othersChecked at hok
  simp only [Bool.and_eq_true, List.all_eq_true, List.any_eq_true, decide_eq_true_eq] at hok
  refine ⟨?_, hok.2⟩
  intro e he
  obtain ⟨k, hk, hp⟩ := hok.1 e he
  exact ⟨k, mem_GetSelectionsInCol.mp hk, hp⟩

end wxDVDCCtrl

namespace wxDVDCCtrl

open wxPLPlotCtrl wxDVSelectionListCtrl

theorem chooseYap_fit (c : wxPLPlotCtrl) (u : String)
    (hfit : (decide (c.GetYAxis1.map (fun a => a.units) = some u) ||
      decide (c.GetYAxis2.map (fun a => a.units) = some u) ||
      c.GetYAxis1.isNone || c.GetYAxis2.isNone) = true) :
    c.GetAxis (chooseYap c u) = none ∨ ∃ a, c.GetAxis (chooseYap c u) = some a ∧ a.units = u := by
  rw [chooseYap_eq]
  unfold GetYAxis1 GetYAxis2 at *
  cases hl : c.GetAxis AxisPos.Y_LEFT with
  | none =>
    cases hr : c.GetAxis AxisPos.Y_RIGHT with
    | none => simp [hl]
    | some ar =>
      by_cases hru : ar.units = u
      · simp [hru, hr]
      · simp [hru, hl]
  | some al =>
    by_cases hlu : al.units = u
    · simp [hlu, hl]
    · cases hr : c.GetAxis AxisPos.Y_RIGHT with
      | none => simp [hlu, hr]
      | some ar =>
        by_cases hru : ar.units = u
        · simp [hlu, hru, hr]
        · rw [hl, hr] at hfit
          simp [hlu, hru] at hfit

theorem showCore_axis_other (s : wxDVDCCtrl) (i : Nat) (pos : AxisPos)
    (hpos : pos = AxisPos.Y_LEFT ∨ pos = AxisPos.Y_RIGHT)
    (hne : pos ≠ chooseYap s.m_plotSurface (s.unitsAt i)) :
    (showCore s i).m_plotSurface.GetAxis pos = s.m_plotSurface.GetAxis pos := by
  rw [showCore_surface]
  have hx : pos ≠ AxisPos.X_BOTTOM := by
    rcases hpos with h | h <;> rw [h] <;> decide
  simp only [GetAxis_SetLabel, GetAxis_SetUnits, GetAxis_AddPlot, hx, hne, if_false, false_or,
    false_and]

theorem showCore_entries (s : wxDVDCCtrl) (i : Nat) :
    (showCore s i).m_plotSurface.m_plots = s.m_plotSurface.m_plots ++
      [plot_data.mk (shownPlotSet s i).plotPtr AxisPos.X_BOTTOM
        (chooseYap s.m_plotSurface (s.unitsAt i))] := by
  rw [showCore_surface]
  simp

theorem shownPlotSet_plotPtr_of_isSome (s : wxDVDCCtrl) (i : Nat)
    (h : (s.plotAt i).plot.isSome = true) :
    (shownPlotSet s i).plotPtr = (s.plotAt i).plotPtr := by
  obtain ⟨r, hr⟩ := Option.isSome_iff_exists.mp h
  obtain ⟨q0, hq0, ha0⟩ := shownPlotSet_plot s i
  rw [plotPtr_eq_some _ q0 hq0, plotPtr_eq_some _ r hr, ha0, hr]

end wxDVDCCtrl

namespace wxDVDCCtrl

open wxPLPlotCtrl wxDVSelectionListCtrl

/-- Hiding a plot keeps the axis invariant when the plots that stay on the surface are
plots of checked rows, each held once. -/
theorem axesOk_hide {s : wxDVDCCtrl} (h : AxesOk s) (i : Nat) (hok : othersChecked s i = true) :
    AxesOk (RefreshDisabledCheckBoxes (hideCore s i)) := by
  obtain ⟨hcov, hnd⟩ := othersChecked_spec s i hok
  obtain ⟨hp1, hp2⟩ := hideCounts_pos_iff s (y1Units s.m_plotSurface) (y2Units s.m_plotSurface)
    s.m_dataSelector.GetSelectionsInCol
  -- the units of a checked row are counted for the axis that carries them
  have hselAxis : ∀ k, s.m_dataSelector.IsSelected k = true →
      (∃ a, s.m_plotSurface.GetAxis AxisPos.Y_LEFT = some a ∧ a.units = s.unitsAt k ∧
        0 < (hideCounts s (y1Units s.m_plotSurface) (y2Units s.m_plotSurface)
          s.m_dataSelector.GetSelectionsInCol).NumY1AxisSelections) ∨
      (∃ a, s.m_plotSurface.GetAxis AxisPos.Y_RIGHT = some a ∧ a.units = s.unitsAt k ∧
        0 < (hideCounts s (y1Units s.m_plotSurface) (y2Units s.m_plotSurface)
          s.m_dataSelector.GetSelectionsInCol).NumY2AxisSelections) := by
    intro k hk
    obtain ⟨yap, hyap, a, ha, hu⟩ := h.checked k hk
    rcases hyap with hy | hy
    · rw [hy] at ha
      exact Or.inl ⟨a, ha, hu, hp1.mpr ⟨k, mem_GetSelectionsInCol.mpr hk,
        by rw [y1Units_of_some _ a ha]; exact hu.symm⟩⟩
    · rw [hy] at ha
      exact Or.inr ⟨a, ha, hu, hp2.mpr ⟨k, mem_GetSelectionsInCol.mpr hk,
        by rw [y2Units_of_some _ a ha]; exact hu.symm⟩⟩
  -- what stays on the surface belongs to a checked row and sits on the axis of its units
  have hentry : ∀ e ∈ (s.m_plotSurface.RemovePlot (s.plotAt i).plotPtr).m_plots,
      ∃ k, s.m_dataSelector.IsSelected k = true ∧ e.plot = (s.plotAt k).plotPtr ∧
        (e.yap = AxisPos.Y_LEFT ∨ e.yap = AxisPos.Y_RIGHT) ∧
        ∃ a, s.m_plotSurface.GetAxis e.yap = some a ∧ a.units = s.unitsAt k := by
    intro e he
    obtain ⟨k, hk, hpk⟩ := hcov e he
    obtain ⟨j, hj, hpj, hyap, a, ha, hu⟩ := h.entries e (mem_of_mem_RemovePlot _ _ e he)
    have hksome := h.computed k hk
    have hjk : j = k := by
      by_contra hne
      exact ptr_ne_of_ne h.heap k j (isSome_plot_lt s k hksome) (isSome_plot_lt s j hj) hne
        hksome hj (hpj.symm.trans hpk)
    rw [hjk] at hu
    exact ⟨k, hk, hpk, hyap, a, ha, hu⟩
  have hsel : ∀ k, (RefreshDisabledCheckBoxes (hideCore s i)).m_dataSelector.IsSelected k
      = s.m_dataSelector.IsSelected k := by
    intro k
    rw [IsSelected_congr (RefreshDisabledCheckBoxes_values _), hideCore_selector]
  have hplot : ∀ k, ((RefreshDisabledCheckBoxes (hideCore s i)).plotAt k).plot
      = (s.plotAt k).plot := by
    intro k
    rw [RefreshDisabledCheckBoxes_plotAt]
    exact (hideCore_plotAt s i k).1
  have hptr : ∀ k, ((RefreshDisabledCheckBoxes (hideCore s i)).plotAt k).plotPtr
      = (s.plotAt k).plotPtr := fun k => plotPtr_congr (hplot k)
  have hunits : ∀ k, (RefreshDisabledCheckBoxes (hideCore s i)).unitsAt k = s.unitsAt k := by
    intro k
    unfold unitsAt
    rw [RefreshDisabledCheckBoxes_plotAt, (hideCore_plotAt s i k).2]
  have hheap := heapOk_refresh (heapOk_hideCore h.heap i)
  have hlen : (RefreshDisabledCheckBoxes (hideCore s i)).m_dataSelector.Length =
      (RefreshDisabledCheckBoxes (hideCore s i)).m_plots.length := by
    rw [Length_congr (RefreshDisabledCheckBoxes_values _), hideCore_selector,
      RefreshDisabledCheckBoxes_plots, hideCore_length]
    exact h.len
  have hcomp : ∀ k, (RefreshDisabledCheckBoxes (hideCore s i)).m_dataSelector.IsSelected k = true →
      ((RefreshDisabledCheckBoxes (hideCore s i)).plotAt k).plot.isSome = true := by
    intro k hk
    rw [hsel] at hk
    rw [hplot]
    exact h.computed k hk
  by_cases hmove : (hideCounts s (y1Units s.m_plotSurface) (y2Units s.m_plotSurface)
        s.m_dataSelector.GetSelectionsInCol).NumY1AxisSelections = 0 ∧
      0 < (hideCounts s (y1Units s.m_plotSurface) (y2Units s.m_plotSurface)
        s.m_dataSelector.GetSelectionsInCol).NumY2AxisSelections
  · -- the right axis moves to the left
    have hno1 : ∀ k ∈ s.m_dataSelector.GetSelectionsInCol,
        s.unitsAt k ≠ y1Units s.m_plotSurface := by
      intro k hk hu
      have := hp1.mpr ⟨k, hk, hu⟩
      omega
    have hsome2 := hp2.mp hmove.2
    obtain ⟨lbl, _, _, hsurf⟩ := hideCore_move s i hno1 hsome2
    have hne : s.m_dataSelector.GetSelectionsInCol ≠ [] := by
      obtain ⟨k, hk, _⟩ := hsome2
      exact List.ne_nil_of_mem hk
    -- a checked row has the units of the right axis
    have hu2 : ∀ k, s.m_dataSelector.IsSelected k = true →
        s.unitsAt k = y2Units s.m_plotSurface := by
      intro k hk
      rcases hselAxis k hk with ⟨_, _, _, hpos⟩ | ⟨a, ha, hu, _⟩
      · omega
      · rw [y2Units_of_some _ a ha, hu]
    have hleft : ∃ a, (RefreshDisabledCheckBoxes (hideCore s i)).m_plotSurface.GetAxis
        AxisPos.Y_LEFT = some a ∧ a.units = y2Units s.m_plotSurface := by
      rw [RefreshDisabledCheckBoxes_surface, hsurf]
      have hl := (moveLeft_foldl_axes s.m_dataSelector.GetSelectionsInCol
        (s.m_plots, ((s.m_plotSurface.RemovePlot (s.plotAt i).plotPtr).SetYAxis1
          none).SetYAxis2 none)).2.1 hne
      simp only [GetAxis_SetYAxis2, GetAxis_SetLabel, GetAxis_SetUnits]
      cases hax : (s.m_dataSelector.GetSelectionsInCol.foldl moveLeftStep
        (s.m_plots, ((s.m_plotSurface.RemovePlot (s.plotAt i).plotPtr).SetYAxis1
          none).SetYAxis2 none)).2.GetAxis AxisPos.Y_LEFT with
      | none => rw [hax] at hl; simp at hl
      | some ax => simp
    have hfinal : ∀ e ∈ (RefreshDisabledCheckBoxes (hideCore s i)).m_plotSurface.m_plots,
        e.yap = AxisPos.Y_LEFT ∧
          ∃ k, s.m_dataSelector.IsSelected k = true ∧ e.plot = (s.plotAt k).plotPtr := by
      intro e he
      rw [RefreshDisabledCheckBoxes_surface, hsurf] at he
      have he2 : e ∈ (s.m_dataSelector.GetSelectionsInCol.foldl moveLeftStep
          (s.m_plots, ((s.m_plotSurface.RemovePlot (s.plotAt i).plotPtr).SetYAxis1
            none).SetYAxis2 none)).2.m_plots := by
        simpa [SetYAxis2] using he
      constructor
      · apply moveLeft_foldl_left s.m_dataSelector.GetSelectionsInCol _ hnd _ e he2
        intro e0 he0
        obtain ⟨k, hk, hpk⟩ := hcov e0 he0
        exact Or.inr ⟨k, mem_GetSelectionsInCol.mpr hk, hpk⟩
      · rcases moveLeft_foldl_from s.m_dataSelector.GetSelectionsInCol _ e he2 with
          ⟨e0, he0, hp⟩ | ⟨k, hk, hp⟩
        · obtain ⟨k, hk, hpk⟩ := hcov e0 he0
          exact ⟨k, hk, hp.symm.trans hpk⟩
        · exact ⟨k, mem_GetSelectionsInCol.mp hk, hp⟩
    obtain ⟨al, hal, halu⟩ := hleft
    refine ⟨hheap, hlen, hcomp, ?_, ?_⟩
    · intro e he
      obtain ⟨hy, k, hk, hpk⟩ := hfinal e he
      refine ⟨k, ?_, ?_, Or.inl hy, al, ?_, ?_⟩
      · rw [hplot]; exact h.computed k hk
      · rw [hptr]; exact hpk
      · rw [hy]; exact hal
      · rw [hunits, halu, hu2 k hk]
    · intro k hk
      rw [hsel] at hk
      exact ⟨AxisPos.Y_LEFT, Or.inl rfl, al, hal, by rw [hunits, halu, hu2 k hk]⟩
  · -- the axes stay where they are
    obtain ⟨_, hentries, haxL, haxR⟩ := hideCore_keep s i hmove
    have hL : ∀ a, s.m_plotSurface.GetAxis AxisPos.Y_LEFT = some a →
        0 < (hideCounts s (y1Units s.m_plotSurface) (y2Units s.m_plotSurface)
          s.m_dataSelector.GetSelectionsInCol).NumY1AxisSelections →
        ∃ b, (RefreshDisabledCheckBoxes (hideCore s i)).m_plotSurface.GetAxis AxisPos.Y_LEFT
          = some b ∧ b.units = a.units := by
      intro a ha hpos
      rw [RefreshDisabledCheckBoxes_surface]
      rw [if_pos hpos, ha] at haxL
      cases hb : (hideCore s i).m_plotSurface.GetAxis AxisPos.Y_LEFT with
      | none => rw [hb] at haxL; exact Option.noConfusion haxL
      | some b =>
        rw [hb] at haxL
        exact ⟨b, rfl, Option.some.inj haxL⟩
    have hR : ∀ a, s.m_plotSurface.GetAxis AxisPos.Y_RIGHT = some a →
        0 < (hideCounts s (y1Units s.m_plotSurface) (y2Units s.m_plotSurface)
          s.m_dataSelector.GetSelectionsInCol).NumY2AxisSelections →
        ∃ b, (RefreshDisabledCheckBoxes (hideCore s i)).m_plotSurface.GetAxis AxisPos.Y_RIGHT
          = some b ∧ b.units = a.units := by
      intro a ha hpos
      have hpos1 : 0 < (hideCounts s (y1Units s.m_plotSurface) (y2Units s.m_plotSurface)
          s.m_dataSelector.GetSelectionsInCol).NumY1AxisSelections := by
        by_contra hz
        exact hmove ⟨by omega, hpos⟩
      rw [RefreshDisabledCheckBoxes_surface]
      rw [if_pos ⟨hpos1, hpos⟩, ha] at haxR
      cases hb : (hideCore s i).m_plotSurface.GetAxis AxisPos.Y_RIGHT with
      | none => rw [hb] at haxR; exact Option.noConfusion haxR
      | some b =>
        rw [hb] at haxR
        exact ⟨b, rfl, Option.some.inj haxR⟩
    have hkeep : ∀ k, s.m_dataSelector.IsSelected k = true →
        ∀ yap a, (yap = AxisPos.Y_LEFT ∨ yap = AxisPos.Y_RIGHT) →
        s.m_plotSurface.GetAxis yap = some a → a.units = s.unitsAt k →
        ∃ b, (RefreshDisabledCheckBoxes (hideCore s i)).m_plotSurface.GetAxis yap = some b ∧
          b.units = s.unitsAt k := by
      intro k hk yap a hyap ha hu
      rcases hyap with hy | hy
      · rw [hy] at ha ⊢
        obtain ⟨b, hb, hbu⟩ := hL a ha (hp1.mpr ⟨k, mem_GetSelectionsInCol.mpr hk,
          by rw [y1Units_of_some _ a ha]; exact hu.symm⟩)
        exact ⟨b, hb, hbu.trans hu⟩
      · rw [hy] at ha ⊢
        obtain ⟨b, hb, hbu⟩ := hR a ha (hp2.mpr ⟨k, mem_GetSelectionsInCol.mpr hk,
          by rw [y2Units_of_some _ a ha]; exact hu.symm⟩)
        exact ⟨b, hb, hbu.trans hu⟩
    refine ⟨hheap, hlen, hcomp, ?_, ?_⟩
    · intro e he
      rw [RefreshDisabledCheckBoxes_surface, hentries] at he
      obtain ⟨k, hk, hpk, hyap, a, ha, hu⟩ := hentry e he
      obtain ⟨b, hb, hbu⟩ := hkeep k hk e.yap a hyap ha hu
      exact ⟨k, by rw [hplot]; exact h.computed k hk, by rw [hptr]; exact hpk, hyap, b, hb,
        by rw [hunits]; exact hbu⟩
    · intro k hk
      rw [hsel] at hk
      obtain ⟨yap, hyap, a, ha, hu⟩ := h.checked k hk
      obtain ⟨b, hb, hbu⟩ := hkeep k hk yap a hyap ha hu
      exact ⟨yap, hyap, b, hb, by rw [hunits]; exact hbu⟩

end wxDVDCCtrl

namespace wxDVDCCtrl

open wxPLPlotCtrl wxDVSelectionListCtrl

/-- Showing the plot of a row whose units fit the axes keeps the axis invariant, whether
the row is checked, gets checked with the call, or is not checked. -/
theorem axesOk_show {s : wxDVDCCtrl} (h : AxesOk s) (i : Nat) (hi : i < s.m_plots.length)
    (l2 : wxDVSelectionListCtrl) (hlen : l2.Length = s.m_dataSelector.Length)
    (hsel : ∀ k, l2.IsSelected k = true → (k = i ∨ s.m_dataSelector.IsSelected k = true))
    (hfit : unitsFit s i = true) :
    AxesOk (RefreshDisabledCheckBoxes (showCore { s with m_dataSelector := l2 } i)) := by
  have hheap1 : HeapOk { s with m_dataSelector := l2 } := heapOk_of_eq h.heap rfl rfl
  have hunits : ∀ k, (RefreshDisabledCheckBoxes
      (showCore { s with m_dataSelector := l2 } i)).unitsAt k = s.unitsAt k := by
    intro k
    unfold unitsAt
    rw [RefreshDisabledCheckBoxes_plotAt]
    exact showCore_unitsAt { s with m_dataSelector := l2 } i k
  have hselr : ∀ k, (RefreshDisabledCheckBoxes
      (showCore { s with m_dataSelector := l2 } i)).m_dataSelector.IsSelected k = l2.IsSelected k := by
    intro k
    rw [IsSelected_congr (RefreshDisabledCheckBoxes_values _), showCore_selector]
  have hsome : ∀ k, (s.plotAt k).plot.isSome = true →
      ((RefreshDisabledCheckBoxes (showCore { s with m_dataSelector := l2 } i)).plotAt k).plot.isSome
        = true := by
    intro k hk
    rw [RefreshDisabledCheckBoxes_plotAt, showCore_plotAt]
    split
    · exact shownPlotSet_isSome _ _
    · exact hk
  have hptr : ∀ k, (s.plotAt k).plot.isSome = true →
      ((RefreshDisabledCheckBoxes (showCore { s with m_dataSelector := l2 } i)).plotAt k).plotPtr
        = (s.plotAt k).plotPtr := by
    intro k hk
    rw [RefreshDisabledCheckBoxes_plotAt, showCore_plotAt]
    split
    · rename_i hik
      rw [← hik.1] at hk ⊢
      exact shownPlotSet_plotPtr_of_isSome { s with m_dataSelector := l2 } i hk
    · rfl
  obtain ⟨anew, hanew, hanewu, _⟩ := showCore_axis { s with m_dataSelector := l2 } i
  have hanew : (showCore { s with m_dataSelector := l2 } i).m_plotSurface.GetAxis
      (chooseYap s.m_plotSurface (s.unitsAt i)) = some anew := hanew
  have hanewu : anew.units = s.unitsAt i := hanewu
  have hother : ∀ pos, (pos = AxisPos.Y_LEFT ∨ pos = AxisPos.Y_RIGHT) →
      pos ≠ chooseYap s.m_plotSurface (s.unitsAt i) →
      (showCore { s with m_dataSelector := l2 } i).m_plotSurface.GetAxis pos
        = s.m_plotSurface.GetAxis pos :=
    fun pos hpos hne => showCore_axis_other { s with m_dataSelector := l2 } i pos hpos hne
  have hfit2 := chooseYap_fit s.m_plotSurface (s.unitsAt i) hfit
  have hkeep : ∀ pos a, (pos = AxisPos.Y_LEFT ∨ pos = AxisPos.Y_RIGHT) →
      s.m_plotSurface.GetAxis pos = some a →
      ∃ b, (showCore { s with m_dataSelector := l2 } i).m_plotSurface.GetAxis pos = some b ∧
        b.units = a.units := by
    intro pos a hpos ha
    by_cases hp : pos = chooseYap s.m_plotSurface (s.unitsAt i)
    · rw [hp] at ha ⊢
      refine ⟨anew, hanew, ?_⟩
      rcases hfit2 with hnone | ⟨a2, ha2, ha2u⟩
      · rw [hnone] at ha; exact Option.noConfusion ha
      · rw [ha2] at ha
        cases ha
        rw [hanewu, ha2u]
    · exact ⟨a, (hother pos hpos hp).trans ha, rfl⟩
  refine ⟨heapOk_refresh (heapOk_showCore hheap1 i), ?_, ?_, ?_, ?_⟩
  · rw [Length_congr (RefreshDisabledCheckBoxes_values _), showCore_selector,
      RefreshDisabledCheckBoxes_plots, showCore_length]
    exact hlen.trans h.len
  · intro k hk
    rw [hselr] at hk
    rw [RefreshDisabledCheckBoxes_plotAt, showCore_plotAt]
    split
    · exact shownPlotSet_isSome _ _
    · rename_i hik
      rcases hsel k hk with hk | hk
      · exact absurd ⟨hk.symm, hi⟩ hik
      · exact h.computed k hk
  · intro e he
    rw [RefreshDisabledCheckBoxes_surface, showCore_entries] at he
    rw [RefreshDisabledCheckBoxes_surface]
    rcases List.mem_append.mp he with he | he
    · obtain ⟨k, hk, hp, hyap, a, ha, hu⟩ := h.entries e he
      obtain ⟨b, hb, hbu⟩ := hkeep e.yap a hyap ha
      refine ⟨k, hsome k hk, ?_, hyap, b, hb, ?_⟩
      · rw [hptr k hk]; exact hp
      · rw [hunits, hbu, hu]
    · rw [List.mem_singleton] at he
      subst he
      refine ⟨i, ?_, ?_, chooseYap_cases _ _, anew, hanew, ?_⟩
      · rw [RefreshDisabledCheckBoxes_plotAt,
          showCore_plotAt_self { s with m_dataSelector := l2 } i hi]
        exact shownPlotSet_isSome _ _
      · rw [RefreshDisabledCheckBoxes_plotAt,
          showCore_plotAt_self { s with m_dataSelector := l2 } i hi]
      · rw [hunits]; exact hanewu
  · intro k hk
    rw [hselr] at hk
    rw [RefreshDisabledCheckBoxes_surface]
    rcases hsel k hk with hk | hk
    · rw [hk]
      exact ⟨chooseYap s.m_plotSurface (s.unitsAt i), chooseYap_cases _ _, anew, hanew,
        by rw [hunits]; exact hanewu⟩
    · obtain ⟨yap, hyap, a, ha, hu⟩ := h.checked k hk
      obtain ⟨b, hb, hbu⟩ := hkeep yap a hyap ha
      exact ⟨yap, hyap, b, hb, by rw [hunits, hbu, hu]⟩

theorem axesOk_new : AxesOk wxDVDCCtrl.new := by
  refine ⟨heapOk_new, rfl, ?_, ?_, ?_⟩
  · intro i hi
    exact absurd (IsSelected_lt_Length hi) (Nat.not_lt_zero _)
  · intro e he
    exact absurd he (List.not_mem_nil _)
  · intro i hi
    exact absurd (IsSelected_lt_Length hi) (Nat.not_lt_zero _)

theorem axesOk_addDataSet {s : wxDVDCCtrl} (h : AxesOk s) (d : wxDVTimeSeriesDataSet) :
    AxesOk (s.AddDataSet d) := by
  have hlen : (s.AddDataSet d).m_plots.length = s.m_plots.length + 1 := by
    show (s.m_plots ++ [PlotSet.new d]).length = _
    simp
  have hsel : ∀ k, (s.AddDataSet d).m_dataSelector.IsSelected k = s.m_dataSelector.IsSelected k :=
    fun k => IsSelected_Append _ _ _ k
  have hat : ∀ k, (s.plotAt k).plot.isSome = true → (s.AddDataSet d).plotAt k = s.plotAt k := by
    intro k hk
    have hlt : k < s.m_plots.length := isSome_plot_lt s k hk
    rw [plotAt_AddDataSet, if_neg (by omega)]
  have hun : ∀ k, (s.plotAt k).plot.isSome = true → (s.AddDataSet d).unitsAt k = s.unitsAt k := by
    intro k hk
    unfold unitsAt
    rw [hat k hk]
  refine ⟨heapOk_addDataSet h.heap d, ?_, ?_, ?_, ?_⟩
  · show (s.m_dataSelector.Append _ _).Length = _
    rw [Length_Append, hlen, h.len]
  · intro k hk
    rw [hsel] at hk
    rw [hat k (h.computed k hk)]
    exact h.computed k hk
  · intro e he
    obtain ⟨k, hk, hp, hyap, a, ha, hu⟩ := h.entries e he
    exact ⟨k, by rw [hat k hk]; exact hk, by rw [hat k hk]; exact hp, hyap, a, ha,
      by rw [hun k hk]; exact hu⟩
  · intro k hk
    rw [hsel] at hk
    obtain ⟨yap, hyap, a, ha, hu⟩ := h.checked k hk
    exact ⟨yap, hyap, a, ha, by rw [hun k (h.computed k hk)]; exact hu⟩

theorem axesOk_apply {s : wxDVDCCtrl} (h : AxesOk s) (op : Op) (hok : okAxes s op = true) :
    AxesOk (Op.apply s op) := by
  cases op with
  | addDataSet d => exact axesOk_addDataSet h d
  | selectDataSetAtIndex index =>
    show AxesOk (SelectDataSetAtIndex s index)
    unfold SelectDataSetAtIndex
    split
    · exact h
    · rename_i hin
      have h0 : 0 ≤ index := by omega
      have h1 : index < (s.m_plots.length : Int) := by omega
      have hi : index.toNat < s.m_plots.length := by omega
      have hfit : unitsFit s index.toNat = true := by
        simp only [okAxes, Bool.or_eq_true, decide_eq_true_eq] at hok
        rcases hok with hok | hok
        · exact absurd hok hin
        · exact hok
      rw [ShowPlotAtIndex_inRange
        { s with m_dataSelector := s.m_dataSelector.SelectRowInCol index.toNat true } index h0 h1]
      apply axesOk_show h index.toNat hi _ _ _ hfit
      · rw [← values_length, ← values_length, SelectRowInCol_values, List.length_set]
      · intro k
        rw [IsSelected_SelectRowInCol]
        by_cases hk : k = index.toNat
        · intro _; exact Or.inl hk
        · simp [hk]
  | setSelectedNames names r => exact absurd hok (by simp [okAxes])
  | checkBoxClick row => exact absurd hok (by simp [okAxes])
  | showPlotAtIndex index =>
    show AxesOk (ShowPlotAtIndex s index)
    unfold ShowPlotAtIndex
    split
    · rename_i hin
      have hi : index.toNat < s.m_plots.length := by omega
      have hfit : unitsFit s index.toNat = true := by
        simp only [okAxes, Bool.or_eq_true, decide_eq_true_eq] at hok
        rcases hok with hok | hok
        · omega
        · exact hok
      exact axesOk_show h index.toNat hi s.m_dataSelector rfl (fun k hk => Or.inr hk) hfit
    · exact h
  | hidePlotAtIndex index =>
    show AxesOk (HidePlotAtIndex s index)
    unfold HidePlotAtIndex
    split
    · exact h
    · rename_i hin
      have hc : othersChecked s index.toNat = true := by
        simp only [okAxes, Bool.or_eq_true, decide_eq_true_eq] at hok
        rcases hok with hok | hok
        · exact absurd hok hin
        · exact hok
      exact axesOk_hide h index.toNat hc

theorem axesOk_run (ops : List Op) {s : wxDVDCCtrl} (h : AxesOk s)
    (hok : admissible okAxes s ops = true) : AxesOk (run s ops) := by
  induction ops generalizing s with
  | nil => exact h
  | cons op ops ih =>
    unfold admissible at hok
    rw [Bool.and_eq_true] at hok
    exact ih (axesOk_apply h op hok.1) hok.2

theorem axesOk_shownAt {s : wxDVDCCtrl} (h : AxesOk s) (i : Nat) (yap : AxisPos)
    (hs : s.plotShownAt i yap) :
    (yap = AxisPos.Y_LEFT ∨ yap = AxisPos.Y_RIGHT) ∧
      ∃ a, s.m_plotSurface.GetAxis yap = some a ∧ a.units = s.unitsAt i := by
  obtain ⟨hsome, e, he, hp, hy⟩ := hs
  obtain ⟨k, hksome, hpk, hyap, a, ha, hu⟩ := h.entries e he
  have hki : k = i := by
    by_contra hne
    have := ptr_ne_of_ne h.heap i k (isSome_plot_lt s i hsome) (isSome_plot_lt s k hksome)
      hne hsome hksome
    exact this (hpk.symm.trans hp)
  rw [← hy, ← hki]
  exact ⟨hyap, a, ha, hu⟩

end wxDVDCCtrl

namespace wxDVDCCtrl

/-- C3, amended: in every state reached from a new control by `AddDataSet`,
`SelectDataSetAtIndex` and `ShowPlotAtIndex` for a row whose units fit the Y axes (they
are the units of an existing Y axis, or one of the two Y axes does not exist), and
`HidePlotAtIndex` called when every plot that stays attached is the plot of a checked row
and is attached once (calls with an index that is not a row are free), every plot of a
plot set that is attached to the surface is attached on the left or the right Y axis,
that axis exists and its units are the units of the dataset of the plot; so the shown
plots have at most two distinct units. -/
theorem shown_plots_match_axis_units (ops : List Op)
    (hok : admissible okAxes wxDVDCCtrl.new ops = true) :
    (∀ i yap, (run wxDVDCCtrl.new ops).plotShownAt i yap →
      (yap = AxisPos.Y_LEFT ∨ yap = AxisPos.Y_RIGHT) ∧
      ∃ a, (run wxDVDCCtrl.new ops).m_plotSurface.GetAxis yap = some a ∧
        a.units = (run wxDVDCCtrl.new ops).unitsAt i) ∧
    (∃ u1 u2, ∀ i, (run wxDVDCCtrl.new ops).plotShown i →
      (run wxDVDCCtrl.new ops).unitsAt i = u1 ∨ (run wxDVDCCtrl.new ops).unitsAt i = u2) := by
  have h := axesOk_run ops axesOk_new hok
  refine ⟨fun i yap hs => axesOk_shownAt h i yap hs, ?_⟩
  refine ⟨y1Units (run wxDVDCCtrl.new ops).m_plotSurface,
    y2Units (run wxDVDCCtrl.new ops).m_plotSurface, ?_⟩
  intro i hs
  obtain ⟨hsome, e, he, hp⟩ := hs
  obtain ⟨hyap, a, ha, hu⟩ := axesOk_shownAt h i e.yap ⟨hsome, e, he, hp, rfl⟩
  rcases hyap with hy | hy
  · rw [hy] at ha
    left
    rw [y1Units_of_some _ a ha, hu]
  · rw [hy] at ha
    right
    rw [y2Units_of_some _ a ha, hu]

/-- C3, amended, at a sample sequence of operations.  The plot of row 0 is shown without
its row being checked, and hiding it moves the plot of row 1 with the right axis to the
left; at the end the plot of row 2 is alone on the surface, on the right axis in kW, and
the left axis in V is kept for the checked row 1. -/
theorem shown_plots_match_axis_units_witness :
    admissible okAxes wxDVDCCtrl.new sampleAxesOps = true ∧
    ((run wxDVDCCtrl.new (sampleAxesOps.take 5)).plotShownAt 0 AxisPos.Y_LEFT ∧
      (run wxDVDCCtrl.new (sampleAxesOps.take 5)).m_dataSelector.IsSelected 0 = false ∧
      (run wxDVDCCtrl.new (sampleAxesOps.take 5)).plotShownAt 1 AxisPos.Y_RIGHT) ∧
    ((run wxDVDCCtrl.new (sampleAxesOps.take 6)).plotShownAt 1 AxisPos.Y_LEFT ∧
      ((run wxDVDCCtrl.new (sampleAxesOps.take 6)).m_plotSurface.GetAxis AxisPos.Y_LEFT).map
        (fun a => a.units) = some "V" ∧
      (run wxDVDCCtrl.new (sampleAxesOps.take 6)).m_plotSurface.GetAxis AxisPos.Y_RIGHT = none) ∧
    ((run wxDVDCCtrl.new sampleAxesOps).plotShownAt 2 AxisPos.Y_RIGHT ∧
      ¬ (run wxDVDCCtrl.new sampleAxesOps).plotShown 1 ∧
      ((run wxDVDCCtrl.new sampleAxesOps).m_plotSurface.GetAxis AxisPos.Y_LEFT).map
        (fun a => a.units) = some "V" ∧
      ((run wxDVDCCtrl.new sampleAxesOps).m_plotSurface.GetAxis AxisPos.Y_RIGHT).map
        (fun a => a.units) = some "kW") ∧
    (∀ i yap, (run wxDVDCCtrl.new sampleAxesOps).plotShownAt i yap →
      (yap = AxisPos.Y_LEFT ∨ yap = AxisPos.Y_RIGHT) ∧
      ∃ a, (run wxDVDCCtrl.new sampleAxesOps).m_plotSurface.GetAxis yap = some a ∧
        a.units = (run wxDVDCCtrl.new sampleAxesOps).unitsAt i) ∧
    (∃ u1 u2, ∀ i, (run wxDVDCCtrl.new sampleAxesOps).plotShown i →
      (run wxDVDCCtrl.new sampleAxesOps).unitsAt i = u1 ∨
        (run wxDVDCCtrl.new sampleAxesOps).unitsAt i = u2) :=
  ⟨by decide, by decide, by decide, by decide,
    shown_plots_match_axis_units sampleAxesOps (by decide)⟩

/-- C3 fails as stated.  After three datasets in kW, V and A are selected one after the
other, the plot of row 1 (V) is attached on the right axis, whose units are A, and the
plots of rows 0, 1 and 2, of three different units, are all shown. -/
theorem shown_plots_axis_units_counterexample :
    (run wxDVDCCtrl.new threeUnitsOps).plotShownAt 1 AxisPos.Y_RIGHT ∧
    (run wxDVDCCtrl.new threeUnitsOps).unitsAt 1 = "V" ∧
    ((run wxDVDCCtrl.new threeUnitsOps).m_plotSurface.GetAxis AxisPos.Y_RIGHT).map
      (fun a => a.units) = some "A" ∧
    (run wxDVDCCtrl.new threeUnitsOps).plotShown 0 ∧
    (run wxDVDCCtrl.new threeUnitsOps).plotShown 1 ∧
    (run wxDVDCCtrl.new threeUnitsOps).plotShown 2 ∧
    (run wxDVDCCtrl.new threeUnitsOps).unitsAt 0 = "kW" ∧
    (run wxDVDCCtrl.new threeUnitsOps).unitsAt 2 = "A" := by
  decide

/-- A plot that stays attached without its row being checked loses its axis: after
`ShowPlotAtIndex(0)`, `ShowPlotAtIndex(1)` and `HidePlotAtIndex(0)` with no row checked,
the plot of row 1 is attached on the right axis and there is no right axis.  The sequence
uses `AddDataSet`, `ShowPlotAtIndex` and `HidePlotAtIndex` only, and every row's units fit
the axes at its call. -/
theorem shown_unchecked_loses_axis :
    admissible okAxes wxDVDCCtrl.new (showHideOps.take 4) = true ∧
    admissible okAxes wxDVDCCtrl.new showHideOps = false ∧
    (run wxDVDCCtrl.new showHideOps).plotShownAt 1 AxisPos.Y_RIGHT ∧
    (run wxDVDCCtrl.new showHideOps).m_plotSurface.GetAxis AxisPos.Y_RIGHT = none := by
  decide

/-- A plot attached twice loses its axis: after the plot of the checked row 1 is shown
a second time, `HidePlotAtIndex(0)` moves one of its two entries to the left with the
right axis, and the other entry stays on the right axis, which is gone. -/
theorem shown_twice_loses_axis :
    admissible okAxes wxDVDCCtrl.new (shownTwiceOps.take 5) = true ∧
    admissible okAxes wxDVDCCtrl.new shownTwiceOps = false ∧
    (run wxDVDCCtrl.new shownTwiceOps).m_dataSelector.IsSelected 1 = true ∧
    (run wxDVDCCtrl.new shownTwiceOps).plotShownAt 1 AxisPos.Y_RIGHT ∧
    (run wxDVDCCtrl.new shownTwiceOps).m_plotSurface.GetAxis AxisPos.Y_RIGHT = none := by
  decide

end wxDVDCCtrl

/-! ## C11: adding and removing datasets -/

theorem map_eraseIdx_eq {α β : Type} (f : α → β) (l : List α) (i : Nat) :
    (l.eraseIdx i).map f = (l.map f).eraseIdx i := by
  induction l generalizing i with
  | nil => rfl
  | cons a l ih =>
    cases i with
    | zero => rfl
    | succ i => simp [List.eraseIdx, ih]

namespace wxDVSelectionListCtrl

theorem rowKeys_length (l : wxDVSelectionListCtrl) : l.rowKeys.length = l.Length := by
  simp [rowKeys, Length]

theorem rowKeys_Append (l : wxDVSelectionListCtrl) (name group : String) :
    (l.Append name group).rowKeys = l.rowKeys ++ [(name, group)] := by
  simp [rowKeys, wxDVSelectionListCtrl.Append]

theorem rowKeys_RemoveAll (l : wxDVSelectionListCtrl) : l.RemoveAll.rowKeys = [] := rfl

theorem RemoveAt_of_lt (l : wxDVSelectionListCtrl) (i : Nat) (hi : i < l.m_itemList.length) :
    l.RemoveAt (i : Int) = { l with m_itemList := l.m_itemList.eraseIdx i } := by
  unfold RemoveAt
  have h : ¬ ((i : Int) < 0 ∨ (i : Int) ≥ (l.m_itemList.length : Int)) := by omega
  rw [if_neg h, Int.toNat_ofNat]

theorem rowKeys_getElem? (l : wxDVSelectionListCtrl) (i : Nat) :
    l.rowKeys[i]? = (l.m_itemList[i]?).map (fun r => (r.label, r.group)) := by
  simp [rowKeys]

end wxDVSelectionListCtrl

namespace wxDVDCCtrl

open wxPLPlotCtrl wxDVSelectionListCtrl

/-- What the search loop of `RemoveDataSet` returns: -1 when no plot set among the first
`n` holds the dataset, and otherwise the index of the last one that does. -/
theorem findDataSetLoop_spec (plots : List PlotSet) (d : wxDVTimeSeriesDataSet) (n : Nat) :
    (findDataSetLoop plots d n = -1 ∧
        ∀ i, i < n → (plots.getD i default).dataset.addr ≠ d.addr) ∨
      ∃ i, i < n ∧ findDataSetLoop plots d n = (i : Int) ∧
        (plots.getD i default).dataset.addr = d.addr ∧
        ∀ j, i < j → j < n → (plots.getD j default).dataset.addr ≠ d.addr := by
  induction n with
  | zero =>
    left
    exact ⟨rfl, fun i hi => absurd hi (Nat.not_lt_zero _)⟩
  | succ n ih =>
    have hstep : findDataSetLoop plots d (n + 1) =
        if (plots.getD n default).dataset.addr = d.addr then (n : Int)
        else findDataSetLoop plots d n := by
      simp [findDataSetLoop, List.range_succ, List.foldl_append]
    by_cases hn : (plots.getD n default).dataset.addr = d.addr
    · right
      refine ⟨n, Nat.lt_succ_self n, ?_, hn, ?_⟩
      · rw [hstep, if_pos hn]
      · intro j h1 h2
        omega
    · rw [hstep, if_neg hn]
      rcases ih with ⟨h1, h2⟩ | ⟨i, hi, h1, h2, h3⟩
      · left
        refine ⟨h1, ?_⟩
        intro i hi
        by_cases hin : i = n
        · rw [hin]; exact hn
        · exact h2 i (by omega)
      · right
        refine ⟨i, by omega, h1, h2, ?_⟩
        intro j hj1 hj2
        by_cases hjn : j = n
        · rw [hjn]; exact hn
        · exact h3 j hj1 (by omega)

theorem mem_plots_iff_getD (plots : List PlotSet) (P : PlotSet → Prop) :
    (∃ p ∈ plots, P p) ↔ ∃ i, i < plots.length ∧ P (plots.getD i default) := by
  constructor
  · rintro ⟨p, hp, hP⟩
    obtain ⟨i, hi, hget⟩ := List.getElem_of_mem hp
    refine ⟨i, hi, ?_⟩
    rw [List.getD_eq_getElem?_getD, List.getElem?_eq_getElem hi]
    simpa [hget] using hP
  · rintro ⟨i, hi, hP⟩
    rw [List.getD_eq_getElem?_getD, List.getElem?_eq_getElem hi] at hP
    exact ⟨plots[i], List.getElem_mem hi, by simpa using hP⟩

/-- `RemoveDataSet` of a dataset no plot set holds returns the state it got. -/
theorem RemoveDataSet_not_held (s : wxDVDCCtrl) (d : wxDVTimeSeriesDataSet)
    (h : ∀ p ∈ s.m_plots, p.dataset.addr ≠ d.addr) : RemoveDataSet s d = s := by
  unfold RemoveDataSet
  rcases findDataSetLoop_spec s.m_plots d s.m_plots.length with ⟨h1, _⟩ | ⟨i, hi, _, h2, _⟩
  · simp [h1]
  · exfalso
    have := (mem_plots_iff_getD s.m_plots (fun p => p.dataset.addr = d.addr)).mpr ⟨i, hi, h2⟩
    obtain ⟨p, hp, hpa⟩ := this
    exact h p hp hpa

/-- `RemoveDataSet` of a dataset some plot set holds, in a state with an empty
`m_currentlyShownIndices`: the last plot set holding it and the row of the same index
are erased, and the plot of that plot set is removed from the surface. -/
theorem RemoveDataSet_held (s : wxDVDCCtrl) (d : wxDVTimeSeriesDataSet)
    (hshown : s.m_currentlyShownIndices = [])
    (h : ∃ p ∈ s.m_plots, p.dataset.addr = d.addr) :
    ∃ i, i < s.m_plots.length ∧ (s.plotAt i).dataset.addr = d.addr ∧
      (∀ j, i < j → j < s.m_plots.length → (s.plotAt j).dataset.addr ≠ d.addr) ∧
      RemoveDataSet s d =
        { s with
          m_dataSelector := s.m_dataSelector.RemoveAt (i : Int)
          m_plotSurface := s.m_plotSurface.RemovePlot (s.plotAt i).plotPtr
          m_plots := s.m_plots.eraseIdx i } := by
  rcases findDataSetLoop_spec s.m_plots d s.m_plots.length with ⟨_, h2⟩ | ⟨i, hi, h1, h2, h3⟩
  · exfalso
    obtain ⟨i, hi, hP⟩ :=
      (mem_plots_iff_getD s.m_plots (fun p => p.dataset.addr = d.addr)).mp h
    exact h2 i hi hP
  · refine ⟨i, hi, h2, h3, ?_⟩
    unfold RemoveDataSet
    have hneg : ¬ ((i : Int) < 0) := by omega
    simp only [h1, hneg, if_false, hshown, List.not_mem_nil, Int.toNat_ofNat]

theorem rowsOk_new : RowsOk wxDVDCCtrl.new := ⟨rfl, rfl⟩

theorem rowsOk_length {s : wxDVDCCtrl} (h : RowsOk s) :
    s.m_plots.length = s.m_dataSelector.Length := by
  have := congrArg List.length h.keys
  rw [rowKeys_length] at this
  simpa [plotKeys] using this.symm

theorem rowsOk_row {s : wxDVDCCtrl} (h : RowsOk s) (i : Nat) (hi : i < s.m_plots.length) :
    ∃ r, s.m_dataSelector.m_itemList[i]? = some r ∧
      r.label = (s.plotAt i).dataset.titleWithUnits ∧
      r.group = (s.plotAt i).dataset.groupName := by
  have hlen := rowsOk_length h
  have hi2 : i < s.m_dataSelector.m_itemList.length := by
    rw [hlen] at hi
    exact hi
  refine ⟨s.m_dataSelector.m_itemList[i], List.getElem?_eq_getElem hi2, ?_⟩
  have hk := congrArg (fun l => l[i]?) h.keys
  simp only [rowKeys_getElem?, plotKeys, List.getElem?_map, List.getElem?_eq_getElem hi2,
    List.getElem?_eq_getElem hi, Option.map_some', Option.some.injEq, Prod.mk.injEq] at hk
  unfold plotAt
  rw [List.getD_eq_getElem?_getD, List.getElem?_eq_getElem hi]
  exact hk

theorem rowsOk_addDataSet {s : wxDVDCCtrl} (h : RowsOk s) (d : wxDVTimeSeriesDataSet) :
    RowsOk (s.AddDataSet d) := by
  refine ⟨?_, h.shown⟩
  show (s.m_dataSelector.Append d.titleWithUnits d.groupName).rowKeys = _
  rw [rowKeys_Append, h.keys]
  simp [plotKeys, AddDataSet, PlotSet.new]

theorem rowsOk_removeAll {s : wxDVDCCtrl} (h : RowsOk s) : RowsOk s.RemoveAllDataSets :=
  ⟨rfl, h.shown⟩

theorem rowsOk_removeDataSet {s : wxDVDCCtrl} (h : RowsOk s) (d : wxDVTimeSeriesDataSet) :
    RowsOk (s.RemoveDataSet d) := by
  by_cases hd : ∃ p ∈ s.m_plots, p.dataset.addr = d.addr
  · obtain ⟨i, hi, _, _, heq⟩ := RemoveDataSet_held s d h.shown hd
    have hi2 : i < s.m_dataSelector.m_itemList.length := by
      have := rowsOk_length h
      unfold Length at this
      omega
    rw [heq]
    refine ⟨?_, h.shown⟩
    show (s.m_dataSelector.RemoveAt (i : Int)).rowKeys = (s.m_plots.eraseIdx i).map _
    rw [RemoveAt_of_lt _ _ hi2, map_eraseIdx_eq]
    show (s.m_dataSelector.m_itemList.eraseIdx i).map _ = _
    rw [map_eraseIdx_eq]
    exact congrArg (fun l => l.eraseIdx i) h.keys
  · rw [RemoveDataSet_not_held s d (by
      intro p hp hpa
      exact hd ⟨p, hp, hpa⟩)]
    exact h

theorem rowsOk_applyDataSetOp {s : wxDVDCCtrl} (h : RowsOk s) (op : DataSetOp) :
    RowsOk (DataSetOp.apply s op) := by
  cases op with
  | addDataSet d => exact rowsOk_addDataSet h d
  | removeDataSet d => exact rowsOk_removeDataSet h d
  | removeAllDataSets => exact rowsOk_removeAll h

theorem rowsOk_runDataSetOps {s : wxDVDCCtrl} (h : RowsOk s) (ops : List DataSetOp) :
    RowsOk (runDataSetOps s ops) := by
  induction ops generalizing s with
  | nil => exact h
  | cons op ops ih => exact ih (rowsOk_applyDataSetOp h op)

end wxDVDCCtrl

/-! ### The other operations keep the rows and the plot sets in step -/

theorem map_set_of_eq {α β : Type} (f : α → β) (l : List α) (i : Nat) (r r2 : α)
    (h : l[i]? = some r) (hf : f r2 = f r) : (l.set i r2).map f = l.map f := by
  apply List.ext_getElem?
  intro j
  rw [List.getElem?_map, List.getElem?_set, List.getElem?_map]
  by_cases hij : i = j
  · subst hij
    have hlt : i < l.length := by
      by_contra hge
      rw [List.getElem?_eq_none (Nat.le_of_not_lt hge)] at h
      exact Option.noConfusion h
    simp [hlt, h, hf]
  · simp [hij]

namespace wxDVSelectionListCtrl

theorem rowKeys_SelectRowInCol (l : wxDVSelectionListCtrl) (i : Nat) (b : Bool) :
    (l.SelectRowInCol i b).rowKeys = l.rowKeys := by
  unfold SelectRowInCol rowKeys
  cases h : l.m_itemList[i]? with
  | none => rfl
  | some r => exact map_set_of_eq _ _ _ r _ h rfl

theorem rowKeys_Enable (l : wxDVSelectionListCtrl) (i : Nat) (b : Bool) :
    (l.Enable i b).rowKeys = l.rowKeys := by
  unfold Enable rowKeys
  cases h : l.m_itemList[i]? with
  | none => rfl
  | some r => exact map_set_of_eq _ _ _ r _ h rfl

theorem rowKeys_toggle (l l2 : wxDVSelectionListCtrl) (row : Nat)
    (h : l.toggle row = some l2) : l2.rowKeys = l.rowKeys := by
  unfold toggle at h
  cases hr : l.m_itemList[row]? with
  | none => rw [hr] at h; exact Option.noConfusion h
  | some r =>
    rw [hr] at h
    simp only at h
    split at h
    · cases h
      exact map_set_of_eq _ _ _ r _ hr rfl
    · exact Option.noConfusion h

theorem rowKeys_SelectRowWithNameInCol (l : wxDVSelectionListCtrl) (name : String) :
    (l.SelectRowWithNameInCol name).1.rowKeys = l.rowKeys := by
  unfold SelectRowWithNameInCol
  cases findLabel name l.m_itemList 0 with
  | none => rfl
  | some i => exact rowKeys_SelectRowInCol _ _ _

end wxDVSelectionListCtrl

namespace wxDVDCCtrl

open wxPLPlotCtrl wxDVSelectionListCtrl

theorem rowKeys_enableLoop (l : wxDVSelectionListCtrl) (n : Nat) (f : Nat → Bool) :
    (enableLoop l n f).rowKeys = l.rowKeys := by
  induction n with
  | zero => simp [enableLoop]
  | succ n ih =>
    have hstep : enableLoop l (n + 1) f = (enableLoop l n f).Enable n (f n) := by
      simp [enableLoop, List.range_succ, List.foldl_append]
    rw [hstep, rowKeys_Enable, ih]

theorem plotKeys_congr {s t : wxDVDCCtrl} (hlen : t.m_plots.length = s.m_plots.length)
    (h : ∀ k, (t.plotAt k).dataset = (s.plotAt k).dataset) : t.plotKeys = s.plotKeys := by
  unfold plotKeys
  apply List.ext_getElem?
  intro k
  rw [List.getElem?_map, List.getElem?_map]
  have hk := h k
  unfold plotAt at hk
  rw [List.getD_eq_getElem?_getD, List.getD_eq_getElem?_getD] at hk
  by_cases hlt : k < s.m_plots.length
  · have hlt2 : k < t.m_plots.length := by omega
    rw [List.getElem?_eq_getElem hlt, List.getElem?_eq_getElem hlt2] at hk ⊢
    simp only [Option.getD_some] at hk
    simp [hk]
  · rw [List.getElem?_eq_none (by omega), List.getElem?_eq_none (by omega)]

/-- The three things `RowsOk` speaks of are the same in two states. -/
theorem rowsOk_of_same {s t : wxDVDCCtrl} (h : RowsOk s)
    (h1 : t.m_dataSelector.rowKeys = s.m_dataSelector.rowKeys)
    (h2 : t.plotKeys = s.plotKeys)
    (h3 : t.m_currentlyShownIndices = s.m_currentlyShownIndices) : RowsOk t :=
  ⟨by rw [h1, h2]; exact h.keys, by rw [h3]; exact h.shown⟩

theorem rowsOk_refresh {s : wxDVDCCtrl} (h : RowsOk s) : RowsOk (RefreshDisabledCheckBoxes s) := by
  rw [RefreshDisabledCheckBoxes_eq]
  exact rowsOk_of_same h (rowKeys_enableLoop _ _ _) rfl rfl

theorem rowsOk_showCore {s : wxDVDCCtrl} (h : RowsOk s) (i : Nat) : RowsOk (showCore s i) := by
  refine rowsOk_of_same h rfl (plotKeys_congr (showCore_length s i) ?_) rfl
  intro k
  show (plotAt { s with m_plots := s.m_plots.set i (shownPlotSet s i) } k).dataset = _
  rw [plotAt_set]
  split
  · rename_i hik
    rw [shownPlotSet_dataset, hik.1]
  · rfl

theorem hideCore_shownIndices (s : wxDVDCCtrl) (i : Nat) :
    (hideCore s i).m_currentlyShownIndices = s.m_currentlyShownIndices := by
  unfold hideCore
  simp only
  split_ifs <;> rfl

theorem rowsOk_hideCore {s : wxDVDCCtrl} (h : RowsOk s) (i : Nat) : RowsOk (hideCore s i) := by
  refine rowsOk_of_same h ?_ (plotKeys_congr (hideCore_length s i) ?_) (hideCore_shownIndices s i)
  · rw [hideCore_selector]
  · intro k
    exact (hideCore_plotAt s i k).2

theorem rowsOk_ShowPlotAtIndex {s : wxDVDCCtrl} (h : RowsOk s) (index : Int) :
    RowsOk (ShowPlotAtIndex s index) := by
  unfold ShowPlotAtIndex
  split
  · exact rowsOk_refresh (rowsOk_showCore h _)
  · exact h

theorem rowsOk_HidePlotAtIndex {s : wxDVDCCtrl} (h : RowsOk s) (index : Int) :
    RowsOk (HidePlotAtIndex s index) := by
  unfold HidePlotAtIndex
  split
  · exact h
  · exact rowsOk_refresh (rowsOk_hideCore h _)

theorem rowsOk_selector {s : wxDVDCCtrl} (h : RowsOk s) (l : wxDVSelectionListCtrl)
    (hl : l.rowKeys = s.m_dataSelector.rowKeys) : RowsOk { s with m_dataSelector := l } :=
  rowsOk_of_same h hl rfl rfl

theorem rowsOk_SelectDataSetAtIndex {s : wxDVDCCtrl} (h : RowsOk s) (index : Int) :
    RowsOk (SelectDataSetAtIndex s index) := by
  unfold SelectDataSetAtIndex
  split
  · exact h
  · exact rowsOk_ShowPlotAtIndex (rowsOk_selector h _ (rowKeys_SelectRowInCol _ _ _)) _

theorem rowsOk_checkBoxClick {s : wxDVDCCtrl} (h : RowsOk s) (row : Nat) :
    RowsOk (checkBoxClick s row) := by
  unfold checkBoxClick
  cases ht : s.m_dataSelector.toggle row with
  | none => exact h
  | some l =>
    have h1 := rowsOk_selector h l (rowKeys_toggle _ _ _ ht)
    show RowsOk (OnDataChannelSelection { s with m_dataSelector := l })
    unfold OnDataChannelSelection
    simp only
    split
    · exact rowsOk_ShowPlotAtIndex h1 _
    · exact rowsOk_HidePlotAtIndex h1 _

theorem rowsOk_setSelectedNamesStep {s : wxDVDCCtrl} (h : RowsOk s) (r : Bool)
    (token : String) : RowsOk (setSelectedNamesStep r s token) := by
  have h1 := rowsOk_selector h _ (rowKeys_SelectRowWithNameInCol s.m_dataSelector token)
  unfold setSelectedNamesStep
  simp only
  split_ifs <;> first | exact h1 | exact rowsOk_ShowPlotAtIndex h1 _

theorem rowsOk_SetSelectedNames {s : wxDVDCCtrl} (h : RowsOk s) (names : String) (r : Bool) :
    RowsOk (SetSelectedNames s names r) := by
  unfold SetSelectedNames
  generalize wxStringTokenizer names ';' = tokens
  induction tokens generalizing s with
  | nil => exact h
  | cons t ts ih => exact ih (rowsOk_setSelectedNamesStep h r t)

theorem rowsOk_applyOp {s : wxDVDCCtrl} (h : RowsOk s) (op : Op) : RowsOk (Op.apply s op) := by
  cases op with
  | addDataSet d => exact rowsOk_addDataSet h d
  | selectDataSetAtIndex index => exact rowsOk_SelectDataSetAtIndex h index
  | setSelectedNames names r => exact rowsOk_SetSelectedNames h names r
  | checkBoxClick row => exact rowsOk_checkBoxClick h row
  | showPlotAtIndex index => exact rowsOk_ShowPlotAtIndex h index
  | hidePlotAtIndex index => exact rowsOk_HidePlotAtIndex h index

/-- The rows and the plot sets stay in step under every sequence of calls, those that
select, show and hide included. -/
theorem rowsOk_runEither {s : wxDVDCCtrl} (h : RowsOk s) (ops : List (DataSetOp ⊕ Op)) :
    RowsOk (runEither s ops) := by
  induction ops generalizing s with
  | nil => exact h
  | cons op ops ih =>
    apply ih
    cases op with
    | inl o => exact rowsOk_applyDataSetOp h o
    | inr o => exact rowsOk_applyOp h o

/-- What `RowsOk` gives in one state, for a dataset `d`: as many rows as plot sets, row
`i` named after the dataset of `m_plots[i]`, `RemoveDataSet` without effect when `d` is
not held and erasing one index from both lists when it is, and the indices of the rows
within `m_plots`. -/
theorem rowsOk_spec {s : wxDVDCCtrl} (h : RowsOk s) (d : wxDVTimeSeriesDataSet) :
    s.m_plots.length = s.m_dataSelector.Length ∧
    (∀ i, i < s.m_plots.length →
      ∃ r, s.m_dataSelector.m_itemList[i]? = some r ∧
        r.label = (s.plotAt i).dataset.titleWithUnits ∧
        r.group = (s.plotAt i).dataset.groupName) ∧
    ((∀ p ∈ s.m_plots, p.dataset.addr ≠ d.addr) → s.RemoveDataSet d = s) ∧
    ((∃ p ∈ s.m_plots, p.dataset.addr = d.addr) →
      ∃ i, i < s.m_plots.length ∧ (s.plotAt i).dataset.addr = d.addr ∧
        (s.RemoveDataSet d).m_plots = s.m_plots.eraseIdx i ∧
        (s.RemoveDataSet d).m_dataSelector.m_itemList =
          s.m_dataSelector.m_itemList.eraseIdx i ∧
        (s.RemoveDataSet d).m_plots.length + 1 = s.m_plots.length) ∧
    (∀ i, i < s.m_dataSelector.Length → i < s.m_plots.length) ∧
    (∀ k ∈ s.m_dataSelector.GetSelectionsInCol, k < s.m_plots.length) := by
  have hlen := rowsOk_length h
  refine ⟨hlen, rowsOk_row h, RemoveDataSet_not_held s d, ?_, ?_, ?_⟩
  · intro hd
    obtain ⟨i, hi, hia, _, heq⟩ := RemoveDataSet_held s d h.shown hd
    have hi2 : i < s.m_dataSelector.m_itemList.length := by
      unfold Length at hlen
      omega
    refine ⟨i, hi, hia, ?_, ?_, ?_⟩
    · rw [heq]
    · rw [heq]
      show (s.m_dataSelector.RemoveAt (i : Int)).m_itemList = _
      rw [RemoveAt_of_lt _ _ hi2]
    · rw [heq]
      show (s.m_plots.eraseIdx i).length + 1 = _
      rw [List.length_eraseIdx, if_pos hi]
      omega
  · intro i hi
    omega
  · intro k hk
    have := IsSelected_lt_Length (mem_GetSelectionsInCol.mp hk)
    omega

/-- C11: in the state `s` after any sequence of `AddDataSet`, `RemoveDataSet` and
`RemoveAllDataSets` on a new control, `m_plots` has as many entries as the selection list
has rows, and row `i` carries the name and the group of the dataset of `m_plots[i]`;
`RemoveDataSet(d)` returns `s` when no plot set holds `d`, and when one does it erases
one index `i`, whose plot set holds `d`, from `m_plots` and from the rows, the others
keeping their order; so every `i < m_dataSelector->Length()` and every selected row `k`
is an index of `m_plots`. -/
theorem dataSets_rows_follow_plots (ops : List DataSetOp) (d : wxDVTimeSeriesDataSet) :
    (runDataSetOps wxDVDCCtrl.new ops).m_plots.length =
      (runDataSetOps wxDVDCCtrl.new ops).m_dataSelector.Length ∧
    (∀ i, i < (runDataSetOps wxDVDCCtrl.new ops).m_plots.length →
      ∃ r, (runDataSetOps wxDVDCCtrl.new ops).m_dataSelector.m_itemList[i]? = some r ∧
        r.label = ((runDataSetOps wxDVDCCtrl.new ops).plotAt i).dataset.titleWithUnits ∧
        r.group = ((runDataSetOps wxDVDCCtrl.new ops).plotAt i).dataset.groupName) ∧
    ((∀ p ∈ (runDataSetOps wxDVDCCtrl.new ops).m_plots, p.dataset.addr ≠ d.addr) →
      (runDataSetOps wxDVDCCtrl.new ops).RemoveDataSet d = runDataSetOps wxDVDCCtrl.new ops) ∧
    ((∃ p ∈ (runDataSetOps wxDVDCCtrl.new ops).m_plots, p.dataset.addr = d.addr) →
      ∃ i, i < (runDataSetOps wxDVDCCtrl.new ops).m_plots.length ∧
        ((runDataSetOps wxDVDCCtrl.new ops).plotAt i).dataset.addr = d.addr ∧
        ((runDataSetOps wxDVDCCtrl.new ops).RemoveDataSet d).m_plots =
          (runDataSetOps wxDVDCCtrl.new ops).m_plots.eraseIdx i ∧
        ((runDataSetOps wxDVDCCtrl.new ops).RemoveDataSet d).m_dataSelector.m_itemList =
          (runDataSetOps wxDVDCCtrl.new ops).m_dataSelector.m_itemList.eraseIdx i ∧
        ((runDataSetOps wxDVDCCtrl.new ops).RemoveDataSet d).m_plots.length + 1 =
          (runDataSetOps wxDVDCCtrl.new ops).m_plots.length) ∧
    (∀ i, i < (runDataSetOps wxDVDCCtrl.new ops).m_dataSelector.Length →
      i < (runDataSetOps wxDVDCCtrl.new ops).m_plots.length) ∧
    (∀ k ∈ (runDataSetOps wxDVDCCtrl.new ops).m_dataSelector.GetSelectionsInCol,
      k < (runDataSetOps wxDVDCCtrl.new ops).m_plots.length) :=
  rowsOk_spec (rowsOk_runDataSetOps rowsOk_new ops) d

/-- C11 at the sample sequence, which adds the kW dataset, the V dataset and the kW
dataset again: removing the dataset in A, which is not held, returns the state, and
removing the kW dataset, which is held, erases one plot set and one row. -/
theorem dataSets_rows_follow_plots_witness :
    ((∀ p ∈ (runDataSetOps wxDVDCCtrl.new sampleDataSetOps).m_plots,
        p.dataset.addr ≠ sampleA.addr) ∧
      (runDataSetOps wxDVDCCtrl.new sampleDataSetOps).RemoveDataSet sampleA =
        runDataSetOps wxDVDCCtrl.new sampleDataSetOps) ∧
    ((∃ p ∈ (runDataSetOps wxDVDCCtrl.new sampleDataSetOps).m_plots,
        p.dataset.addr = sampleKW.addr) ∧
      ∃ i, i < (runDataSetOps wxDVDCCtrl.new sampleDataSetOps).m_plots.length ∧
        ((runDataSetOps wxDVDCCtrl.new sampleDataSetOps).plotAt i).dataset.addr =
          sampleKW.addr ∧
        ((runDataSetOps wxDVDCCtrl.new sampleDataSetOps).RemoveDataSet sampleKW).m_plots =
          (runDataSetOps wxDVDCCtrl.new sampleDataSetOps).m_plots.eraseIdx i ∧
        ((runDataSetOps wxDVDCCtrl.new
            sampleDataSetOps).RemoveDataSet sampleKW).m_dataSelector.m_itemList =
          (runDataSetOps wxDVDCCtrl.new sampleDataSetOps).m_dataSelector.m_itemList.eraseIdx i ∧
        ((runDataSetOps wxDVDCCtrl.new sampleDataSetOps).RemoveDataSet sampleKW).m_plots.length
            + 1 =
          (runDataSetOps wxDVDCCtrl.new sampleDataSetOps).m_plots.length) :=
  ⟨⟨by decide, (dataSets_rows_follow_plots sampleDataSetOps sampleA).2.2.1 (by decide)⟩,
   ⟨by decide, (dataSets_rows_follow_plots sampleDataSetOps sampleKW).2.2.2.1 (by decide)⟩⟩

/-- The last of the plot sets holding the dataset is the one `RemoveDataSet` erases: after
the sample sequence the kW dataset is held at 0 and at 2, and the plot sets left are
those of 0 and 1. -/
theorem removeDataSet_erases_last :
    ((runDataSetOps wxDVDCCtrl.new sampleDataSetOps).m_plots.map
        (fun p => p.dataset.addr)) = [sampleKW.addr, sampleV.addr, sampleKW.addr] ∧
    (((runDataSetOps wxDVDCCtrl.new sampleDataSetOps).RemoveDataSet sampleKW).m_plots.map
        (fun p => p.dataset.addr)) = [sampleKW.addr, sampleV.addr] ∧
    ((runDataSetOps wxDVDCCtrl.new sampleDataSetOps).RemoveDataSet sampleKW).m_dataSelector.rowKeys
      = [(sampleKW.titleWithUnits, sampleKW.groupName),
         (sampleV.titleWithUnits, sampleV.groupName)] := by
  decide

/-- The rows follow the plot sets also when datasets are removed while their plots are
shown: after the sample sequence of calls of both kinds one plot set and one row are
left, those of the V dataset, and the row is still checked. -/
theorem sampleEither_rows :
    ((runEither wxDVDCCtrl.new sampleEitherOps).m_plots.map (fun p => p.dataset.addr)) =
      [sampleV.addr] ∧
    (runEither wxDVDCCtrl.new sampleEitherOps).m_dataSelector.rowKeys =
      [(sampleV.titleWithUnits, sampleV.groupName)] ∧
    (runEither wxDVDCCtrl.new sampleEitherOps).m_dataSelector.GetSelectionsInCol = [0] := by
  decide

/-- In the state after any sequence of calls, of both kinds, on a new control there are as
many rows as plot sets, and every selected row is an index of `m_plots`. -/
theorem runEither_inBounds (ops : List (DataSetOp ⊕ Op)) :
    (runEither wxDVDCCtrl.new ops).m_plots.length =
      (runEither wxDVDCCtrl.new ops).m_dataSelector.Length ∧
    ∀ k ∈ (runEither wxDVDCCtrl.new ops).m_dataSelector.GetSelectionsInCol,
      k < (runEither wxDVDCCtrl.new ops).m_plots.length := by
  have h := rowsOk_spec (rowsOk_runEither rowsOk_new ops) sampleKW
  exact ⟨h.1, h.2.2.2.2.2⟩

end wxDVDCCtrl

end Wex
